import Mathlib

/-!
Verification development for the `play4good_bot` Telegram webhook service
(`src/app.py`).  The Python program is shallowly embedded: module-level
mutable dicts become association lists inside a `SysState` record, the
external services (Telegram transport, GitHub issue tracker, transcription)
are driven by an `Env` oracle describing the outcome of each outbound call,
and every handler is a pure state-passing function.  Python exceptions are
modelled with `Except`: a helper that can raise returns
`SysState × Except GhErr α`, and `try/except` blocks in the source become
explicit matches on that result.  Telegram `sendMessage`-style calls catch
API-level errors internally in the source (they only print), so they are
modelled as always appending to an outbox; transport-level (network)
exceptions of those calls are outside the model.
-/

namespace Play4good

/-! ### Association-list maps modelling Python dicts

`dget`/`dset`/`dpop` mirror `d.get(k)`, `d[k] = v` and `d.pop(k, None)`.
`dset` replaces in place (keeping insertion order) exactly like a Python
dict, which matters where the source iterates over `.items()`.
-/

def dget {K V : Type} [DecidableEq K] (m : List (K × V)) (k : K) : Option V :=
  (m.find? (fun p => decide (p.1 = k))).map (·.2)

def dset {K V : Type} [DecidableEq K] (m : List (K × V)) (k : K) (v : V) :
    List (K × V) :=
  if m.any (fun p => decide (p.1 = k)) then
    m.map (fun p => if p.1 = k then (k, v) else p)
  else m ++ [(k, v)]

def dpop {K V : Type} [DecidableEq K] (m : List (K × V)) (k : K) : List (K × V) :=
  m.filter (fun p => decide (¬ p.1 = k))

/-- Number of entries stored under key `k` (1 or 0 for a well-formed dict). -/
def countKey {K V : Type} [DecidableEq K] (m : List (K × V)) (k : K) : Nat :=
  (m.filter (fun p => decide (p.1 = k))).length

/-- A well-formed dict: no key occurs twice. -/
def KeysNodup {K V : Type} (m : List (K × V)) : Prop :=
  (m.map Prod.fst).Nodup

theorem keysNodup_nil {K V : Type} : KeysNodup ([] : List (K × V)) := by
  simp [KeysNodup]

private theorem find?_append_aux {α : Type} (l₁ l₂ : List α) (p : α → Bool) :
    (l₁ ++ l₂).find? p =
      (match l₁.find? p with
        | some a => some a
        | none => l₂.find? p) := by
  induction l₁ with
  | nil => simp
  | cons a t ih =>
    by_cases hp : p a
    · simp [List.find?_cons, hp]
    · simp only [List.cons_append, List.find?_cons, hp]
      exact ih

theorem dset_keys_of_mem {K V : Type} [DecidableEq K] (m : List (K × V)) (k : K) (v : V)
    (h : m.any (fun p => decide (p.1 = k))) :
    (dset m k v).map Prod.fst = m.map Prod.fst := by
  unfold dset
  rw [if_pos h, List.map_map]
  apply List.map_congr_left
  intro p _
  by_cases hp : p.1 = k
  · simp [hp]
  · simp [hp]

theorem keysNodup_dset {K V : Type} [DecidableEq K] {m : List (K × V)}
    (h : KeysNodup m) (k : K) (v : V) : KeysNodup (dset m k v) := by
  unfold KeysNodup
  by_cases hmem : m.any (fun p => decide (p.1 = k))
  · rw [dset_keys_of_mem m k v hmem]
    exact h
  · unfold dset
    rw [if_neg hmem, List.map_append]
    simp only [List.map_cons, List.map_nil]
    rw [List.nodup_append]
    refine ⟨h, List.nodup_singleton k, ?_⟩
    intro a ha hb
    simp only [List.mem_singleton] at hb
    subst hb
    apply hmem
    simp only [List.any_eq_true, decide_eq_true_eq]
    rcases List.mem_map.mp ha with ⟨p, hp, hpe⟩
    exact ⟨p, hp, hpe⟩

theorem keysNodup_dpop {K V : Type} [DecidableEq K] {m : List (K × V)}
    (h : KeysNodup m) (k : K) : KeysNodup (dpop m k) := by
  unfold KeysNodup dpop
  exact List.Nodup.sublist ((List.filter_sublist m).map Prod.fst) h

theorem countKey_le_one {K V : Type} [DecidableEq K] {m : List (K × V)}
    (h : KeysNodup m) (k : K) : countKey m k ≤ 1 := by
  unfold countKey
  unfold KeysNodup at h
  induction m with
  | nil => simp
  | cons p t ih =>
    simp only [List.map_cons, List.nodup_cons] at h
    by_cases hp : p.1 = k
    · have hnil : List.filter (fun q => decide (q.1 = k)) t = [] := by
        rw [List.filter_eq_nil_iff]
        intro q hq
        simp only [decide_eq_true_eq]
        intro hqk
        exact h.1 (hp ▸ hqk ▸ List.mem_map_of_mem Prod.fst hq)
      simp [List.filter_cons, hp, hnil]
    · simpa [List.filter_cons, hp] using ih h.2

theorem dget_dset_self {K V : Type} [DecidableEq K] (m : List (K × V)) (k : K) (v : V) :
    dget (dset m k v) k = some v := by
  unfold dget dset
  by_cases hmem : m.any (fun p => decide (p.1 = k))
  · rw [if_pos hmem, List.find?_map]
    have hpred : (fun p : K × V => decide (p.1 = k)) ∘
        (fun p : K × V => if p.1 = k then (k, v) else p) =
        fun p : K × V => decide (p.1 = k) := by
      funext p
      by_cases hp : p.1 = k
      · simp [hp]
      · simp [hp]
    rw [hpred]
    have : ∃ q, m.find? (fun p : K × V => decide (p.1 = k)) = some q := by
      rw [← Option.isSome_iff_exists, List.find?_isSome]
      simpa using hmem
    rcases this with ⟨q, hq⟩
    have hqk : q.1 = k := by
      have := List.find?_some hq
      simpa using this
    simp [hq, hqk]
  · rw [if_neg hmem, find?_append_aux]
    have hnone : m.find? (fun p : K × V => decide (p.1 = k)) = none := by
      rw [List.find?_eq_none]
      intro p hp
      simp only [decide_eq_true_eq]
      intro hpk
      exact hmem (List.any_eq_true.mpr ⟨p, hp, by simp [hpk]⟩)
    simp [hnone, List.find?_cons]

theorem dget_dset_ne {K V : Type} [DecidableEq K] (m : List (K × V)) {k k' : K}
    (h : k' ≠ k) (v : V) : dget (dset m k v) k' = dget m k' := by
  unfold dget dset
  by_cases hmem : m.any (fun p => decide (p.1 = k))
  · rw [if_pos hmem, List.find?_map]
    have hpred : (fun p : K × V => decide (p.1 = k')) ∘
        (fun p : K × V => if p.1 = k then (k, v) else p) =
        fun p : K × V => decide (p.1 = k') := by
      funext p
      by_cases hp : p.1 = k
      · simp [hp, Ne.symm h]
      · simp [hp]
    rw [hpred]
    cases hq : m.find? (fun p : K × V => decide (p.1 = k')) with
    | none => simp
    | some q =>
      have hqk : q.1 = k' := by
        have := List.find?_some hq
        simpa using this
      have hqne : ¬ q.1 = k := by
        rw [hqk]
        exact h
      simp [hqne]
  · rw [if_neg hmem, find?_append_aux]
    cases hq : m.find? (fun p : K × V => decide (p.1 = k')) with
    | none =>
      simp only []
      rw [List.find?_cons_of_neg _ (by simp [Ne.symm h])]
      simp
    | some q => simp

theorem dget_dpop_self {K V : Type} [DecidableEq K] (m : List (K × V)) (k : K) :
    dget (dpop m k) k = none := by
  unfold dget dpop
  rw [Option.map_eq_none', List.find?_eq_none]
  intro p hp
  have := List.of_mem_filter hp
  simp only [decide_eq_true_eq] at this ⊢
  exact fun hk => this hk

theorem dget_dpop_ne {K V : Type} [DecidableEq K] (m : List (K × V)) {k k' : K}
    (h : k' ≠ k) : dget (dpop m k) k' = dget m k' := by
  unfold dget dpop
  induction m with
  | nil => simp
  | cons p t ih =>
    by_cases hpk : p.1 = k
    · have hne : ¬ p.1 = k' := by rw [hpk]; exact Ne.symm h
      rw [List.filter_cons_of_neg (by simp [hpk])]
      rw [List.find?_cons_of_neg _ (by simp [hne])]
      exact ih
    · rw [List.filter_cons_of_pos (by simp [hpk])]
      by_cases hpk' : p.1 = k'
      · rw [List.find?_cons_of_pos _ (by simp [hpk']),
          List.find?_cons_of_pos _ (by simp [hpk'])]
      · rw [List.find?_cons_of_neg _ (by simp [hpk']),
          List.find?_cons_of_neg _ (by simp [hpk'])]
        exact ih


/-! ### Kernel-computable string primitives

Python string operations modelled over the character list `String.data`
(the core `String` functions use `Substring` internals that do not reduce
inside the kernel, which would block concrete evaluation).
-/

/-- Python `s.strip()`. -/
def pyTrim (s : String) : String :=
  ⟨((s.data.dropWhile Char.isWhitespace).reverse.dropWhile
      Char.isWhitespace).reverse⟩

/-- Python `s.startswith(pre)`. -/
def pyStartsWith (s pre : String) : Bool := pre.data.isPrefixOf s.data

/-- Python `s.endswith(post)`. -/
def pyEndsWith (s post : String) : Bool := post.data.isSuffixOf s.data

def pySplitOnAux (sep : List Char) : Nat → List Char → List Char →
    List (List Char)
  | _, [], cur => [cur.reverse]
  | 0, l, cur => [cur.reverse ++ l]
  | fuel+1, c :: rest, cur =>
    if sep.isPrefixOf (c :: rest) then
      cur.reverse :: pySplitOnAux sep fuel (List.drop (sep.length - 1) rest) []
    else pySplitOnAux sep fuel rest (c :: cur)

/-- Python `s.split(sep)` for a non-empty separator. -/
def pySplitOn (s sep : String) : List String :=
  if sep.data = [] then [s]
  else (pySplitOnAux sep.data (s.data.length + 1) s.data []).map String.mk

/-- Python `sep.join(parts)`. -/
def pyJoin (sep : String) (parts : List String) : String :=
  match parts with
  | [] => ""
  | p :: rest => rest.foldl (fun acc q => acc ++ sep ++ q) p

/-- Python `s.lower()` (ASCII). -/
def pyToLower (s : String) : String := ⟨s.data.map Char.toLower⟩

/-- Python `s[:n]`. -/
def pyTake (s : String) (n : Nat) : String := ⟨s.data.take n⟩

/-- Python `s[n:]`. -/
def pyDrop (s : String) (n : Nat) : String := ⟨s.data.drop n⟩

/-- Python `c in s` for a single character. -/
def pyContainsChar (s : String) (c : Char) : Bool := s.data.contains c

def pyDigits? (l : List Char) : Option Nat :=
  match l with
  | [] => none
  | _ =>
    l.foldl (fun acc c =>
      match acc with
      | none => none
      | some n => if c.isDigit then some (n * 10 + (c.toNat - 48)) else none)
      (some 0)

/-- Python `int(s)` for plain digit strings (the bot only builds those). -/
def pyToNat? (s : String) : Option Nat := pyDigits? s.data

/-- Python `int(s)` allowing a sign. -/
def pyToInt? (s : String) : Option Int :=
  match s.data with
  | '-' :: rest => (pyDigits? rest).map (fun n => -(n : Int))
  | l => (pyDigits? l).map (fun n => (n : Int))

/-- Python `s.replace(old, new)`. -/
def pyReplace (s old new : String) : String :=
  pyJoin new (pySplitOn s old)

/-- Python `s.split()` (split on whitespace runs, dropping empties). -/
def pySplitWs (s : String) : List String :=
  ((List.splitOnP (fun c => c.isWhitespace) s.data).map String.mk).filter
    (fun w => decide (¬ w = ""))

/-! ### Data model

Mirrors the module-level state of `src/app.py`: `PENDING` (l.260), `ARMED`
(l.261), `ACTIVE_TICKET` (l.208), `CI_PROGRESS` (l.219), `LAST_DEPLOY_URL`
(l.211), `DEV_CHAT` (l.198), `BRANCH_JUST_CREATED` (l.201),
`USER_ACTIVE_REPO` (l.157), `APPROVAL_REQUESTS` (l.223),
`APPROVAL_AWAITING_FEEDBACK` (l.227), plus the issue tracker viewed as a
store of issues with labels.
-/

structure DevInfo where
  branch : String
  label : String
deriving DecidableEq

structure Options where
  multiAgent : Bool
  testing : Bool
  approvePlan : Bool
deriving DecidableEq

/-- `DEFAULT_OPTIONS` (src/app.py:230). -/
def defaultOptions : Options := ⟨false, false, false⟩

structure Screenshot where
  fileId : String
  ext : String
deriving DecidableEq

/-- One `PENDING[key]` draft record. -/
structure Draft where
  stage : String
  text : String
  ts : Nat
  screenshot : Option Screenshot
  devInfo : Option DevInfo
  options : Options
  repo : Option String
  confirmationMessageId : Option Nat
deriving DecidableEq

structure TicketInfo where
  issueNumber : Nat
  title : String
deriving DecidableEq

/-- One `CI_PROGRESS[ctx]` record (src/app.py:903-912). -/
structure Progress where
  startedAt : Nat
  lastPhase : String
  lastMessage : String
  lastUpdateAt : Nat
  ciOptions : List (String × String)
  phasesDone : List String
  currentPhaseNum : String
deriving DecidableEq

structure DevCtx where
  chatId : Int
  userId : Int
  firstName : String
deriving DecidableEq

structure ApprovalEntry where
  status : String
  feedback : Option String
deriving DecidableEq

structure FeedbackCtx where
  approvalKey : String
  issueNumber : String
deriving DecidableEq

/-- A tracker issue (title, body, labels, creation time). -/
structure Issue where
  number : Nat
  repo : String
  title : String
  body : String
  labels : List String
  createdAt : Nat
deriving DecidableEq

/-- The issue tracker as an opaque remote store: issues in creation order,
plus the branches this bot created (`gh_create_branch`). -/
structure Tracker where
  issues : List Issue
  branches : List (String × String)
  nextNumber : Nat
deriving DecidableEq

/-- Outbound Telegram calls, recorded in order. -/
inductive TgOut
  | sendMessage (chatId : Int) (text : String)
  | sendHtml (chatId : Int) (text : String)
  | sendKeyboard (chatId : Int) (text : String)
      (keyboard : List (List (String × String)))
  | editKeyboard (chatId : Int) (messageId : Nat) (text : String)
      (keyboard : List (List (String × String)))
  | answerCallback (callbackId : String) (notice : Option String)
deriving DecidableEq

structure SysState where
  pending : List (String × Draft)
  armed : List (String × Nat)
  activeTicket : List (String × Option TicketInfo)
  ciProgress : List (String × Progress)
  lastDeployUrl : List (String × String)
  devChat : List (String × DevCtx)
  branchJustCreated : List (String × Nat)
  userActiveRepo : List (Int × String)
  approvalRequests : List (String × ApprovalEntry)
  approvalAwaitingFeedback : List (Int × FeedbackCtx)
  tracker : Tracker
  outbox : List TgOut
deriving DecidableEq

/-- Fresh-start state (all module dicts empty; tracker empty). -/
def initState : SysState :=
  { pending := [], armed := [], activeTicket := [], ciProgress := [],
    lastDeployUrl := [], devChat := [], branchJustCreated := [],
    userActiveRepo := [], approvalRequests := [], approvalAwaitingFeedback := [],
    tracker := { issues := [], branches := [], nextNumber := 1 }, outbox := [] }

structure RepoCfg where
  short : String
  defaultBranch : String
deriving DecidableEq

/-- Environment-derived configuration (src/app.py:14-237). -/
structure Config where
  developerMap : List (Int × DevInfo)
  chatToRepo : List (Int × String)
  githubRepo : Option String
  repoConfig : List (String × RepoCfg)
  githubLabels : List String
  requireTicketCommand : Bool
  armTtlSeconds : Nat
deriving DecidableEq

instance exceptDecEq {E A : Type} [DecidableEq E] [DecidableEq A] :
    DecidableEq (Except E A) := fun a b =>
  match a, b with
  | .ok x, .ok y =>
    if h : x = y then .isTrue (by rw [h])
    else .isFalse (by intro hc; cases hc; exact h rfl)
  | .error x, .error y =>
    if h : x = y then .isTrue (by rw [h])
    else .isFalse (by intro hc; cases hc; exact h rfl)
  | .ok _, .error _ => .isFalse (by intro hc; cases hc)
  | .error _, .ok _ => .isFalse (by intro hc; cases hc)

/-- Outcome of a boolean-returning GitHub call: success, non-2xx HTTP status
(the helper returns `False`/`[]` and prints), or a transport exception. -/
inductive LRes
  | ok
  | httpFail
  | exn
deriving DecidableEq

/-- Oracle for one request's external-call outcomes and clock. -/
structure Env where
  now : Nat
  newMessageId : Nat
  branchExists : Except String Bool
  createBranch : Except String Unit
  createIssueOk : Bool
  getDefaultBranch : Except String String
  getFilePath : Except String (Option String)
  downloadOk : Bool
  putFile : Except String String
  updateIssueOk : Bool
  addLabel : LRes
  removeLabel : LRes
  listIssues : LRes
  getBranchSha : Except String String
  forceReset : Except String String
  createTag : Except String Unit
  transcription : Except String String
  devlogOk : Bool
deriving DecidableEq

/-- An `Env` in which every external call succeeds. -/
def Env.reliable (e : Env) : Prop :=
  e.createIssueOk = true ∧ e.updateIssueOk = true ∧ e.addLabel = .ok ∧
  e.removeLabel = .ok ∧ e.listIssues = .ok ∧ e.branchExists = .ok true ∧
  e.downloadOk = true

instance : DecidablePred Env.reliable := fun e => by
  unfold Env.reliable
  infer_instance

/-! ### Small utilities from the source -/

/-- `_ctx_key` (src/app.py:172). -/
def ctxKey (repo branch : String) : String := repo ++ ":" ++ branch

/-- `state_key` (src/app.py:269). -/
def stateKey (chatId userId : Int) : String :=
  toString chatId ++ ":" ++ toString userId

/-- `_BRANCH_TO_DEV` (src/app.py:75): reverse lookup branch → user id, built
by a dict comprehension (later entries overwrite earlier ones). -/
def branchToDev (cfg : Config) (branch : String) : Option Int :=
  dget (cfg.developerMap.foldl (fun m p => dset m p.2.branch p.1) []) branch

/-- `_get_dev_label` (src/app.py:703). -/
def getDevLabel (cfg : Config) (branch : String) : Option String :=
  match branchToDev cfg branch with
  | some uid => (dget cfg.developerMap uid).map (·.label)
  | none => none

/-- `_default_branch` (src/app.py:177). -/
def defaultBranchFor (cfg : Config) (repo : Option String) : String :=
  match repo.orElse (fun _ => cfg.githubRepo) with
  | some r =>
    match dget cfg.repoConfig r with
    | some c => c.defaultBranch
    | none => "main"
  | none => "main"

/-- `resolve_repo` (src/app.py:160). -/
def resolveRepo (cfg : Config) (s : SysState) (chatId userId : Int) :
    Option String :=
  match dget cfg.chatToRepo chatId with
  | some r => some r
  | none =>
    match dget s.userActiveRepo userId with
    | some r => some r
    | none => cfg.githubRepo

/-- `_repo_short` (src/app.py:185). -/
def repoShort (cfg : Config) (repo : String) : String :=
  match dget cfg.repoConfig repo with
  | some c => c.short
  | none => ((pySplitOn repo "/").getLast?).getD repo

/-- `extract_ticket_command` (src/app.py:286). -/
def extractTicketCommand (text : String) : Bool × String :=
  let t := pyTrim text
  if t = "" then (false, "")
  else if pyStartsWith t "/ticket" then
    let rest := pyTrim (pyDrop t 7)
    let rest :=
      if pyStartsWith rest "@" then
        match pySplitOn rest " " with
        | _ :: p2 :: more => pyTrim (pyJoin " " (p2 :: more))
        | _ => ""
      else rest
    (true, rest)
  else (false, "")

/-- Python's truthiness for `a or b` on optional strings (`""` is falsy). -/
def pyOr (a : Option String) (b : String) : String :=
  match a with
  | some s => if s = "" then b else s
  | none => b

/-- Python `" ".join(text.split())`: collapse all whitespace runs. -/
def normSpace (text : String) : String :=
  pyJoin " " (pySplitWs text)

/-- `title.split(sep, 1)[0]` when `sep` occurs in `title`. -/
def splitHead? (s sep : String) : Option String :=
  match pySplitOn s sep with
  | [_] => none
  | x :: _ => some x
  | [] => none

/-- Telegram user as delivered in `message.from` / `callback_query.from`. -/
structure TgUser where
  id : Option Int
  firstName : String
  lastName : String
  username : Option String
deriving DecidableEq

/-- `format_issue` (src/app.py:711): title = first sentence-like fragment of
the whitespace-normalised text, capped at 80 chars, `"Voice ticket"` when
empty; body = text plus a structured footer. -/
def formatIssue (text : String) (chatId : Int) (user : TgUser)
    (devInfo : Option DevInfo) : String × String :=
  let clean := pyTrim (normSpace text)
  let title0 := clean
  let title1 :=
    match splitHead? title0 ". " with
    | some h => h
    | none =>
      match splitHead? title0 "! " with
      | some h => h
      | none =>
        match splitHead? title0 "? " with
        | some h => h
        | none =>
          match splitHead? title0 "\n" with
          | some h => h
          | none => title0
  let title2 := pyTrim (pyTake title1 80)
  let title := if title2 = "" then "Voice ticket" else title2
  let username := pyOr user.username (pyTrim (user.firstName ++ " " ++ user.lastName))
  let body := "@claude\n\n" ++ clean ++ "\n\n---\n" ++ "Source: Telegram\n"
    ++ "From: " ++ (if username = "" then "unknown" else username) ++ "\n"
    ++ "Chat ID: " ++ toString chatId ++ "\n"
    ++ (match devInfo with
        | some d => "Developer: " ++ d.label ++ "\nTarget branch: `" ++ d.branch ++ "`\n"
        | none => "")
  (title, body)

/-! ### Telegram send helpers (src/app.py:301-406)

Each helper checks the API-level response and only prints on an API error,
so an unhappy Telegram *answer* never raises.  The underlying
`requests.post` call itself, however, can raise a transport exception
(timeout, connection error) that the helper does not catch, and many call
sites in `telegram_webhook` sit outside any `try` (e.g. the unauthorized
notice at src/app.py:1533, the draft-missing reply at src/app.py:1579, the
`/help` reply at src/app.py:1787, the plain-text reply at src/app.py:2129).
The model renders each helper as the state effect of a delivered call
(appending it to the outbox): the uncaught transport-raise path is *not*
modelled here, and no theorem below relies on sends being infallible — the
resulting gap in the handler's universal-acknowledgment guarantee is
reported under C5 (together with the `await req.json()` parse raise, which
the model does represent via `RawRequest.malformed`).
-/

def tgSendMessage (chatId : Int) (text : String) (s : SysState) : SysState :=
  { s with outbox := s.outbox ++ [.sendMessage chatId text] }

def tgSendHtml (chatId : Int) (text : String) (s : SysState) : SysState :=
  { s with outbox := s.outbox ++ [.sendHtml chatId text] }

def tgSendKeyboard (chatId : Int) (text : String)
    (keyboard : List (List (String × String))) (s : SysState) : SysState :=
  { s with outbox := s.outbox ++ [.sendKeyboard chatId text keyboard] }

def tgEditKeyboard (chatId : Int) (messageId : Nat) (text : String)
    (keyboard : List (List (String × String))) (s : SysState) : SysState :=
  { s with outbox := s.outbox ++ [.editKeyboard chatId messageId text keyboard] }

def tgAnswerCallback (callbackId : String) (notice : Option String)
    (s : SysState) : SysState :=
  { s with outbox := s.outbox ++ [.answerCallback callbackId notice] }

/-! ### GitHub helpers (src/app.py:428-708)

Every helper resolves its `repo` argument like `gh_repo_parts`
(src/app.py:439): fall back to `GITHUB_REPO`, raise when the result is
missing or has no `/`.
-/

/-- `gh_repo_parts` (src/app.py:439). -/
def ghRepoParts (cfg : Config) (repo? : Option String) : Except String String :=
  match repo?.orElse (fun _ => cfg.githubRepo) with
  | some r => if pyContainsChar r '/' then .ok r else .error "Missing or invalid repo"
  | none => .error "Missing or invalid repo"

/-- `gh_list_issues_with_labels` (src/app.py:688): open issues carrying ALL
the given labels, oldest first (`sort=created&direction=asc`), 20 per page.
Raises on transport failure; returns `[]` (printing) on a non-2xx status. -/
def ghListIssuesWithLabels (cfg : Config) (env : Env) (labels : List String)
    (repo? : Option String) (s : SysState) :
    SysState × Except String (List Issue) :=
  match ghRepoParts cfg repo? with
  | .error e => (s, .error e)
  | .ok repo =>
    match env.listIssues with
    | .exn => (s, .error "list issues request failed")
    | .httpFail => (s, .ok [])
    | .ok => (s, .ok ((s.tracker.issues.filter
        (fun i => decide (i.repo = repo) &&
          labels.all (fun l => i.labels.contains l))).take 20))

/-- `gh_add_label` (src/app.py:659): returns `False` (printing) on a non-2xx
status, raises on transport failure; on success appends the label. -/
def ghAddLabel (cfg : Config) (env : Env) (number : Nat) (label : String)
    (repo? : Option String) (s : SysState) : SysState × Except String Bool :=
  match ghRepoParts cfg repo? with
  | .error e => (s, .error e)
  | .ok repo =>
    match env.addLabel with
    | .exn => (s, .error "add label request failed")
    | .httpFail => (s, .ok false)
    | .ok =>
      let issues := s.tracker.issues.map (fun i =>
        if i.number = number ∧ i.repo = repo then
          { i with labels := i.labels ++ [label] } else i)
      ({ s with tracker := { s.tracker with issues := issues } }, .ok true)

/-- `gh_remove_label` (src/app.py:674). -/
def ghRemoveLabel (cfg : Config) (env : Env) (number : Nat) (label : String)
    (repo? : Option String) (s : SysState) : SysState × Except String Bool :=
  match ghRepoParts cfg repo? with
  | .error e => (s, .error e)
  | .ok repo =>
    match env.removeLabel with
    | .exn => (s, .error "remove label request failed")
    | .httpFail => (s, .ok false)
    | .ok =>
      let issues := s.tracker.issues.map (fun i =>
        if i.number = number ∧ i.repo = repo then
          { i with labels := i.labels.filter (fun l => decide (¬ l = label)) }
        else i)
      ({ s with tracker := { s.tracker with issues := issues } }, .ok true)

/-- `gh_create_issue` (src/app.py:542): labels are `parse_labels()` plus the
extra labels; raises on any non-2xx status or transport failure. -/
def ghCreateIssue (cfg : Config) (env : Env) (title body : String)
    (extraLabels : List String) (repo? : Option String) (s : SysState) :
    SysState × Except String Issue :=
  match ghRepoParts cfg repo? with
  | .error e => (s, .error e)
  | .ok repo =>
    if env.createIssueOk then
      let issue : Issue :=
        { number := s.tracker.nextNumber, repo := repo, title := title,
          body := body, labels := cfg.githubLabels ++ extraLabels,
          createdAt := env.now }
      ({ s with tracker := { s.tracker with
          issues := s.tracker.issues ++ [issue],
          nextNumber := s.tracker.nextNumber + 1 } },
       .ok issue)
    else (s, .error "Create issue failed")

/-- `gh_update_issue` (src/app.py:557): replaces the issue body. -/
def ghUpdateIssue (cfg : Config) (env : Env) (number : Nat) (body : String)
    (repo? : Option String) (s : SysState) : SysState × Except String Unit :=
  match ghRepoParts cfg repo? with
  | .error e => (s, .error e)
  | .ok repo =>
    if env.updateIssueOk then
      let issues := s.tracker.issues.map (fun i =>
        if i.number = number ∧ i.repo = repo then { i with body := body } else i)
      ({ s with tracker := { s.tracker with issues := issues } }, .ok ())
    else (s, .error "Update issue failed")

/-- `gh_branch_exists` (src/app.py:454): whether the branch pre-exists on
the remote is answered by the oracle. -/
def ghBranchExists (cfg : Config) (env : Env) (_branch : String)
    (repo? : Option String) (s : SysState) : SysState × Except String Bool :=
  match ghRepoParts cfg repo? with
  | .error e => (s, .error e)
  | .ok _ => (s, env.branchExists)

/-- `gh_create_branch` (src/app.py:460): records the created branch. -/
def ghCreateBranch (cfg : Config) (env : Env) (branch : String)
    (_fromBranch : String) (repo? : Option String) (s : SysState) :
    SysState × Except String Unit :=
  match ghRepoParts cfg repo? with
  | .error e => (s, .error e)
  | .ok repo =>
    match env.createBranch with
    | .ok _ =>
      ({ s with tracker := { s.tracker with
          branches := s.tracker.branches ++ [(repo, branch)] } }, .ok ())
    | .error e => (s, .error e)

/-- `gh_get_default_branch` (src/app.py:447). -/
def ghGetDefaultBranch (cfg : Config) (env : Env) (repo? : Option String)
    (s : SysState) : SysState × Except String String :=
  match ghRepoParts cfg repo? with
  | .error e => (s, .error e)
  | .ok _ => (s, env.getDefaultBranch)

/-- `gh_put_file` (src/app.py:524): uploads bytes, returns the html url.
File contents are not part of the tracker model. -/
def ghPutFile (cfg : Config) (env : Env) (_branch _path : String)
    (repo? : Option String) (s : SysState) : SysState × Except String String :=
  match ghRepoParts cfg repo? with
  | .error e => (s, .error e)
  | .ok _ => (s, env.putFile)

/-- `gh_get_branch_sha` (src/app.py:478). -/
def ghGetBranchSha (cfg : Config) (env : Env) (_branch : String)
    (repo? : Option String) (s : SysState) : SysState × Except String String :=
  match ghRepoParts cfg repo? with
  | .error e => (s, .error e)
  | .ok _ => (s, env.getBranchSha)

/-- `gh_force_reset_branch` (src/app.py:486): branch pointers are not part
of the tracker model; outcome by oracle. -/
def ghForceResetBranch (cfg : Config) (env : Env) (_branch _toBranch : String)
    (repo? : Option String) (s : SysState) : SysState × Except String String :=
  match ghRepoParts cfg repo? with
  | .error e => (s, .error e)
  | .ok _ => (s, env.forceReset)

/-- `gh_create_tag` (src/app.py:504). -/
def ghCreateTag (cfg : Config) (env : Env) (_tagName _sha : String)
    (repo? : Option String) (s : SysState) : SysState × Except String Unit :=
  match ghRepoParts cfg repo? with
  | .error e => (s, .error e)
  | .ok _ => (s, env.createTag)

/-! ### Ticket queue (src/app.py:848-966)

The queue functions take `repo` as the source receives it (sometimes the
result of `resolve_repo`, which can be `None`); `_ctx_key` interpolates the
Python value into a string, so `None` renders as `"None"`.
-/

/-- `_ctx_key (repo, branch)` with Python string interpolation of `None`. -/
def ctxKeyOpt (repo? : Option String) (branch : String) : String :=
  (match repo? with | some r => r | none => "None") ++ ":" ++ branch

/-- `queue_set_active` (src/app.py:899): marks the ticket active in memory
and initialises the per-context CI progress record. -/
def queueSetActive (env : Env) (repo? : Option String) (branch : String)
    (issueNumber : Nat) (title : String) (s : SysState) : SysState :=
  let ctx := ctxKeyOpt repo? branch
  { s with
    activeTicket := dset s.activeTicket ctx (some ⟨issueNumber, title⟩),
    ciProgress := dset s.ciProgress ctx
      { startedAt := env.now, lastPhase := "Запуск", lastMessage := "",
        lastUpdateAt := env.now, ciOptions := [], phasesDone := [],
        currentPhaseNum := "" } }

/-- `queue_is_busy` (src/app.py:855): in-memory marker first; otherwise the
GitHub fallback query, reconstructing the marker on a hit (recovery after
restart); `False` when the fallback raises. -/
def queueIsBusy (cfg : Config) (env : Env) (repo? : Option String)
    (branch : String) (s : SysState) : SysState × Bool :=
  let ctx := ctxKeyOpt repo? branch
  match dget s.activeTicket ctx with
  | some (some _) => (s, true)
  | _ =>
    match getDevLabel cfg branch with
    | none => (s, false)
    | some devLabel =>
      match ghListIssuesWithLabels cfg env ["queue:execute", devLabel] repo? s with
      | (s1, .ok (issue :: _)) =>
        (queueSetActive env repo? branch issue.number issue.title s1, true)
      | (s1, .ok []) => (s1, false)
      | (s1, .error _) => (s1, false)

/-- `queue_size` (src/app.py:876). -/
def queueSize (cfg : Config) (env : Env) (repo? : Option String)
    (branch : String) (s : SysState) : SysState × Nat :=
  match getDevLabel cfg branch with
  | none => (s, 0)
  | some devLabel =>
    match ghListIssuesWithLabels cfg env ["queue:pending", devLabel] repo? s with
    | (s1, .ok pendingIssues) => (s1, pendingIssues.length)
    | (s1, .error _) => (s1, 0)

/-- `queue_list_pending` (src/app.py:888). -/
def queueListPending (cfg : Config) (env : Env) (repo? : Option String)
    (branch : String) (s : SysState) : SysState × List Issue :=
  match getDevLabel cfg branch with
  | none => (s, [])
  | some devLabel =>
    match ghListIssuesWithLabels cfg env ["queue:pending", devLabel] repo? s with
    | (s1, .ok pendingIssues) => (s1, pendingIssues)
    | (s1, .error _) => (s1, [])

/-- `queue_clear_active` (src/app.py:915): removes `queue:execute` from the
in-memory active issue (failures swallowed), then clears the in-memory
marker and the progress cache.  Note: `LAST_DEPLOY_URL` is NOT touched. -/
def queueClearActive (cfg : Config) (env : Env) (repo? : Option String)
    (branch : String) (s : SysState) : SysState :=
  let ctx := ctxKeyOpt repo? branch
  let s1 :=
    match dget s.activeTicket ctx with
    | some (some active) =>
      (ghRemoveLabel cfg env active.issueNumber "queue:execute" repo? s).1
    | _ => s
  { s1 with activeTicket := dset s1.activeTicket ctx none,
            ciProgress := dpop s1.ciProgress ctx }

/-- `queue_process_next` (src/app.py:928): oldest pending issue for the
branch, swap `queue:pending` → `queue:execute`, set the marker and notify
the developer chat; `none` on empty queue or any failure. -/
def queueProcessNext (cfg : Config) (env : Env) (repo? : Option String)
    (branch : String) (s : SysState) : SysState × Option Issue :=
  let ctx := ctxKeyOpt repo? branch
  match getDevLabel cfg branch with
  | none => (s, none)
  | some devLabel =>
    match ghListIssuesWithLabels cfg env ["queue:pending", devLabel] repo? s with
    | (s1, .error _) => (s1, none)
    | (s1, .ok []) => (s1, none)
    | (s1, .ok (issue :: rest)) =>
      match ghRemoveLabel cfg env issue.number "queue:pending" repo? s1 with
      | (s2, .error _) => (s2, none)
      | (s2, .ok _) =>
        match ghAddLabel cfg env issue.number "queue:execute" repo? s2 with
        | (s3, .error _) => (s3, none)
        | (s3, .ok false) => (s3, none)
        | (s3, .ok true) =>
          let s4 := queueSetActive env repo? branch issue.number issue.title s3
          let s5 :=
            match dget s4.devChat ctx with
            | some devCtx =>
              tgSendHtml devCtx.chatId
                ("▶️ Следующий тикет: #" ++ toString issue.number ++ "\n"
                  ++ issue.title
                  ++ (if rest.length > 0 then
                        "\n📋 В очереди ещё: " ++ toString rest.length
                      else "")) s4
            | none => s4
          (s5, some issue)

/-! ### Telegram update payloads

Structured view of the JSON updates Telegram delivers.  Fields the source
reads with `.get(...)` default-safe are `Option`s; `callback_query.id` is
always present in Telegram payloads and is a plain field.
-/

structure TgChat where
  id : Option Int
  ctype : String
deriving DecidableEq

structure TgMsg where
  chat : TgChat
  fromUser : TgUser
  messageId : Nat
  text : Option String
  voice : Option String
  audio : Option String
  photo : List String
  document : Option (String × String)
deriving DecidableEq

structure TgCallback where
  cbId : String
  cbData : Option String
  fromUser : TgUser
  message : Option TgMsg
deriving DecidableEq

inductive TgUpdate
  | callback (cq : TgCallback)
  | message (m : TgMsg)
  | edited (m : TgMsg)
  | other
deriving DecidableEq

/-- `is_group` (src/app.py:265). -/
def isGroup (chat : TgChat) : Bool :=
  chat.ctype = "group" || chat.ctype = "supergroup"

/-- `extract_image_from_message` (src/app.py:833): largest photo size, else
an image-mime document. -/
def extractImageFromMessage (m : TgMsg) : Option Screenshot :=
  match m.photo.getLast? with
  | some fid => some ⟨fid, "jpg"⟩
  | none =>
    match m.document with
    | some (fid, mime) =>
      if pyStartsWith (pyToLower mime) "image/" then
        let ext0 := (pySplitOn (pyToLower mime) "/").getD 1 ""
        let ext1 := if ext0 = "" then "png" else ext0
        some ⟨fid, pyReplace ext1 "jpeg" "jpg"⟩
      else none
    | none => none

/-- `confirmation_text` (src/app.py:780), lightly abbreviated rendering. -/
def confirmationText (cfg : Config) (d : Draft) : String :=
  "Вот что я распознал:\n\n“" ++ d.text ++ "”\n\n"
    ++ (match d.repo with
        | some r => "Репо: " ++ repoShort cfg r ++ " | "
        | none => "")
    ++ "Скриншот: " ++ (if d.screenshot.isSome then "✅ есть" else "— нет")
    ++ (match d.devInfo with
        | some di => " | Ветка: " ++ di.branch
        | none => " | Ветка: default (разработчик не привязан)")
    ++ "\nCI: " ++ (if d.options.multiAgent then "✅" else "—") ++ " мультиагент | "
    ++ (if d.options.testing then "✅" else "—") ++ " тесты | "
    ++ (if d.options.approvePlan then "✅" else "—") ++ " апрув плана"
    ++ "\n\nЧто делаем?"

/-- `confirmation_keyboard` (src/app.py:810): every button's callback data
encodes the drafting author's user id. -/
def confirmationKeyboard (authorId : Int) (d : Draft) :
    List (List (String × String)) :=
  [[("✅ Создать issue", "create:" ++ toString authorId)],
   [((if d.options.multiAgent then "🤖" else "⬜") ++ " Мультиагент",
      "opt_ma:" ++ toString authorId),
    ((if d.options.testing then "🧪" else "⬜") ++ " Тесты",
      "opt_test:" ++ toString authorId),
    ((if d.options.approvePlan then "📋" else "⬜") ++ " Апрув",
      "opt_appr:" ++ toString authorId)],
   [("✏️ Правка текста", "edit:" ++ toString authorId),
    ("📎 скриншот", "shot:" ++ toString authorId)],
   [("❌ Отмена", "cancel:" ++ toString authorId)]]

/-- `show_confirmation` (src/app.py:825): send the summary keyboard and
store the resulting message id into the draft (the source mutates the dict
aliased in `PENDING`). -/
def showConfirmation (cfg : Config) (env : Env) (chatId authorId : Int)
    (key : String) (d : Draft) (s : SysState) : SysState :=
  let s1 := tgSendKeyboard chatId (confirmationText cfg d)
    (confirmationKeyboard authorId d) s
  let d2 := { d with confirmationMessageId := some env.newMessageId }
  { s1 with pending := dset s1.pending key d2 }

/-! ### Callback-query handling (src/app.py:1425-1745) -/

/-- The `pick:` cherry-pick branch (src/app.py:1448-1481). -/
def handlePick (cfg : Config) (env : Env) (data : String)
    (chatId _clickerId : Int) (replyToId : Nat) (msgText : String)
    (s : SysState) : SysState :=
  let pickParts :=
    match pySplitOn data ":" with
    | _ :: rest => pyJoin ":" rest
    | [] => ""
  let (pickRepo?, pickIssue) :=
    if pyContainsChar pickParts '/' ∧ pyContainsChar pickParts ':' then
      let parts := pySplitOn pickParts ":"
      ((some (pyJoin ":" parts.dropLast) : Option String),
       (parts.getLast?).getD "")
    else (cfg.githubRepo, pickParts)
  match pyToNat? pickIssue with
  | none => tgSendMessage chatId "Ошибка: invalid literal for int()" s
  | some issueNum =>
    match ghAddLabel cfg env issueNum "cherry-pick" pickRepo? s with
    | (s1, .error e) => tgSendMessage chatId ("Ошибка: " ++ e) s1
    | (s1, .ok false) =>
      tgSendMessage chatId ("Не удалось пометить #" ++ pickIssue) s1
    | (s1, .ok true) =>
      -- DEVLOG.md update (repo file contents are outside the tracker model)
      tgEditKeyboard chatId replyToId
        (msgText ++ "\n\n⭐ Помечен для переноса в main") [] s1

/-- The `ci_ok:`/`ci_no:`/`ci_edit:` approval branch (src/app.py:1484-1518):
finds the first pending approval request whose key ends in the issue
number; these buttons are not author-gated. -/
def handleCiCallback (data : String) (chatId : Int) (_replyToId : Nat)
    (s : SysState) : SysState :=
  let ciIssue :=
    match pySplitOn data ":" with
    | _ :: rest => pyJoin ":" rest
    | [] => ""
  let target? := (s.approvalRequests.find? (fun p =>
      pyEndsWith p.1 (":" ++ ciIssue) && decide (p.2.status = "pending"))).map (·.1)
  match target? with
  | none =>
    tgSendMessage chatId
      ("Запрос на апрув #" ++ ciIssue ++ " не найден или уже обработан.") s
  | some targetKey =>
    if pyStartsWith data "ci_ok:" then
      let s1 := { s with approvalRequests := dset s.approvalRequests targetKey ⟨"approved", none⟩ }
      tgSendMessage chatId ("✅ План одобрен — #" ++ ciIssue) s1
    else if pyStartsWith data "ci_edit:" then
      let s1 := { s with approvalAwaitingFeedback := dset s.approvalAwaitingFeedback chatId ⟨targetKey, ciIssue⟩ }
      tgSendMessage chatId ("✏️ Напиши поправки к плану #" ++ ciIssue ++ ".") s1
    else
      let s1 := { s with approvalRequests := dset s.approvalRequests targetKey ⟨"rejected", none⟩ }
      tgSendMessage chatId ("❌ План отклонён — #" ++ ciIssue) s1

/-- The `reset_confirm` branch (src/app.py:1537-1570): backup tag
(best-effort) then force-reset of the developer branch. -/
def handleResetConfirm (cfg : Config) (env : Env) (chatId clickerId : Int)
    (_replyToId : Nat) (s : SysState) : SysState :=
  match dget cfg.developerMap clickerId with
  | none => tgSendMessage chatId "Dev-ветка не найдена." s
  | some devInfo =>
    let branch := devInfo.branch
    let resetRepo := resolveRepo cfg s chatId clickerId
    let defaultBr := defaultBranchFor cfg resetRepo
    let (s1, backupNote) :=
      match ghGetBranchSha cfg env branch resetRepo s with
      | (sa, .error _) => (sa, "\n⚠️ Бэкап не удался (ветка всё равно сброшена)")
      | (sa, .ok branchSha) =>
        match ghGetBranchSha cfg env defaultBr resetRepo sa with
        | (sb, .error _) => (sb, "\n⚠️ Бэкап не удался (ветка всё равно сброшена)")
        | (sb, .ok mainSha) =>
          if branchSha = mainSha then (sb, "")
          else
            let tagName := "backup/" ++ ((pySplitOn branch "/").getLast?).getD branch
              ++ "/" ++ pyTake branchSha 7
            match ghCreateTag cfg env tagName branchSha resetRepo sb with
            | (sc, .ok _) => (sc, "\n📦 Бэкап: `" ++ tagName ++ "`")
            | (sc, .error _) =>
              (sc, "\n⚠️ Бэкап не удался (ветка всё равно сброшена)")
    match ghForceResetBranch cfg env branch defaultBr resetRepo s1 with
    | (s2, .error e) => tgSendMessage chatId ("❌ Ошибка: " ++ e) s2
    | (s2, .ok sha) =>
      let ctx := ctxKeyOpt resetRepo branch
      let s3 := { s2 with branchJustCreated := dset s2.branchJustCreated ctx env.now }
      tgSendMessage chatId ("✅ Ветка `" ++ branch ++ "` сброшена до `"
        ++ defaultBr ++ "` (" ++ pyTake sha 7 ++ ")." ++ backupNote) s3

/-- Option-toggle buttons (src/app.py:1586-1601): flip the option, re-render
the existing confirmation message in place. -/
def handleToggle (cfg : Config) (action : String) (chatId authorId : Int)
    (key : String) (st : Draft) (s : SysState) : SysState :=
  let opts := st.options
  let newOpts :=
    if action = "opt_ma" then { opts with multiAgent := !opts.multiAgent }
    else if action = "opt_test" then { opts with testing := !opts.testing }
    else { opts with approvePlan := !opts.approvePlan }
  let newSt := { st with options := newOpts }
  let s1 := { s with pending := dset s.pending key newSt }
  match newSt.confirmationMessageId with
  | some mid =>
    tgEditKeyboard chatId mid (confirmationText cfg newSt)
      (confirmationKeyboard authorId newSt) s1
  | none => s1

/-- The body of the `create` branch's `try` block (src/app.py:1619-1737).
An `.error` result is the exception reaching the `except` clause. -/
def createBody (cfg : Config) (env : Env) (chatId clickerId : Int)
    (fromUser : TgUser) (st : Draft) (s : SysState) :
    SysState × Except String Unit :=
  let devInfo := dget cfg.developerMap clickerId
  let optLabels :=
    (if st.options.multiAgent then ["ci:multi-agent"] else []) ++
    (if st.options.testing then ["ci:testing"] else []) ++
    (if st.options.approvePlan then ["ci:approve"] else [])
  match st.repo.orElse (fun _ => resolveRepo cfg s chatId clickerId) with
  | none => (tgSendMessage chatId "Выбери репозиторий: /repo" s, .ok ())
  | some targetRepo =>
    let defaultBr := defaultBranchFor cfg (some targetRepo)
    let devStep : SysState × Except String Unit :=
      match devInfo with
      | none => (s, .ok ())
      | some di =>
        let ctx := ctxKeyOpt (some targetRepo) di.branch
        match ghBranchExists cfg env di.branch (some targetRepo) s with
        | (s1, .error e) => (s1, .error e)
        | (s1, .ok bex) =>
          let s2 :=
            if bex then s1
            else
              match ghCreateBranch cfg env di.branch defaultBr (some targetRepo) s1 with
              | (sb, .ok _) =>
                { sb with branchJustCreated := dset sb.branchJustCreated ctx env.now }
              | (sb, .error _) => sb
          let dc : DevCtx := ⟨chatId, clickerId, fromUser.firstName⟩
          ({ s2 with devChat := dset s2.devChat ctx dc }, .ok ())
    match devStep with
    | (s1, .error e) => (s1, .error e)
    | (s1, .ok _) =>
      let extraLabels := optLabels
        ++ (match devInfo with | some di => [di.label] | none => [])
      let fmt := formatIssue st.text chatId fromUser devInfo
      let (s2, busy) :=
        match devInfo with
        | some di => queueIsBusy cfg env (some targetRepo) di.branch s1
        | none => (s1, false)
      let extraLabels2 := extraLabels ++ (if busy then ["queue:pending"] else [])
      match ghCreateIssue cfg env fmt.1 fmt.2 extraLabels2 (some targetRepo) s2 with
      | (s3, .error e) => (s3, .error e)
      | (s3, .ok issue) =>
        let chosenBranch : Option String := devInfo.map (·.branch)
        let branchInfo :=
          match chosenBranch with
          | some b => "\nBranch: `" ++ b ++ "`"
          | none => ""
        let shotStep : SysState × Except String (String × String) :=
          match st.screenshot with
          | none => (s3, .ok (branchInfo, ""))
          | some shot =>
            let getBr : SysState × Except String (String × String) :=
              match chosenBranch with
              | some b => (s3, .ok (b, branchInfo))
              | none =>
                match ghGetDefaultBranch cfg env (some targetRepo) s3 with
                | (sb, .ok db) => (sb, .ok (db, "\nBranch: `" ++ db ++ "` (default)"))
                | (sb, .error e) => (sb, .error e)
            match getBr with
            | (sb, .error e) => (sb, .error e)
            | (sb, .ok (chB, brInfo)) =>
              match env.getFilePath with
              | .error e => (sb, .error e)
              | .ok none =>
                (sb, .error "Could not resolve screenshot file_path in Telegram")
              | .ok (some _) =>
                if env.downloadOk then
                  match ghPutFile cfg env chB
                      ("tickets/issue-" ++ toString issue.number
                        ++ "/screenshot." ++ shot.ext)
                      (some targetRepo) sb with
                  | (sc, .ok htmlUrl) =>
                    (sc, .ok (brInfo, "\nScreenshot: " ++ htmlUrl))
                  | (sc, .error e) => (sc, .error e)
                else (sb, .error "screenshot download failed")
        match shotStep with
        | (s4, .error e) => (s4, .error e)
        | (s4, .ok (brInfo, shotInfo)) =>
          let updStep : SysState × Except String Unit :=
            if brInfo ≠ "" ∨ shotInfo ≠ "" then
              match ghUpdateIssue cfg env issue.number
                  (fmt.2 ++ "\n\n---\n" ++ pyTrim (brInfo ++ shotInfo))
                  (some targetRepo) s4 with
              | (su, .ok _) => (su, .ok ())
              | (su, .error e) => (su, .error e)
            else (s4, .ok ())
          match updStep with
          | (s5, .error e) => (s5, .error e)
          | (s5, .ok _) =>
            if busy then
              match devInfo with
              | some di =>
                let (s6, pendingCount) :=
                  queueSize cfg env (some targetRepo) di.branch s5
                let ctx := ctxKeyOpt (some targetRepo) di.branch
                let activeNum :=
                  match dget s6.activeTicket ctx with
                  | some (some t) => toString t.issueNumber
                  | _ => "?"
                (tgSendHtml chatId ("📋 Тикет #" ++ toString issue.number
                  ++ " добавлен в очередь\n\nПозиция: " ++ toString pendingCount
                  ++ "\nСейчас выполняется: #" ++ activeNum
                  ++ "\n\nТикет запустится автоматически когда подойдёт очередь.")
                  s6, .ok ())
              | none => (s5, .ok ())
            else
              let actStep : SysState × Except String Unit :=
                match devInfo with
                | some di =>
                  match ghAddLabel cfg env issue.number "queue:execute"
                      (some targetRepo) s5 with
                  | (s6, .error e) => (s6, .error e)
                  | (s6, .ok _) =>
                    (queueSetActive env (some targetRepo) di.branch issue.number
                      fmt.1 s6, .ok ())
                | none => (s5, .ok ())
              match actStep with
              | (s6, .error e) => (s6, .error e)
              | (s6, .ok _) =>
                let (s7, queueInfo) :=
                  match devInfo with
                  | some di =>
                    let (sq, remaining) :=
                      queueSize cfg env (some targetRepo) di.branch s6
                    (sq, if remaining > 0 then
                          "\n\n📋 В очереди: " ++ toString remaining
                        else "")
                  | none => (s6, "")
                (tgSendMessage chatId ("📋 Тикет создан!\n\n#"
                  ++ toString issue.number ++ " (" ++ fromUser.firstName ++ "): "
                  ++ fmt.1 ++ "\n\nClaude скоро возьмётся за работу..."
                  ++ queueInfo) s7, .ok ())

/-- The full `create` branch (src/app.py:1618-1743): try body, `except`
reporting the error, and the `finally` that always pops the draft. -/
def handleCreate (cfg : Config) (env : Env) (chatId clickerId : Int)
    (fromUser : TgUser) (key : String) (st : Draft) (s : SysState) : SysState :=
  let r := createBody cfg env chatId clickerId fromUser st s
  let s2 :=
    match r.2 with
    | .ok _ => r.1
    | .error e => tgSendMessage chatId ("Ошибка: " ++ e) r.1
  { s2 with pending := dpop s2.pending key }

/-- The `callback_query` section of `telegram_webhook`
(src/app.py:1425-1745).  In the model every path returns `{"ok": True}`:
the failure-prone work is wrapped in `try/except` in the source, and the
model's Telegram sends are the delivered effect — in the source a send's
own transport exception (e.g. the unauthorized notice, src/app.py:1533)
would escape this section; see the C5 section. -/
def handleCallback (cfg : Config) (env : Env) (cq : TgCallback)
    (s : SysState) : SysState × Except String Unit :=
  let data := pyTrim (cq.cbData.getD "")
  let s0 := tgAnswerCallback cq.cbId none s
  match (cq.message.bind (·.chat.id)), cq.fromUser.id with
  | some chatId, some clickerId =>
    let replyToId := (cq.message.map (·.messageId)).getD 0
    let msgText := (cq.message.bind (·.text)).getD ""
    if pyStartsWith data "pick:" then
      (handlePick cfg env data chatId clickerId replyToId msgText s0, .ok ())
    else if pyStartsWith data "ci_ok:" ∨ pyStartsWith data "ci_no:"
        ∨ pyStartsWith data "ci_edit:" then
      (handleCiCallback data chatId replyToId s0, .ok ())
    else
      let parts := pySplitOn data ":"
      let action := parts.headD ""
      if parts.length < 2 then (s0, .ok ())
      else
        match pyToInt? (parts.getD 1 "") with
        | none => (s0, .ok ())
        | some authorId =>
          if clickerId ≠ authorId then
            (tgAnswerCallback cq.cbId (some "Это не твои кнопки 🙂") s0, .ok ())
          else if action = "reset_confirm" then
            (handleResetConfirm cfg env chatId clickerId replyToId s0, .ok ())
          else if action = "reset_cancel" then
            (tgSendMessage chatId "Отменил сброс." s0, .ok ())
          else
            let key := stateKey chatId authorId
            match dget s0.pending key with
            | none =>
              (tgSendMessage chatId
                "Черновик не найден. Пришли голосовое ещё раз." s0, .ok ())
            | some st =>
              if action = "noop" then (s0, .ok ())
              else if action = "opt_ma" ∨ action = "opt_test"
                  ∨ action = "opt_appr" then
                (handleToggle cfg action chatId authorId key st s0, .ok ())
              else if action = "cancel" then
                (tgSendMessage chatId "Отменил."
                  { s0 with pending := dpop s0.pending key }, .ok ())
              else if action = "edit" then
                let st2 := { st with stage := "edit" }
                let s1 := { s0 with pending := dset s0.pending key st2 }
                (tgSendMessage chatId
                  "Пришли исправленный текст одним сообщением." s1, .ok ())
              else if action = "shot" then
                let st2 := { st with stage := "await_screenshot" }
                let s1 := { s0 with pending := dset s0.pending key st2 }
                (tgSendMessage chatId
                  "Ок. Пришли скриншот (картинку) одним сообщением." s1, .ok ())
              else if action = "create" then
                (handleCreate cfg env chatId clickerId cq.fromUser key st s0,
                 .ok ())
              else (s0, .ok ())
  | _, _ => (s0, .ok ())

/-! ### Message handling (src/app.py:1747-2187) -/

/-- `SHORT_TO_REPO` (src/app.py:149). -/
def shortToRepo (cfg : Config) (short : String) : Option String :=
  dget (cfg.repoConfig.foldl (fun m p => dset m p.2.short p.1) []) short

/-- The draft record built by the ticket-command and voice paths
(src/app.py:2085-2093, 2115-2123, 2172-2180). -/
def makeTicketDraft (cfg : Config) (env : Env) (restText : String)
    (chatId userId : Int) (s : SysState) : Draft :=
  { stage := "confirm", text := restText, ts := env.now, screenshot := none,
    devInfo := dget cfg.developerMap userId, options := defaultOptions,
    repo := resolveRepo cfg s chatId userId, confirmationMessageId := none }

/-- Voice/audio processing (src/app.py:2132-2186): gated-group arming check
(lazy expiry: strictly-expired timers reject without being deleted), then
transcription inside a `try` whose `except` reports the error. -/
def handleVoice (cfg : Config) (env : Env) (chatId userId : Int)
    (inGroup : Bool) (key : String) (s : SysState) :
    SysState × Except String Unit :=
  if inGroup ∧ cfg.requireTicketCommand = true
      ∧ (dget s.armed key).getD 0 < env.now then
    (s, .ok ())
  else
    let s1 := tgSendMessage chatId "Распознаю голос…" s
    let body : SysState × Except String Unit :=
      match env.getFilePath with
      | .error e => (s1, .error e)
      | .ok none =>
        (tgSendMessage chatId "Не смог получить файл из Telegram (getFile)." s1,
         .ok ())
      | .ok (some _) =>
        if env.downloadOk = false then (s1, .error "download failed")
        else
          match env.transcription with
          | .error e => (s1, .error e)
          | .ok recognized =>
            if recognized = "" then
              (tgSendMessage chatId "Не смог распознать 😕" s1, .ok ())
            else
              let s2 := { s1 with armed := dpop s1.armed key }
              let d := makeTicketDraft cfg env recognized chatId userId s2
              let s3 := { s2 with pending := dset s2.pending key d }
              (showConfirmation cfg env chatId userId key d s3, .ok ())
    match body with
    | (sb, .error e) => (tgSendMessage chatId ("Ошибка: " ++ e) sb, .ok ())
    | (sb, .ok _) => (sb, .ok ())

/-- `/repo` command (src/app.py:1791-1814). -/
def handleRepoCmd (cfg : Config) (text : String) (chatId userId : Int)
    (s : SysState) : SysState :=
  let arg :=
    if pyContainsChar text ' ' then
      match pySplitOn text " " with
      | _ :: rest => pyTrim (pyJoin " " rest)
      | [] => ""
    else ""
  if arg = "" then
    tgSendMessage chatId
      ("Активный репо: " ++
        (match dget s.userActiveRepo userId with
         | some r => r
         | none => (cfg.githubRepo.getD "(не задан)"))) s
  else
    let target :=
      match shortToRepo cfg (pyToLower arg) with
      | some t => some t
      | none => if (dget cfg.repoConfig arg).isSome then some arg else none
    match target with
    | some t =>
      let s1 := { s with userActiveRepo := dset s.userActiveRepo userId t }
      tgSendMessage chatId ("Репо: " ++ t ++ " (" ++ repoShort cfg t ++ ")") s1
    | none => tgSendMessage chatId ("Неизвестный репо: " ++ arg) s

/-- `/clear` command (src/app.py:1890-1927): recovery check, clear active
plus stale deploy URL, then advance the queue.  `_repo_short` is applied to
the resolved repo (src/app.py:1902), which raises on `None`. -/
def handleClearCmd (cfg : Config) (env : Env) (chatId userId : Int)
    (s : SysState) : SysState × Except String Unit :=
  match dget cfg.developerMap userId with
  | none => (tgSendMessage chatId "У тебя нет привязанной dev-ветки." s, .ok ())
  | some devInfo =>
    let branch := devInfo.branch
    let clearRepo := resolveRepo cfg s chatId userId
    let ctx := ctxKeyOpt clearRepo branch
    let s1 := (queueIsBusy cfg env clearRepo branch s).1
    let active := dget s1.activeTicket ctx
    let (s2, pendingCount) := queueSize cfg env clearRepo branch s1
    match clearRepo with
    | none => (s2, .error "AttributeError: NoneType has no attribute split")
    | some _ =>
      let activeSome := match active with | some (some _) => true | _ => false
      if activeSome = false ∧ pendingCount = 0 then
        (tgSendMessage chatId
          ("Очередь " ++ branch ++ " уже пуста, нечего очищать.") s2, .ok ())
      else
        let s3 := queueClearActive cfg env clearRepo branch s2
        let s4 := { s3 with lastDeployUrl := dpop s3.lastDeployUrl ctx }
        if pendingCount > 0 then
          match queueProcessNext cfg env clearRepo branch s4 with
          | (s5, some _) =>
            (tgSendMessage chatId ("🧹 Очередь " ++ branch
              ++ " очищена\n▶️ Запущен следующий тикет из очереди") s5, .ok ())
          | (s5, none) =>
            (tgSendMessage chatId ("🧹 Очередь " ++ branch
              ++ " очищена, но следующий тикет не удалось создать.") s5, .ok ())
        else
          (tgSendMessage chatId ("🧹 Активный тикет снят с " ++ branch
            ++ ". Очередь пуста.") s4, .ok ())

/-- `/queue` command (src/app.py:1930-1961); `_repo_short` on the resolved
repo (src/app.py:1938) raises on `None` before any queue call. -/
def handleQueueCmd (cfg : Config) (env : Env) (chatId userId : Int)
    (s : SysState) : SysState × Except String Unit :=
  match dget cfg.developerMap userId with
  | none => (tgSendMessage chatId "У тебя нет привязанной dev-ветки." s, .ok ())
  | some devInfo =>
    let branch := devInfo.branch
    let qRepo := resolveRepo cfg s chatId userId
    let ctx := ctxKeyOpt qRepo branch
    match qRepo with
    | none => (s, .error "AttributeError: NoneType has no attribute split")
    | some _ =>
      let s1 := (queueIsBusy cfg env qRepo branch s).1
      let active := dget s1.activeTicket ctx
      let (s2, pendingIssues) := queueListPending cfg env qRepo branch s1
      (tgSendMessage chatId ("📋 Очередь для " ++ branch ++ "; выполняется: "
        ++ (match active with
            | some (some t) => "#" ++ toString t.issueNumber
            | _ => "—")
        ++ "; в очереди: " ++ toString pendingIssues.length) s2, .ok ())

/-- `/status` command (src/app.py:1964-2045); `_repo_short` on the resolved
repo (src/app.py:1972) raises on `None` before any queue call. -/
def handleStatusCmd (cfg : Config) (env : Env) (chatId userId : Int)
    (s : SysState) : SysState × Except String Unit :=
  match dget cfg.developerMap userId with
  | none => (tgSendMessage chatId "У тебя нет привязанной dev-ветки." s, .ok ())
  | some devInfo =>
    let branch := devInfo.branch
    let sRepo := resolveRepo cfg s chatId userId
    let ctx := ctxKeyOpt sRepo branch
    match sRepo with
    | none => (s, .error "AttributeError: NoneType has no attribute split")
    | some _ =>
      let s1 := (queueIsBusy cfg env sRepo branch s).1
      let active := dget s1.activeTicket ctx
      let (s2, pendingIssues) := queueListPending cfg env sRepo branch s1
      let deployUrl := dget s2.lastDeployUrl ctx
      (tgSendMessage chatId ("📊 Статус — " ++ branch ++ ": "
        ++ (match active with
            | some (some t) => "▶️ Тикет: #" ++ toString t.issueNumber
            | _ => "💤 Нет активных тикетов")
        ++ "; в очереди: " ++ toString pendingIssues.length
        ++ (match deployUrl with
            | some u => "; 🔗 Последний билд: " ++ u
            | none => "")) s2, .ok ())

/-- `/reset` command (src/app.py:1867-1887): confirmation keyboard;
`_repo_short` on the resolved repo (src/app.py:1875) raises on `None`. -/
def handleResetCmd (cfg : Config) (chatId userId : Int) (s : SysState) :
    SysState × Except String Unit :=
  match dget cfg.developerMap userId with
  | none =>
    (tgSendMessage chatId
      "У тебя нет привязанной dev-ветки. Проверь DEVELOPER_MAP." s, .ok ())
  | some devInfo =>
    let resetRepo := resolveRepo cfg s chatId userId
    let defaultBr := defaultBranchFor cfg resetRepo
    match resetRepo with
    | none => (s, .error "AttributeError: NoneType has no attribute split")
    | some rr =>
      (tgSendKeyboard chatId ("Ты уверен? [" ++ repoShort cfg rr ++ "] Ветка `"
          ++ devInfo.branch ++ "` будет полностью заменена на текущий `"
          ++ defaultBr ++ "`.")
        [[("⚠️ Да, перезатереть " ++ devInfo.branch,
            "reset_confirm:" ++ toString userId)],
         [("Отмена", "reset_cancel:" ++ toString userId)]] s, .ok ())

/-- The message section of `telegram_webhook` (src/app.py:1747-2187), with
the source's dispatch order preserved. -/
def handleMessage (cfg : Config) (env : Env) (m : TgMsg) (s : SysState) :
    SysState × Except String Unit :=
  match m.chat.id, m.fromUser.id with
  | some chatId, some userId =>
    let inGroup := (isGroup m.chat = true)
    let key := stateKey chatId userId
    let text := pyTrim (m.text.getD "")
    let cmdBase := ((pySplitOn (pyToLower text) "@")).headD ""
    if cmdBase = "/start" ∨ cmdBase = "/help" ∨ cmdBase = "help" then
      (tgSendHtml chatId "📋 Команды: /ticket /status /queue /repo /apps /clear /reset /debug /help" s,
       .ok ())
    else if cmdBase = "/repo" ∨ pyStartsWith (pyToLower text) "/repo " then
      (handleRepoCmd cfg text chatId userId s, .ok ())
    else if cmdBase = "/apps" then
      (tgSendMessage chatId "Тестовые приложения:" s, .ok ())
    else if cmdBase = "/debug" then
      (tgSendMessage chatId "🔧 Bot debug" s, .ok ())
    else if cmdBase = "/reset" then
      handleResetCmd cfg chatId userId s
    else if cmdBase = "/clear" then
      handleClearCmd cfg env chatId userId s
    else if cmdBase = "/queue" then
      handleQueueCmd cfg env chatId userId s
    else if cmdBase = "/status" then
      handleStatusCmd cfg env chatId userId s
    else if (dget s.approvalAwaitingFeedback chatId).isSome ∧ text ≠ ""
        ∧ ¬ pyStartsWith text "/" then
      match dget s.approvalAwaitingFeedback chatId with
      | some fb =>
        let s1 := { s with
          approvalAwaitingFeedback := dpop s.approvalAwaitingFeedback chatId,
          approvalRequests :=
            dset s.approvalRequests fb.approvalKey ⟨"revision", some text⟩ }
        (tgSendMessage chatId
          ("✏️ Поправки отправлены Claude — #" ++ fb.issueNumber) s1, .ok ())
      | none => (s, .ok ())
    else
      let pendingStep : Option (SysState × Except String Unit) :=
        match dget s.pending key with
        | none => none
        | some st =>
          match extractImageFromMessage m with
          | some img =>
            let st2 := { st with screenshot := some img, stage := "confirm" }
            let s1 := { s with pending := dset s.pending key st2 }
            some (showConfirmation cfg env chatId userId key st2 s1, .ok ())
          | none =>
            if st.stage = "edit" ∧ text ≠ "" then
              let st2 := { st with text := text, stage := "confirm" }
              let s1 := { s with pending := dset s.pending key st2 }
              some (showConfirmation cfg env chatId userId key st2 s1, .ok ())
            else none
      match pendingStep with
      | some r => r
      | none =>
        let tc := extractTicketCommand text
        if inGroup ∧ cfg.requireTicketCommand = true ∧ tc.1 = true
            ∧ tc.2 ≠ "" then
          let d := makeTicketDraft cfg env tc.2 chatId userId s
          let s1 := { s with pending := dset s.pending key d }
          (showConfirmation cfg env chatId userId key d s1, .ok ())
        else if inGroup ∧ cfg.requireTicketCommand = true ∧ tc.1 = true
            ∧ tc.2 = "" then
          let s1 := { s with armed := dset s.armed key (env.now + cfg.armTtlSeconds) }
          (tgSendMessage chatId ("Ок. Пришли голосовое в течение "
            ++ toString cfg.armTtlSeconds
            ++ " сек — сделаю черновик тикета.") s1, .ok ())
        else if inGroup ∧ cfg.requireTicketCommand = true ∧ text ≠ ""
            ∧ m.voice = none ∧ m.audio = none then
          (s, .ok ())
        else if text ≠ "" ∧ ¬ inGroup ∧ tc.1 = true ∧ tc.2 ≠ "" then
          let d := makeTicketDraft cfg env tc.2 chatId userId s
          let s1 := { s with pending := dset s.pending key d }
          (showConfirmation cfg env chatId userId key d s1, .ok ())
        else if text ≠ "" ∧ m.voice = none ∧ m.audio = none then
          (tgSendMessage chatId "Пришли голосовое (или /ticket <текст>). Скриншот можно отправить после распознавания." s,
           .ok ())
        else
          match m.voice.orElse (fun _ => m.audio) with
          | none => (s, .ok ())
          | some _ => handleVoice cfg env chatId userId inGroup key s
  | _, _ => (s, .ok ())

/-- `telegram_webhook` dispatch over a parsed update (src/app.py:1412-2187). -/
def handleUpdate (cfg : Config) (env : Env) (u : TgUpdate) (s : SysState) :
    SysState × Except String Unit :=
  match u with
  | .callback cq => handleCallback cfg env cq s
  | .message m => handleMessage cfg env m s
  | .edited m => handleMessage cfg env m s
  | .other => (s, .ok ())

/-- A raw webhook request body: JSON that parses to an update, or not. -/
inductive RawRequest
  | wellFormed (u : TgUpdate)
  | malformed
deriving DecidableEq

/-- HTTP-level outcome of `telegram_webhook`: `ok` is the success
acknowledgment `{"ok": True}`; `serverError` is an unhandled exception
propagating to the framework (an HTTP 500 response). -/
inductive WebhookResult
  | ok
  | serverError (e : String)
deriving DecidableEq

/-- The complete `telegram_webhook` endpoint (src/app.py:1412-2187):
`update = await req.json()` sits OUTSIDE any `try`, so a payload that fails
to parse raises out of the handler; so does any exception escaping the
handler body. -/
def telegramWebhook (cfg : Config) (env : Env) (r : RawRequest)
    (s : SysState) : SysState × WebhookResult :=
  match r with
  | .malformed => (s, .serverError "json decode error")
  | .wellFormed u =>
    match handleUpdate cfg env u s with
    | (s1, .ok _) => (s1, .ok)
    | (s1, .error e) => (s1, .serverError e)

/-! ### CI approval gate (src/app.py:1206-1268) -/

structure ApprovalPayload where
  branch : String
  repo : Option String
  issueNumber : String
  planSummary : String
deriving DecidableEq

inductive CiApprovalResp
  | autoApproved
  | requested (approvalKey : String)
deriving DecidableEq

/-- The approve/revise/reject keyboard sent to the developer
(src/app.py:1252-1266). -/
def ciApprovalAsk (chatId : Int) (issueNumber planSummary : String)
    (s : SysState) : SysState :=
  tgSendKeyboard chatId ("📋 Апрув плана — #" ++ issueNumber ++ "\n\n"
      ++ planSummary ++ "\n\nClaude ждёт одобрения. Одобрить план?")
    [[("✅ Одобрить", "ci_ok:" ++ issueNumber),
      ("✏️ Поправки", "ci_edit:" ++ issueNumber),
      ("❌ Отклонить", "ci_no:" ++ issueNumber)]] s

/-- `ci_request_approval` (src/app.py:1206-1268): records a pending request,
tracks phase "A", then asks the developer chat — falling back to
`_BRANCH_TO_DEV`, and auto-approving when no chat can be found at all. -/
def ciRequestApproval (cfg : Config) (env : Env) (p : ApprovalPayload)
    (s : SysState) : SysState × CiApprovalResp :=
  let repo? := p.repo.orElse (fun _ => cfg.githubRepo)
  let ctx := ctxKeyOpt repo? p.branch
  let approvalKey := ctx ++ ":" ++ p.issueNumber
  let s1 := { s with approvalRequests := dset s.approvalRequests approvalKey ⟨"pending", none⟩ }
  let s2 :=
    match dget s1.ciProgress ctx with
    | some prog =>
      let prev := prog.currentPhaseNum
      let done :=
        if prev ≠ "" ∧ prev ≠ "A" ∧ prog.phasesDone.contains prev = false
        then prog.phasesDone ++ [prev] else prog.phasesDone
      let prog2 := { prog with
        phasesDone := done, currentPhaseNum := "A",
        lastPhase := "Ожидание апрува", lastUpdateAt := env.now }
      { s1 with ciProgress := dset s1.ciProgress ctx prog2 }
    | none => s1
  match dget s2.devChat ctx with
  | some devCtx =>
    (ciApprovalAsk devCtx.chatId p.issueNumber p.planSummary s2,
     .requested approvalKey)
  | none =>
    match branchToDev cfg p.branch with
    | some uid =>
      let dc : DevCtx := ⟨uid, uid, "Dev"⟩
      let s3 := { s2 with devChat := dset s2.devChat ctx dc }
      (ciApprovalAsk uid p.issueNumber p.planSummary s3,
       .requested approvalKey)
    | none =>
      let s3 := { s2 with approvalRequests := dset s2.approvalRequests approvalKey ⟨"approved", none⟩ }
      (s3, .autoApproved)

/-! ### Shared witness fixtures -/

/-- An all-success oracle for witnesses. -/
def envOkAll : Env :=
  { now := 100, newMessageId := 5, branchExists := .ok true,
    createBranch := .ok (), createIssueOk := true,
    getDefaultBranch := .ok "main", getFilePath := .ok (some "p"),
    downloadOk := true, putFile := .ok "url", updateIssueOk := true,
    addLabel := .ok, removeLabel := .ok, listIssues := .ok,
    getBranchSha := .ok "abc1234", forceReset := .ok "def5678",
    createTag := .ok (), transcription := .ok "hello world",
    devlogOk := true }

/-- A small two-developer configuration for witnesses. -/
def cfgSample : Config :=
  { developerMap := [(10, ⟨"dev/alice", "developer:alice"⟩),
                     (20, ⟨"dev/bob", "developer:bob"⟩)],
    chatToRepo := [(-100, "own/repo")],
    githubRepo := some "own/repo",
    repoConfig := [("own/repo", ⟨"repo", "main"⟩)],
    githubLabels := [], requireTicketCommand := true, armTtlSeconds := 120 }

/-! ### C6 — `queue_is_busy` functional specification -/

/-- **C6**: for every (repo, branch): `queue_is_busy` returns `true` when an
in-memory active marker exists; otherwise, when the branch has a developer
label, it queries the tracker for an issue carrying both `queue:execute`
and the developer label, and on a hit reconstructs the in-memory marker
with that issue's number and title and returns `true`; with no marker and
no such issue it returns `false`. -/
theorem C6_queue_is_busy_spec (cfg : Config) (env : Env)
    (repo? : Option String) (branch : String) (s : SysState) (repo : String)
    (hlist : env.listIssues = LRes.ok)
    (hrepo : ghRepoParts cfg repo? = .ok repo) :
    (∀ t, dget s.activeTicket (ctxKeyOpt repo? branch) = some (some t) →
      queueIsBusy cfg env repo? branch s = (s, true)) ∧
    ((dget s.activeTicket (ctxKeyOpt repo? branch) = none ∨
      dget s.activeTicket (ctxKeyOpt repo? branch) = some none) →
      (getDevLabel cfg branch = none →
        queueIsBusy cfg env repo? branch s = (s, false)) ∧
      (∀ l, getDevLabel cfg branch = some l →
        (∀ i rest,
          ((s.tracker.issues.filter (fun j => decide (j.repo = repo) &&
            (["queue:execute", l]).all (fun lab => j.labels.contains lab))).take 20)
            = i :: rest →
          queueIsBusy cfg env repo? branch s =
            (queueSetActive env repo? branch i.number i.title s, true) ∧
          dget (queueSetActive env repo? branch i.number i.title s).activeTicket
              (ctxKeyOpt repo? branch) = some (some ⟨i.number, i.title⟩)) ∧
        (((s.tracker.issues.filter (fun j => decide (j.repo = repo) &&
            (["queue:execute", l]).all (fun lab => j.labels.contains lab))).take 20)
            = [] →
          queueIsBusy cfg env repo? branch s = (s, false)))) := by
  refine ⟨?_, ?_⟩
  · intro t ht
    unfold queueIsBusy
    dsimp only
    rw [ht]
  · intro hmk
    refine ⟨?_, ?_⟩
    · intro hdev
      unfold queueIsBusy
      dsimp only
      rcases hmk with h | h <;> rw [h] <;> simp [hdev]
    · intro l hdev
      refine ⟨?_, ?_⟩
      · intro i rest hq
        constructor
        · unfold queueIsBusy ghListIssuesWithLabels
          dsimp only
          rcases hmk with h | h <;>
            rw [h] <;> simp only [hdev, hrepo, hlist, hq]
        · simp [queueSetActive, dget_dset_self, dget_dset_ne]
      · intro hq
        unfold queueIsBusy ghListIssuesWithLabels
        dsimp only
        rcases hmk with h | h <;>
          rw [h] <;> simp only [hdev, hrepo, hlist, hq]

/-- Concrete recovery state for the C6 witness: no marker, one
`queue:execute`-labelled issue. -/
def c6Issue : Issue :=
  { number := 7, repo := "own/repo", title := "t7", body := "",
    labels := ["queue:execute", "developer:alice"], createdAt := 3 }

def c6State : SysState :=
  { initState with
    tracker := { issues := [c6Issue], branches := [], nextNumber := 8 } }

/-- Witness for C6 at a concrete recovery state: no marker, one
`queue:execute`-labelled issue; `is_busy` recovers it. -/
theorem C6_queue_is_busy_spec_witness :
    (envOkAll.listIssues = LRes.ok ∧
     ghRepoParts cfgSample (some "own/repo") = .ok "own/repo") ∧
    queueIsBusy cfgSample envOkAll (some "own/repo") "dev/alice" c6State =
      (queueSetActive envOkAll (some "own/repo") "dev/alice" 7 "t7" c6State,
       true) := by
  refine ⟨⟨by decide, by decide⟩, ?_⟩
  exact (((C6_queue_is_busy_spec cfgSample envOkAll (some "own/repo")
    "dev/alice" c6State "own/repo" (by decide) (by decide)).2
    (Or.inl (by decide))).2 "developer:alice" (by decide)).1 c6Issue []
    (by decide) |>.1

/-! ### C9 — `queue_clear_active` (corrected: deploy-URL cache survives) -/

def c9Progress : Progress :=
  { startedAt := 50, lastPhase := "Запуск", lastMessage := "",
    lastUpdateAt := 50, ciOptions := [], phasesDone := [],
    currentPhaseNum := "" }

/-- State with an active ticket, progress and a cached deploy URL for
`(own/repo, dev/alice)`. -/
def c9State : SysState :=
  { initState with
    activeTicket := [("own/repo:dev/alice", some ⟨7, "t7"⟩)],
    ciProgress := [("own/repo:dev/alice", c9Progress)],
    lastDeployUrl := [("own/repo:dev/alice", "https://x.example")],
    tracker := { issues := [c6Issue], branches := [], nextNumber := 8 } }

/-- **C9 counterexample**: the claim says `queue_clear_active` clears the
deploy-URL cache of the (repo, branch) key; at this concrete state the
entry survives the call unchanged, so the claim as stated is false. -/
theorem C9_clear_active_counterexample :
    dget (queueClearActive cfgSample envOkAll (some "own/repo") "dev/alice"
      c9State).lastDeployUrl "own/repo:dev/alice" = some "https://x.example" ∧
    dget c9State.lastDeployUrl "own/repo:dev/alice" = some "https://x.example" := by
  constructor <;> decide

/-- **C9 (amended)**: `queue_clear_active` removes the `queue:execute` label
from the current active issue (if any) and clears the in-memory marker and
the progress cache; the deploy-URL cache is NOT touched by this function
(its callers pop `LAST_DEPLOY_URL` separately). -/
theorem C9_clear_active_amended (cfg : Config) (env : Env)
    (repo? : Option String) (branch : String) (s : SysState) (repo : String)
    (hrepo : ghRepoParts cfg repo? = .ok repo)
    (hrem : env.removeLabel = LRes.ok) :
    dget (queueClearActive cfg env repo? branch s).activeTicket
        (ctxKeyOpt repo? branch) = some none ∧
    dget (queueClearActive cfg env repo? branch s).ciProgress
        (ctxKeyOpt repo? branch) = none ∧
    (queueClearActive cfg env repo? branch s).lastDeployUrl =
      s.lastDeployUrl ∧
    (∀ t, dget s.activeTicket (ctxKeyOpt repo? branch) = some (some t) →
      ∀ i ∈ (queueClearActive cfg env repo? branch s).tracker.issues,
        i.number = t.issueNumber → i.repo = repo →
          "queue:execute" ∉ i.labels) ∧
    ((dget s.activeTicket (ctxKeyOpt repo? branch) = none ∨
      dget s.activeTicket (ctxKeyOpt repo? branch) = some none) →
      (queueClearActive cfg env repo? branch s).tracker = s.tracker) := by
  cases hmk : dget s.activeTicket (ctxKeyOpt repo? branch) with
  | none =>
    unfold queueClearActive ghRemoveLabel
    dsimp only
    rw [hmk]
    refine ⟨by simp [dget_dset_self], by simp [dget_dpop_self], rfl, ?_, ?_⟩
    · intro t ht
      simp at ht
    · intro _
      rfl
  | some o =>
    cases o with
    | none =>
      unfold queueClearActive ghRemoveLabel
      dsimp only
      rw [hmk]
      refine ⟨by simp [dget_dset_self], by simp [dget_dpop_self], rfl, ?_, ?_⟩
      · intro t ht
        simp at ht
      · intro _
        rfl
    | some t0 =>
      unfold queueClearActive ghRemoveLabel
      dsimp only
      rw [hmk, hrepo, hrem]
      refine ⟨by simp [dget_dset_self], by simp [dget_dpop_self], rfl, ?_, ?_⟩
      · intro t ht i hi hnum hrepoI
        simp only [Option.some.injEq] at ht
        subst ht
        simp only [List.mem_map] at hi
        obtain ⟨j, _, hj⟩ := hi
        by_cases hcond : j.number = t0.issueNumber ∧ j.repo = repo
        · rw [if_pos hcond] at hj
          subst hj
          simp [List.mem_filter]
        · rw [if_neg hcond] at hj
          subst hj
          exact absurd ⟨hnum, hrepoI⟩ hcond
      · intro hcase
        rcases hcase with h | h <;> simp at h

/-- Witness for the amended C9 at the concrete state: marker and progress
cleared, label gone, deploy URL untouched. -/
theorem C9_clear_active_amended_witness :
    (ghRepoParts cfgSample (some "own/repo") = .ok "own/repo" ∧
     envOkAll.removeLabel = LRes.ok) ∧
    dget (queueClearActive cfgSample envOkAll (some "own/repo") "dev/alice"
        c9State).activeTicket "own/repo:dev/alice" = some none ∧
    (queueClearActive cfgSample envOkAll (some "own/repo") "dev/alice"
        c9State).lastDeployUrl = c9State.lastDeployUrl := by
  refine ⟨⟨by decide, by decide⟩, ?_, ?_⟩
  · exact (C9_clear_active_amended cfgSample envOkAll (some "own/repo")
      "dev/alice" c9State "own/repo" (by decide) (by decide)).1
  · exact (C9_clear_active_amended cfgSample envOkAll (some "own/repo")
      "dev/alice" c9State "own/repo" (by decide) (by decide)).2.2.1

/-! ### C10 — auto-approval when no developer chat is known -/

/-- **C10**: a request-approval event whose (repo, branch) has no recorded
developer chat and whose branch has no developer-map fallback is recorded
with status `"approved"` immediately and reported back as auto-approved;
no approve/reject buttons are ever sent for it. -/
theorem C10_auto_approve (cfg : Config) (env : Env) (p : ApprovalPayload)
    (s : SysState)
    (hchat : dget s.devChat
      (ctxKeyOpt (p.repo.orElse (fun _ => cfg.githubRepo)) p.branch) = none)
    (hfall : branchToDev cfg p.branch = none) :
    (ciRequestApproval cfg env p s).2 = CiApprovalResp.autoApproved ∧
    dget (ciRequestApproval cfg env p s).1.approvalRequests
        (ctxKeyOpt (p.repo.orElse (fun _ => cfg.githubRepo)) p.branch
          ++ ":" ++ p.issueNumber) = some ⟨"approved", none⟩ ∧
    (ciRequestApproval cfg env p s).1.outbox = s.outbox := by
  unfold ciRequestApproval
  dsimp only
  cases hprog : dget s.ciProgress
      (ctxKeyOpt (p.repo.orElse fun _ => cfg.githubRepo) p.branch) with
  | none =>
    dsimp only
    rw [hchat, hfall]
    exact ⟨rfl, by simp [dget_dset_self], rfl⟩
  | some prog =>
    dsimp only
    rw [hchat, hfall]
    exact ⟨rfl, by simp [dget_dset_self], rfl⟩

/-- Witness for C10: empty state, branch with no developer mapping. -/
theorem C10_auto_approve_witness :
    (dget initState.devChat
        (ctxKeyOpt ((some "own/repo").orElse (fun _ => cfgSample.githubRepo))
          "dev/zed") = none ∧
     branchToDev cfgSample "dev/zed" = none) ∧
    (ciRequestApproval cfgSample envOkAll
      ⟨"dev/zed", some "own/repo", "42", "plan"⟩ initState).2 =
        CiApprovalResp.autoApproved ∧
    (ciRequestApproval cfgSample envOkAll
      ⟨"dev/zed", some "own/repo", "42", "plan"⟩ initState).1.outbox =
        initState.outbox := by
  refine ⟨⟨by decide, by decide⟩, ?_, ?_⟩
  · exact (C10_auto_approve cfgSample envOkAll
      ⟨"dev/zed", some "own/repo", "42", "plan"⟩ initState
      (by decide) (by decide)).1
  · exact (C10_auto_approve cfgSample envOkAll
      ⟨"dev/zed", some "own/repo", "42", "plan"⟩ initState
      (by decide) (by decide)).2.2

/-! ### Evaluation lemmas for the GitHub helpers under a reliable oracle -/

/-- The issue transform performed by a successful `gh_remove_label`. -/
def removeLabelMap (n : Nat) (lab repo : String) (issues : List Issue) :
    List Issue :=
  issues.map (fun i => if i.number = n ∧ i.repo = repo then
    { i with labels := i.labels.filter (fun l => decide (¬ l = lab)) } else i)

/-- The issue transform performed by a successful `gh_add_label`. -/
def addLabelMap (n : Nat) (lab repo : String) (issues : List Issue) :
    List Issue :=
  issues.map (fun i => if i.number = n ∧ i.repo = repo then
    { i with labels := i.labels ++ [lab] } else i)

theorem ghList_eval {cfg : Config} {env : Env} {repo? : Option String}
    {repo : String} (labels : List String) (s : SysState)
    (hrepo : ghRepoParts cfg repo? = .ok repo)
    (hlist : env.listIssues = LRes.ok) :
    ghListIssuesWithLabels cfg env labels repo? s =
      (s, .ok ((s.tracker.issues.filter (fun i => decide (i.repo = repo) &&
        labels.all (fun l => i.labels.contains l))).take 20)) := by
  unfold ghListIssuesWithLabels
  rw [hrepo, hlist]

theorem ghRemoveLabel_eval {cfg : Config} {env : Env} {repo? : Option String}
    {repo : String} (n : Nat) (lab : String) (s : SysState)
    (hrepo : ghRepoParts cfg repo? = .ok repo)
    (hrem : env.removeLabel = LRes.ok) :
    ghRemoveLabel cfg env n lab repo? s =
      ({ s with tracker := { s.tracker with issues := removeLabelMap n lab repo s.tracker.issues } },
       .ok true) := by
  unfold ghRemoveLabel removeLabelMap
  rw [hrepo, hrem]

theorem ghAddLabel_eval {cfg : Config} {env : Env} {repo? : Option String}
    {repo : String} (n : Nat) (lab : String) (s : SysState)
    (hrepo : ghRepoParts cfg repo? = .ok repo)
    (hadd : env.addLabel = LRes.ok) :
    ghAddLabel cfg env n lab repo? s =
      ({ s with tracker := { s.tracker with issues := addLabelMap n lab repo s.tracker.issues } },
       .ok true) := by
  unfold ghAddLabel addLabelMap
  rw [hrepo, hadd]

/-! ### C7 — `queue_process_next` functional specification -/

/-- The tracker query for pending tickets of a branch: open issues of the
repo carrying both `queue:pending` and the developer label, oldest first,
20 per page. -/
def pendingQuery (s : SysState) (repo l : String) : List Issue :=
  (s.tracker.issues.filter (fun i => decide (i.repo = repo) &&
    (["queue:pending", l]).all (fun lab => i.labels.contains lab))).take 20

/-- **C7**: with a developer label and a non-empty pending queue,
`queue_process_next` activates the pending issue that is oldest by creation
timestamp (FIFO), removing `queue:pending`, adding `queue:execute` and
setting the in-memory marker; with an empty queue it is a no-op returning
nothing. -/
theorem C7_process_next_spec (cfg : Config) (env : Env)
    (repo? : Option String) (branch : String) (s : SysState)
    (repo l : String)
    (hdev : getDevLabel cfg branch = some l)
    (hrepo : ghRepoParts cfg repo? = .ok repo)
    (hlist : env.listIssues = LRes.ok)
    (hrem : env.removeLabel = LRes.ok)
    (hadd : env.addLabel = LRes.ok) :
    (pendingQuery s repo l = [] →
      queueProcessNext cfg env repo? branch s = (s, none)) ∧
    (∀ i rest, pendingQuery s repo l = i :: rest →
      (queueProcessNext cfg env repo? branch s).2 = some i ∧
      (List.Pairwise (fun a b : Issue => a.createdAt ≤ b.createdAt)
          s.tracker.issues →
        ∀ j ∈ s.tracker.issues, j.repo = repo →
          j.labels.contains "queue:pending" = true →
          j.labels.contains l = true → i.createdAt ≤ j.createdAt) ∧
      dget (queueProcessNext cfg env repo? branch s).1.activeTicket
          (ctxKeyOpt repo? branch) = some (some ⟨i.number, i.title⟩) ∧
      (∀ j ∈ (queueProcessNext cfg env repo? branch s).1.tracker.issues,
        (j.number = i.number ∧ j.repo = repo →
          "queue:execute" ∈ j.labels ∧ "queue:pending" ∉ j.labels) ∧
        (¬ (j.number = i.number ∧ j.repo = repo) →
          j ∈ s.tracker.issues))) := by
  have horder : ∀ i rest, pendingQuery s repo l = i :: rest →
      (List.Pairwise (fun a b : Issue => a.createdAt ≤ b.createdAt)
          s.tracker.issues →
        ∀ j ∈ s.tracker.issues, j.repo = repo →
          j.labels.contains "queue:pending" = true →
          j.labels.contains l = true → i.createdAt ≤ j.createdAt) := by
    intro i rest hq hsorted j hj hjrepo hjpend hjl
    have hfil : List.Pairwise (fun a b : Issue => a.createdAt ≤ b.createdAt)
        (s.tracker.issues.filter (fun k => decide (k.repo = repo) &&
          (["queue:pending", l]).all (fun lab => k.labels.contains lab))) :=
      List.Pairwise.sublist (List.filter_sublist _) hsorted
    have hjmem : j ∈ s.tracker.issues.filter
        (fun k => decide (k.repo = repo) &&
          (["queue:pending", l]).all (fun lab => k.labels.contains lab)) := by
      rw [List.mem_filter]
      refine ⟨hj, ?_⟩
      simp only [decide_eq_true_eq, List.all_cons, List.all_nil,
        Bool.and_eq_true, decide_eq_true_eq]
      exact ⟨by simp [hjrepo], hjpend, hjl, by trivial⟩
    unfold pendingQuery at hq
    cases hfe : s.tracker.issues.filter
        (fun k => decide (k.repo = repo) &&
          (["queue:pending", l]).all (fun lab => k.labels.contains lab)) with
    | nil =>
      rw [hfe] at hjmem
      cases hjmem
    | cons x t =>
      rw [hfe] at hjmem hfil hq
      simp only [List.take_succ_cons, List.cons.injEq] at hq
      rcases List.mem_cons.mp hjmem with h | h
      · rw [← hq.1, h]
      · rw [← hq.1]
        exact (List.pairwise_cons.mp hfil).1 j h
  constructor
  · intro hq
    unfold pendingQuery at hq
    unfold queueProcessNext
    dsimp only
    rw [hdev]
    dsimp only
    rw [ghList_eval _ s hrepo hlist, hq]
  · intro i rest hq
    have hq' := hq
    unfold pendingQuery at hq'
    unfold queueProcessNext
    dsimp only
    rw [hdev]
    dsimp only
    rw [ghList_eval _ s hrepo hlist, hq']
    dsimp only
    rw [ghRemoveLabel_eval i.number "queue:pending" s hrepo hrem]
    dsimp only
    rw [ghAddLabel_eval i.number "queue:execute" _ hrepo hadd]
    dsimp only
    refine ⟨?_, horder i rest hq, ?_, ?_⟩
    · cases hdc : dget s.devChat (ctxKeyOpt repo? branch) <;> simp [hdc]
    · cases hdc : dget s.devChat (ctxKeyOpt repo? branch) <;>
        simp [hdc, queueSetActive, tgSendHtml, dget_dset_self, dget_dset_ne]
    · intro j hj
      have hjm : j ∈ addLabelMap i.number "queue:execute" repo
          (removeLabelMap i.number "queue:pending" repo s.tracker.issues) := by
        revert hj
        cases hdc : dget s.devChat (ctxKeyOpt repo? branch) <;>
          simp [hdc, queueSetActive, tgSendHtml]
      clear hj
      unfold addLabelMap removeLabelMap at hjm
      simp only [List.mem_map] at hjm
      obtain ⟨j1, ⟨j0, hj0, hj01⟩, hj1⟩ := hjm
      constructor
      · intro hcond
        by_cases hc0 : j0.number = i.number ∧ j0.repo = repo
        · rw [if_pos hc0] at hj01
          subst hj01
          rw [if_pos hc0] at hj1
          subst hj1
          constructor
          · simp
          · simp only [List.mem_append, List.mem_filter]
            rintro (⟨_, hbad⟩ | hbad) <;> simp at hbad
        · rw [if_neg hc0] at hj01
          subst hj01
          rw [if_neg hc0] at hj1
          subst hj1
          exact absurd hcond hc0
      · intro hcond
        by_cases hc0 : j0.number = i.number ∧ j0.repo = repo
        · rw [if_pos hc0] at hj01
          subst hj01
          rw [if_pos hc0] at hj1
          subst hj1
          exact absurd hc0 hcond
        · rw [if_neg hc0] at hj01
          subst hj01
          rw [if_neg hc0] at hj1
          subst hj1
          exact hj0

/-- Three queued tickets A(#1), B(#2), C(#3) for `dev/alice`, oldest
first. -/
def c7Issue (n : Nat) : Issue :=
  { number := n, repo := "own/repo", title := "t" ++ toString n, body := "",
    labels := ["queue:pending", "developer:alice"], createdAt := n }

def c7State : SysState :=
  { initState with
    tracker := { issues := [c7Issue 1, c7Issue 2, c7Issue 3],
                 branches := [], nextNumber := 4 } }

/-- Witness for C7: at the three-ticket state the activated issue is
A = #1 (the oldest), and the empty-queue case is a no-op. -/
theorem C7_process_next_spec_witness :
    (getDevLabel cfgSample "dev/alice" = some "developer:alice" ∧
     ghRepoParts cfgSample (some "own/repo") = .ok "own/repo" ∧
     envOkAll.listIssues = LRes.ok ∧ envOkAll.removeLabel = LRes.ok ∧
     envOkAll.addLabel = LRes.ok) ∧
    (queueProcessNext cfgSample envOkAll (some "own/repo") "dev/alice"
      c7State).2 = some (c7Issue 1) ∧
    dget (queueProcessNext cfgSample envOkAll (some "own/repo") "dev/alice"
      c7State).1.activeTicket "own/repo:dev/alice" = some (some ⟨1, "t1"⟩) ∧
    queueProcessNext cfgSample envOkAll (some "own/repo") "dev/alice"
      initState = (initState, none) := by
  refine ⟨⟨by decide, by decide, by decide, by decide, by decide⟩, ?_, ?_, ?_⟩
  · exact (((C7_process_next_spec cfgSample envOkAll (some "own/repo")
      "dev/alice" c7State "own/repo" "developer:alice" (by decide) (by decide)
      (by decide) (by decide) (by decide)).2 (c7Issue 1) [c7Issue 2, c7Issue 3]
      (by decide))).1
  · exact (((C7_process_next_spec cfgSample envOkAll (some "own/repo")
      "dev/alice" c7State "own/repo" "developer:alice" (by decide) (by decide)
      (by decide) (by decide) (by decide)).2 (c7Issue 1) [c7Issue 2, c7Issue 3]
      (by decide))).2.2.1
  · exact (C7_process_next_spec cfgSample envOkAll (some "own/repo")
      "dev/alice" initState "own/repo" "developer:alice" (by decide)
      (by decide) (by decide) (by decide) (by decide)).1 (by decide)

/-! ### C2 — at-most-once submission -/

/-- **C2**: handling an authorized `create` click always removes the draft
from `PENDING` (the `finally` clause), whatever the outcome of issue
creation; a second submit click on the same (chat, user) key while no draft
exists performs no tracker mutation at all; hence two consecutive submit
clicks never create a second issue. -/
theorem C2_submit_at_most_once (cfg : Config) (env1 env2 : Env)
    (cq : TgCallback) (s : SysState) (chatId clickerId : Int) (istr : String)
    (hchat : cq.message.bind (fun mm => mm.chat.id) = some chatId)
    (hclick : cq.fromUser.id = some clickerId)
    (hsplit : pySplitOn (pyTrim (cq.cbData.getD "")) ":" = ["create", istr])
    (hint : pyToInt? istr = some clickerId)
    (hnp : pyStartsWith (pyTrim (cq.cbData.getD "")) "pick:" = false)
    (hn1 : pyStartsWith (pyTrim (cq.cbData.getD "")) "ci_ok:" = false)
    (hn2 : pyStartsWith (pyTrim (cq.cbData.getD "")) "ci_no:" = false)
    (hn3 : pyStartsWith (pyTrim (cq.cbData.getD "")) "ci_edit:" = false) :
    dget (handleCallback cfg env1 cq s).1.pending
        (stateKey chatId clickerId) = none ∧
    (∀ s' : SysState, dget s'.pending (stateKey chatId clickerId) = none →
      (handleCallback cfg env2 cq s').1.tracker = s'.tracker) ∧
    (handleCallback cfg env2 cq (handleCallback cfg env1 cq s).1).1.tracker =
      (handleCallback cfg env1 cq s).1.tracker := by
  have hrun : ∀ (env : Env) (s0 : SysState),
      handleCallback cfg env cq s0 =
        (match dget (tgAnswerCallback cq.cbId none s0).pending
            (stateKey chatId clickerId) with
         | none =>
           (tgSendMessage chatId "Черновик не найден. Пришли голосовое ещё раз."
             (tgAnswerCallback cq.cbId none s0), .ok ())
         | some st =>
           (handleCreate cfg env chatId clickerId cq.fromUser
             (stateKey chatId clickerId) st (tgAnswerCallback cq.cbId none s0),
            .ok ())) := by
    intro env s0
    unfold handleCallback
    dsimp only
    rw [hchat, hclick]
    dsimp only
    simp only [hnp, hn1, hn2, hn3, hsplit, hint, Bool.false_eq_true, if_false]
    norm_num
    rw [hint]
    dsimp only
    rw [if_pos rfl]
    simp
  constructor
  · rw [hrun env1 s]
    cases hpd : dget (tgAnswerCallback cq.cbId none s).pending
        (stateKey chatId clickerId) with
    | none =>
      simpa [tgSendMessage, tgAnswerCallback, dget] using hpd
    | some st =>
      unfold handleCreate
      dsimp only
      exact dget_dpop_self _ _
  · constructor
    · intro s' hs'
      rw [hrun env2 s']
      have : dget (tgAnswerCallback cq.cbId none s').pending
          (stateKey chatId clickerId) = none := by
        simpa [tgAnswerCallback, dget] using hs'
      rw [this]
      rfl
    · rw [hrun env2 (handleCallback cfg env1 cq s).1]
      have hfst : dget (handleCallback cfg env1 cq s).1.pending
          (stateKey chatId clickerId) = none := by
        rw [hrun env1 s]
        cases hpd : dget (tgAnswerCallback cq.cbId none s).pending
            (stateKey chatId clickerId) with
        | none =>
          simpa [tgSendMessage, tgAnswerCallback, dget] using hpd
        | some st =>
          unfold handleCreate
          dsimp only
          exact dget_dpop_self _ _
      have : dget (tgAnswerCallback cq.cbId none
          (handleCallback cfg env1 cq s).1).pending
          (stateKey chatId clickerId) = none := by
        simpa [tgAnswerCallback, dget] using hfst
      rw [this]
      rfl

def c2Draft : Draft :=
  { stage := "confirm", text := "fix the login", ts := 90, screenshot := none,
    devInfo := some ⟨"dev/alice", "developer:alice"⟩, options := defaultOptions,
    repo := some "own/repo", confirmationMessageId := some 3 }

def c2Msg : TgMsg :=
  { chat := ⟨some (-100), "supergroup"⟩,
    fromUser := ⟨some 10, "Alice", "", none⟩, messageId := 77,
    text := some "summary", voice := none, audio := none, photo := [],
    document := none }

def c2Cq : TgCallback :=
  { cbId := "cb1", cbData := some "create:10",
    fromUser := ⟨some 10, "Alice", "", none⟩, message := some c2Msg }

def c2State : SysState := { initState with pending := [("-100:10", c2Draft)] }

/-- Witness for C2: a concrete authorized submit click destroys the draft;
a second click on the resulting state leaves the tracker unchanged. -/
theorem C2_submit_at_most_once_witness :
    (c2Cq.message.bind (fun mm => mm.chat.id) = some (-100) ∧
     c2Cq.fromUser.id = some 10 ∧
     pySplitOn (pyTrim (c2Cq.cbData.getD "")) ":" = ["create", "10"] ∧
     pyToInt? "10" = some 10 ∧
     pyStartsWith (pyTrim (c2Cq.cbData.getD "")) "pick:" = false ∧
     pyStartsWith (pyTrim (c2Cq.cbData.getD "")) "ci_ok:" = false ∧
     pyStartsWith (pyTrim (c2Cq.cbData.getD "")) "ci_no:" = false ∧
     pyStartsWith (pyTrim (c2Cq.cbData.getD "")) "ci_edit:" = false) ∧
    dget (handleCallback cfgSample envOkAll c2Cq c2State).1.pending
        (stateKey (-100) 10) = none ∧
    (handleCallback cfgSample envOkAll c2Cq
        (handleCallback cfgSample envOkAll c2Cq c2State).1).1.tracker =
      (handleCallback cfgSample envOkAll c2Cq c2State).1.tracker := by
  refine ⟨⟨by decide, by decide, by decide, by decide, by decide, by decide,
    by decide, by decide⟩, ?_, ?_⟩
  · exact (C2_submit_at_most_once cfgSample envOkAll envOkAll c2Cq c2State
      (-100) 10 "10" (by decide) (by decide) (by decide) (by decide)
      (by decide) (by decide) (by decide) (by decide)).1
  · exact (C2_submit_at_most_once cfgSample envOkAll envOkAll c2Cq c2State
      (-100) 10 "10" (by decide) (by decide) (by decide) (by decide)
      (by decide) (by decide) (by decide) (by decide)).2.2

/-! ### C1 — unauthorized clicks have no side effect -/

/-- **C1**: a button click whose author-gated callback data encodes an
author id different from the clicking user's id is rejected with the
non-blocking notice "Это не твои кнопки 🙂" and performs no side effect:
drafts, tracker state (issues, labels, branches), queue markers, arming
timers and approval-request state are all unchanged — only the two
callback acknowledgments are emitted. -/
theorem C1_unauthorized_click_no_side_effect (cfg : Config) (env : Env)
    (cq : TgCallback) (s : SysState) (chatId clickerId authorId : Int)
    (action istr : String) (restParts : List String)
    (hchat : cq.message.bind (fun mm => mm.chat.id) = some chatId)
    (hclick : cq.fromUser.id = some clickerId)
    (hsplit : pySplitOn (pyTrim (cq.cbData.getD "")) ":" =
      action :: istr :: restParts)
    (hint : pyToInt? istr = some authorId)
    (hne : clickerId ≠ authorId)
    (hnp : pyStartsWith (pyTrim (cq.cbData.getD "")) "pick:" = false)
    (hn1 : pyStartsWith (pyTrim (cq.cbData.getD "")) "ci_ok:" = false)
    (hn2 : pyStartsWith (pyTrim (cq.cbData.getD "")) "ci_no:" = false)
    (hn3 : pyStartsWith (pyTrim (cq.cbData.getD "")) "ci_edit:" = false) :
    handleCallback cfg env cq s =
      (tgAnswerCallback cq.cbId (some "Это не твои кнопки 🙂")
        (tgAnswerCallback cq.cbId none s), .ok ()) ∧
    (handleCallback cfg env cq s).1.pending = s.pending ∧
    (handleCallback cfg env cq s).1.tracker = s.tracker ∧
    (handleCallback cfg env cq s).1.activeTicket = s.activeTicket ∧
    (handleCallback cfg env cq s).1.armed = s.armed ∧
    (handleCallback cfg env cq s).1.approvalRequests = s.approvalRequests ∧
    (handleCallback cfg env cq s).1.approvalAwaitingFeedback =
      s.approvalAwaitingFeedback ∧
    (handleCallback cfg env cq s).1.devChat = s.devChat ∧
    (handleCallback cfg env cq s).1.ciProgress = s.ciProgress ∧
    (handleCallback cfg env cq s).1.lastDeployUrl = s.lastDeployUrl ∧
    (handleCallback cfg env cq s).1.outbox = s.outbox ++
      [TgOut.answerCallback cq.cbId none,
       TgOut.answerCallback cq.cbId (some "Это не твои кнопки 🙂")] := by
  have hmain : handleCallback cfg env cq s =
      (tgAnswerCallback cq.cbId (some "Это не твои кнопки 🙂")
        (tgAnswerCallback cq.cbId none s), .ok ()) := by
    unfold handleCallback
    dsimp only
    rw [hchat, hclick]
    dsimp only
    simp only [hnp, hn1, hn2, hn3, hsplit, Bool.false_eq_true, if_false]
    norm_num
    rw [hint]
    dsimp only
    rw [if_neg hne]
    rw [if_neg (by omega)]
  refine ⟨hmain, ?_, ?_, ?_, ?_, ?_, ?_, ?_, ?_, ?_, ?_⟩ <;>
    rw [hmain] <;> simp [tgAnswerCallback]

def c1Cq : TgCallback :=
  { cbId := "cb2", cbData := some "cancel:10",
    fromUser := ⟨some 99, "Mallory", "", none⟩, message := some c2Msg }

/-- Witness for C1: user 99 clicks a button of author 10; the draft and the
whole state survive, only the notice is emitted. -/
theorem C1_unauthorized_click_no_side_effect_witness :
    (c1Cq.message.bind (fun mm => mm.chat.id) = some (-100) ∧
     c1Cq.fromUser.id = some 99 ∧
     pySplitOn (pyTrim (c1Cq.cbData.getD "")) ":" = ["cancel", "10"] ∧
     pyToInt? "10" = some 10 ∧ (99 : Int) ≠ 10 ∧
     pyStartsWith (pyTrim (c1Cq.cbData.getD "")) "pick:" = false ∧
     pyStartsWith (pyTrim (c1Cq.cbData.getD "")) "ci_ok:" = false ∧
     pyStartsWith (pyTrim (c1Cq.cbData.getD "")) "ci_no:" = false ∧
     pyStartsWith (pyTrim (c1Cq.cbData.getD "")) "ci_edit:" = false) ∧
    (handleCallback cfgSample envOkAll c1Cq c2State).1.pending =
      c2State.pending ∧
    (handleCallback cfgSample envOkAll c1Cq c2State).1.tracker =
      c2State.tracker := by
  refine ⟨⟨by decide, by decide, by decide, by decide, by decide, by decide,
    by decide, by decide, by decide⟩, ?_, ?_⟩
  · exact (C1_unauthorized_click_no_side_effect cfgSample envOkAll c1Cq
      c2State (-100) 99 10 "cancel" "10" [] (by decide) (by decide)
      (by decide) (by decide) (by decide) (by decide) (by decide) (by decide)
      (by decide)).2.1
  · exact (C1_unauthorized_click_no_side_effect cfgSample envOkAll c1Cq
      c2State (-100) 99 10 "cancel" "10" [] (by decide) (by decide)
      (by decide) (by decide) (by decide) (by decide) (by decide) (by decide)
      (by decide)).2.2.1

/-! ### C8 — arming timer -/

/-- **C8**: in a gated group, (a) a bare `/ticket` sets the arming timer to
`now + ARM_TTL_SECONDS`; (b) a voice message while the timer is unexpired
(`now ≤ expiry`), with a successful non-empty transcription, creates the
draft and consumes (deletes) the timer entry; (c) a voice message whose
timer is strictly expired produces no draft and changes nothing — the
expiry is checked lazily at use time. -/
theorem C8_arming_timer (cfg : Config) (env : Env)
    (hreq : cfg.requireTicketCommand = true) :
    (∀ (m : TgMsg) (s : SysState) (chatId userId : Int),
      m.chat.id = some chatId → m.fromUser.id = some userId →
      isGroup m.chat = true → m.text = some "/ticket" →
      dget s.pending (stateKey chatId userId) = none →
      (handleMessage cfg env m s).1.armed =
        dset s.armed (stateKey chatId userId) (env.now + cfg.armTtlSeconds) ∧
      (handleMessage cfg env m s).1.pending = s.pending) ∧
    (∀ (m : TgMsg) (s : SysState) (chatId userId : Int) (fid fp r : String)
        (expiry : Nat),
      m.chat.id = some chatId → m.fromUser.id = some userId →
      isGroup m.chat = true → m.text = none → m.voice = some fid →
      m.photo = [] → m.document = none →
      dget s.armed (stateKey chatId userId) = some expiry →
      env.now ≤ expiry →
      env.getFilePath = .ok (some fp) → env.downloadOk = true →
      env.transcription = .ok r → r ≠ "" →
      dget (handleMessage cfg env m s).1.pending (stateKey chatId userId) =
        some { makeTicketDraft cfg env r chatId userId s with
               confirmationMessageId := some env.newMessageId } ∧
      dget (handleMessage cfg env m s).1.armed (stateKey chatId userId) =
        none) ∧
    (∀ (m : TgMsg) (s : SysState) (chatId userId : Int) (fid : String),
      m.chat.id = some chatId → m.fromUser.id = some userId →
      isGroup m.chat = true → m.text = none → m.voice = some fid →
      m.photo = [] → m.document = none →
      (dget s.armed (stateKey chatId userId)).getD 0 < env.now →
      handleMessage cfg env m s = (s, .ok ())) := by
  refine ⟨?_, ?_, ?_⟩
  · intro m s chatId userId hcid huid hg htext hpd
    unfold handleMessage
    dsimp only
    rw [hcid, huid]
    dsimp only
    rw [htext]
    rw [show pyTrim ((some "/ticket").getD "") = "/ticket" from by decide]
    simp only [show (pySplitOn (pyToLower "/ticket") "@").headD "" = "/ticket"
        from by decide,
      show pyStartsWith (pyToLower "/ticket") "/repo " = false from by decide,
      show pyStartsWith "/ticket" "/" = true from by decide,
      show extractTicketCommand "/ticket" = (true, "") from by decide]
    simp only [Bool.false_eq_true, if_false, not_true_eq_false, and_false,
      false_and, hpd]
    norm_num
    rw [hg, hreq]
    rw [if_neg (by decide : ¬("/ticket" = "/start" ∨ "/ticket" = "/help" ∨ "/ticket" = "help"))]
    rw [if_neg (by decide : ¬"/ticket" = "/repo")]
    rw [if_neg (by decide : ¬"/ticket" = "/apps")]
    rw [if_neg (by decide : ¬"/ticket" = "/debug")]
    rw [if_neg (by decide : ¬"/ticket" = "/reset")]
    rw [if_neg (by decide : ¬"/ticket" = "/clear")]
    rw [if_neg (by decide : ¬"/ticket" = "/queue")]
    rw [if_neg (by decide : ¬"/ticket" = "/status")]
    exact ⟨rfl, rfl⟩
  · intro m s chatId userId fid fp r expiry hcid huid hg htext hvoice hph
      hdoc harm hexp hfp hdl htr hrne
    have himg : extractImageFromMessage m = none := by
      unfold extractImageFromMessage
      rw [hph, hdoc]
      rfl
    unfold handleMessage
    dsimp only
    rw [hcid, huid]
    dsimp only
    rw [htext]
    rw [show pyTrim ((none : Option String).getD "") = "" from by decide]
    simp only [show (pySplitOn (pyToLower "") "@").headD "" = "" from by decide,
      show pyStartsWith (pyToLower "") "/repo " = false from by decide,
      show extractTicketCommand "" = (false, "") from by decide]
    simp only [Bool.false_eq_true, if_false, ne_eq, not_true_eq_false,
      and_false, false_and, if_false]
    norm_num
    rw [hvoice]
    have hcore :
        dget (handleVoice cfg env chatId userId
            (isGroup m.chat)
            (stateKey chatId userId) s).1.pending (stateKey chatId userId) =
          some { makeTicketDraft cfg env r chatId userId s with
                 confirmationMessageId := some env.newMessageId } ∧
        dget (handleVoice cfg env chatId userId
            (isGroup m.chat)
            (stateKey chatId userId) s).1.armed (stateKey chatId userId) =
          none := by
      unfold handleVoice
      rw [harm]
      simp only [Option.getD_some]
      rw [if_neg (fun h => absurd h.2.2 (by omega))]
      rw [hfp]
      dsimp only
      rw [hdl]
      simp only [Bool.true_eq_false, if_false]
      rw [htr]
      dsimp only
      rw [if_neg hrne]
      unfold showConfirmation
      dsimp only
      exact ⟨dget_dset_self _ _ _, dget_dpop_self _ _⟩
    rw [if_neg (by decide : ¬("" = "/start" ∨ "" = "/help" ∨ "" = "help"))]
    rw [if_neg (by decide : ¬"" = "/repo")]
    rw [if_neg (by decide : ¬"" = "/apps")]
    rw [if_neg (by decide : ¬"" = "/debug")]
    rw [if_neg (by decide : ¬"" = "/reset")]
    rw [if_neg (by decide : ¬"" = "/clear")]
    rw [if_neg (by decide : ¬"" = "/queue")]
    rw [if_neg (by decide : ¬"" = "/status")]
    cases hpd : dget s.pending (stateKey chatId userId) with
    | none =>
      dsimp only
      exact hcore
    | some st =>
      dsimp only
      rw [himg]
      dsimp only
      exact hcore
  · intro m s chatId userId fid hcid huid hg htext hvoice hph hdoc hexp
    have himg : extractImageFromMessage m = none := by
      unfold extractImageFromMessage
      rw [hph, hdoc]
      rfl
    unfold handleMessage
    dsimp only
    rw [hcid, huid]
    dsimp only
    rw [htext]
    rw [show pyTrim ((none : Option String).getD "") = "" from by decide]
    simp only [show (pySplitOn (pyToLower "") "@").headD "" = "" from by decide,
      show pyStartsWith (pyToLower "") "/repo " = false from by decide,
      show extractTicketCommand "" = (false, "") from by decide]
    simp only [Bool.false_eq_true, if_false, ne_eq, not_true_eq_false,
      and_false, false_and, if_false]
    norm_num
    rw [hvoice]
    have hcore : handleVoice cfg env chatId userId
        (isGroup m.chat) (stateKey chatId userId) s =
        (s, .ok ()) := by
      unfold handleVoice
      rw [if_pos ⟨hg, hreq, hexp⟩]
    rw [if_neg (by decide : ¬("" = "/start" ∨ "" = "/help" ∨ "" = "help"))]
    rw [if_neg (by decide : ¬"" = "/repo")]
    rw [if_neg (by decide : ¬"" = "/apps")]
    rw [if_neg (by decide : ¬"" = "/debug")]
    rw [if_neg (by decide : ¬"" = "/reset")]
    rw [if_neg (by decide : ¬"" = "/clear")]
    rw [if_neg (by decide : ¬"" = "/queue")]
    rw [if_neg (by decide : ¬"" = "/status")]
    cases hpd : dget s.pending (stateKey chatId userId) with
    | none =>
      dsimp only
      exact hcore
    | some st =>
      dsimp only
      rw [himg]
      dsimp only
      exact hcore

def c8MsgTicket : TgMsg :=
  { chat := ⟨some (-100), "supergroup"⟩,
    fromUser := ⟨some 10, "Alice", "", none⟩, messageId := 1,
    text := some "/ticket", voice := none, audio := none, photo := [],
    document := none }

def c8MsgVoice : TgMsg :=
  { chat := ⟨some (-100), "supergroup"⟩,
    fromUser := ⟨some 10, "Alice", "", none⟩, messageId := 2,
    text := none, voice := some "vf1", audio := none, photo := [],
    document := none }

def c8Armed : SysState := { initState with armed := [("-100:10", 150)] }

def c8Expired : SysState := { initState with armed := [("-100:10", 50)] }

/-- Witness for C8: bare `/ticket` arms the timer (now 100, TTL 120 →
expiry 220); a voice at now=100 against expiry 150 yields a draft and
consumes the timer; a voice against expiry 50 changes nothing. -/
theorem C8_arming_timer_witness :
    (cfgSample.requireTicketCommand = true ∧
     isGroup c8MsgTicket.chat = true ∧
     dget initState.pending (stateKey (-100) 10) = none ∧
     dget c8Armed.armed (stateKey (-100) 10) = some 150 ∧
     envOkAll.now ≤ 150 ∧
     (dget c8Expired.armed (stateKey (-100) 10)).getD 0 < envOkAll.now) ∧
    (handleMessage cfgSample envOkAll c8MsgTicket initState).1.armed =
      dset initState.armed (stateKey (-100) 10)
        (envOkAll.now + cfgSample.armTtlSeconds) ∧
    dget (handleMessage cfgSample envOkAll c8MsgVoice c8Armed).1.pending
        (stateKey (-100) 10) =
      some { makeTicketDraft cfgSample envOkAll "hello world" (-100) 10
              c8Armed with
             confirmationMessageId := some envOkAll.newMessageId } ∧
    dget (handleMessage cfgSample envOkAll c8MsgVoice c8Armed).1.armed
        (stateKey (-100) 10) = none ∧
    handleMessage cfgSample envOkAll c8MsgVoice c8Expired =
      (c8Expired, .ok ()) := by
  refine ⟨⟨by decide, by decide, by decide, by decide, by decide, by decide⟩,
    ?_, ?_, ?_, ?_⟩
  · exact ((C8_arming_timer cfgSample envOkAll (by decide)).1 c8MsgTicket
      initState (-100) 10 (by decide) (by decide) (by decide) (by decide)
      (by decide)).1
  · exact ((C8_arming_timer cfgSample envOkAll (by decide)).2.1 c8MsgVoice
      c8Armed (-100) 10 "vf1" "p" "hello world" 150 (by decide) (by decide)
      (by decide) (by decide) (by decide) (by decide) (by decide) (by decide)
      (by decide) (by decide) (by decide) (by decide) (by decide)).1
  · exact ((C8_arming_timer cfgSample envOkAll (by decide)).2.1 c8MsgVoice
      c8Armed (-100) 10 "vf1" "p" "hello world" 150 (by decide) (by decide)
      (by decide) (by decide) (by decide) (by decide) (by decide) (by decide)
      (by decide) (by decide) (by decide) (by decide) (by decide)).2
  · exact (C8_arming_timer cfgSample envOkAll (by decide)).2.2 c8MsgVoice
      c8Expired (-100) 10 "vf1" (by decide) (by decide) (by decide)
      (by decide) (by decide) (by decide) (by decide) (by decide)

/-! ### C5 — transport acknowledgment (code bug)

The lemmas of this section show that, in the model, every *parsed* update
runs to a `{"ok": True}` acknowledgment — i.e. all the failure-prone
branches the source wraps in `try/except` are indeed caught.  The claim's
universal guarantee nevertheless fails in the source on two classes of
request that never reach those branches: a body that does not parse
(`await req.json()`, src/app.py:1414, outside any `try` — represented in
the model by `RawRequest.malformed` and exhibited by `C5_ack_code_bug`),
and a well-formed update whose uncaught Telegram send raises a transport
exception (src/app.py:1533, 1579, 1787, 2129 — outside the model, whose
send helpers are always-delivered). -/

theorem resolveRepo_isSome (cfg : Config) (s : SysState) (c u : Int)
    (hrepo : cfg.githubRepo.isSome) : (resolveRepo cfg s c u).isSome := by
  unfold resolveRepo
  cases dget cfg.chatToRepo c with
  | some r => rfl
  | none =>
    cases dget s.userActiveRepo u with
    | some r => rfl
    | none => exact hrepo

theorem handleResetCmd_ok (cfg : Config) (chatId userId : Int) (s : SysState)
    (hrepo : cfg.githubRepo.isSome) :
    (handleResetCmd cfg chatId userId s).2 = Except.ok () := by
  unfold handleResetCmd
  cases hdm : dget cfg.developerMap userId with
  | none => rfl
  | some di =>
    dsimp only
    cases hr : resolveRepo cfg s chatId userId with
    | none =>
      have := resolveRepo_isSome cfg s chatId userId hrepo
      rw [hr] at this
      cases this
    | some rr => rfl

theorem handleClearCmd_ok (cfg : Config) (env : Env) (chatId userId : Int)
    (s : SysState) (hrepo : cfg.githubRepo.isSome) :
    (handleClearCmd cfg env chatId userId s).2 = Except.ok () := by
  unfold handleClearCmd
  cases hdm : dget cfg.developerMap userId with
  | none => rfl
  | some di =>
    dsimp only
    cases hr : resolveRepo cfg s chatId userId with
    | none =>
      have := resolveRepo_isSome cfg s chatId userId hrepo
      rw [hr] at this
      cases this
    | some rr =>
      dsimp only
      repeat' split
      all_goals rfl

theorem handleQueueCmd_ok (cfg : Config) (env : Env) (chatId userId : Int)
    (s : SysState) (hrepo : cfg.githubRepo.isSome) :
    (handleQueueCmd cfg env chatId userId s).2 = Except.ok () := by
  unfold handleQueueCmd
  cases hdm : dget cfg.developerMap userId with
  | none => rfl
  | some di =>
    dsimp only
    cases hr : resolveRepo cfg s chatId userId with
    | none =>
      have := resolveRepo_isSome cfg s chatId userId hrepo
      rw [hr] at this
      cases this
    | some rr => rfl

theorem handleStatusCmd_ok (cfg : Config) (env : Env) (chatId userId : Int)
    (s : SysState) (hrepo : cfg.githubRepo.isSome) :
    (handleStatusCmd cfg env chatId userId s).2 = Except.ok () := by
  unfold handleStatusCmd
  cases hdm : dget cfg.developerMap userId with
  | none => rfl
  | some di =>
    dsimp only
    cases hr : resolveRepo cfg s chatId userId with
    | none =>
      have := resolveRepo_isSome cfg s chatId userId hrepo
      rw [hr] at this
      cases this
    | some rr => rfl

theorem handleVoice_ok (cfg : Config) (env : Env) (chatId userId : Int)
    (g : Bool) (key : String) (s : SysState) :
    (handleVoice cfg env chatId userId g key s).2 = Except.ok () := by
  unfold handleVoice
  repeat' split
  all_goals rfl

theorem handleCallback_ok (cfg : Config) (env : Env) (cq : TgCallback)
    (s : SysState) : (handleCallback cfg env cq s).2 = Except.ok () := by
  unfold handleCallback
  dsimp only
  split
  · rename_i o1 o2 chatId clickerId hq1 hq2
    generalize pyTrim (cq.cbData.getD "") = d
    generalize tgAnswerCallback cq.cbId none s = s0
    generalize (Option.map (fun x => x.messageId) cq.message).getD 0 = rid
    generalize (cq.message.bind fun x => x.text).getD "" = mtxt
    generalize pySplitOn d ":" = parts
    by_cases h1 : pyStartsWith d "pick:" = true
    · rw [if_pos h1]
    · rw [if_neg h1]
      by_cases h2 : pyStartsWith d "ci_ok:" = true ∨ pyStartsWith d "ci_no:" = true ∨ pyStartsWith d "ci_edit:" = true
      · rw [if_pos h2]
      · rw [if_neg h2]
        by_cases h3 : parts.length < 2
        · rw [if_pos h3]
        · rw [if_neg h3]
          cases hint : pyToInt? (parts.getD 1 "") with
          | none => rfl
          | some authorId =>
            dsimp only
            by_cases h4 : clickerId ≠ authorId
            · rw [if_pos h4]
            · rw [if_neg h4]
              by_cases h5 : parts.headD "" = "reset_confirm"
              · rw [if_pos h5]
              · rw [if_neg h5]
                by_cases h6 : parts.headD "" = "reset_cancel"
                · rw [if_pos h6]
                · rw [if_neg h6]
                  cases hpend : dget s0.pending (stateKey chatId authorId) with
                  | none => rfl
                  | some st =>
                    dsimp only
                    by_cases h7 : parts.headD "" = "noop"
                    · rw [if_pos h7]
                    · rw [if_neg h7]
                      by_cases h8 : parts.headD "" = "opt_ma" ∨ parts.headD "" = "opt_test" ∨ parts.headD "" = "opt_appr"
                      · rw [if_pos h8]
                      · rw [if_neg h8]
                        by_cases h9 : parts.headD "" = "cancel"
                        · rw [if_pos h9]
                        · rw [if_neg h9]
                          by_cases h10 : parts.headD "" = "edit"
                          · rw [if_pos h10]
                          · rw [if_neg h10]
                            by_cases h11 : parts.headD "" = "shot"
                            · rw [if_pos h11]
                            · rw [if_neg h11]
                              by_cases h12 : parts.headD "" = "create"
                              · rw [if_pos h12]
                              · rw [if_neg h12]
  · rfl

theorem handleMessage_ok (cfg : Config) (env : Env) (m : TgMsg)
    (s : SysState) (hrepo : cfg.githubRepo.isSome) :
    (handleMessage cfg env m s).2 = Except.ok () := by
  unfold handleMessage
  dsimp only
  split
  · rename_i o1 o2 chatId userId hq1 hq2
    generalize isGroup m.chat = gb
    generalize stateKey chatId userId = key
    generalize pyTrim (m.text.getD "") = txt
    generalize (pySplitOn (pyToLower txt) "@").headD "" = cmdBase
    generalize extractTicketCommand txt = tc
    by_cases h1 : cmdBase = "/start" ∨ cmdBase = "/help" ∨ cmdBase = "help"
    · rw [if_pos h1]
    · rw [if_neg h1]
      by_cases h2 : cmdBase = "/repo" ∨ pyStartsWith (pyToLower txt) "/repo " = true
      · rw [if_pos h2]
      · rw [if_neg h2]
        by_cases h3 : cmdBase = "/apps"
        · rw [if_pos h3]
        · rw [if_neg h3]
          by_cases h4 : cmdBase = "/debug"
          · rw [if_pos h4]
          · rw [if_neg h4]
            by_cases h5 : cmdBase = "/reset"
            · rw [if_pos h5]
              exact handleResetCmd_ok cfg _ _ _ hrepo
            · rw [if_neg h5]
              by_cases h6 : cmdBase = "/clear"
              · rw [if_pos h6]
                exact handleClearCmd_ok cfg env _ _ _ hrepo
              · rw [if_neg h6]
                by_cases h7 : cmdBase = "/queue"
                · rw [if_pos h7]
                  exact handleQueueCmd_ok cfg env _ _ _ hrepo
                · rw [if_neg h7]
                  by_cases h8 : cmdBase = "/status"
                  · rw [if_pos h8]
                    exact handleStatusCmd_ok cfg env _ _ _ hrepo
                  · rw [if_neg h8]
                    by_cases h9 : (dget s.approvalAwaitingFeedback chatId).isSome = true ∧ txt ≠ "" ∧ ¬ pyStartsWith txt "/" = true
                    · rw [if_pos h9]
                      cases hfb : dget s.approvalAwaitingFeedback chatId with
                      | none => rfl
                      | some fb => rfl
                    · rw [if_neg h9]
                      cases hp : dget s.pending key with
                      | some st =>
                        cases himg : extractImageFromMessage m with
                        | some img => rfl
                        | none =>
                          dsimp only
                          by_cases hst : st.stage = "edit" ∧ txt ≠ ""
                          · rw [if_pos hst]
                          · rw [if_neg hst]
                            by_cases ht1 : gb = true ∧ cfg.requireTicketCommand = true ∧ tc.1 = true ∧ tc.2 ≠ ""
                            · rw [if_pos ht1]
                            · rw [if_neg ht1]
                              by_cases ht2 : gb = true ∧ cfg.requireTicketCommand = true ∧ tc.1 = true ∧ tc.2 = ""
                              · rw [if_pos ht2]
                              · rw [if_neg ht2]
                                by_cases ht3 : gb = true ∧ cfg.requireTicketCommand = true ∧ txt ≠ "" ∧ m.voice = none ∧ m.audio = none
                                · rw [if_pos ht3]
                                · rw [if_neg ht3]
                                  by_cases ht4 : txt ≠ "" ∧ ¬ gb = true ∧ tc.1 = true ∧ tc.2 ≠ ""
                                  · rw [if_pos ht4]
                                  · rw [if_neg ht4]
                                    by_cases ht5 : txt ≠ "" ∧ m.voice = none ∧ m.audio = none
                                    · rw [if_pos ht5]
                                    · rw [if_neg ht5]
                                      cases hv : m.voice.orElse (fun x => m.audio) with
                                      | none => rfl
                                      | some v => exact handleVoice_ok cfg env _ _ _ _ _
                      | none =>
                        by_cases ht1 : gb = true ∧ cfg.requireTicketCommand = true ∧ tc.1 = true ∧ tc.2 ≠ ""
                        · rw [if_pos ht1]
                        · rw [if_neg ht1]
                          by_cases ht2 : gb = true ∧ cfg.requireTicketCommand = true ∧ tc.1 = true ∧ tc.2 = ""
                          · rw [if_pos ht2]
                          · rw [if_neg ht2]
                            by_cases ht3 : gb = true ∧ cfg.requireTicketCommand = true ∧ txt ≠ "" ∧ m.voice = none ∧ m.audio = none
                            · rw [if_pos ht3]
                            · rw [if_neg ht3]
                              by_cases ht4 : txt ≠ "" ∧ ¬ gb = true ∧ tc.1 = true ∧ tc.2 ≠ ""
                              · rw [if_pos ht4]
                              · rw [if_neg ht4]
                                by_cases ht5 : txt ≠ "" ∧ m.voice = none ∧ m.audio = none
                                · rw [if_pos ht5]
                                · rw [if_neg ht5]
                                  cases hv : m.voice.orElse (fun x => m.audio) with
                                  | none => rfl
                                  | some v => exact handleVoice_ok cfg env _ _ _ _ _
  · rfl

/-- **C5 (code bug)**: the spec guarantees that the webhook handler always
returns a success acknowledgment to the transport — explicitly to avoid
redelivery storms — but the code does not deliver that guarantee.
`await req.json()` (src/app.py:1414) sits outside any `try`, so a request
whose body fails to parse raises out of the handler (an HTTP 500 to the
transport), which this theorem exhibits on a concrete run.  Independently,
the Telegram send helpers (src/app.py:301-384) can raise transport
exceptions from their bare `requests.post` calls, and several call sites
sit outside any `try` (src/app.py:1533, 1579, 1787, 2129), so even a
well-formed update can propagate a failure when a send times out; that
path lies outside this model's always-delivered send helpers and is part
of the same unmet guarantee. -/
theorem C5_ack_code_bug :
    (telegramWebhook cfgSample envOkAll RawRequest.malformed initState).2 =
      WebhookResult.serverError "json decode error" ∧
    (telegramWebhook cfgSample envOkAll RawRequest.malformed initState).2 ≠
      WebhookResult.ok := by
  exact ⟨rfl, by decide⟩

/-! ### C4: the draft dictionary stays well-formed on every reachable state

`PENDING` starts empty, and every write anywhere in the program goes through
`dset`/`dpop`, so the keys never duplicate and at most one draft ever exists
per `(chat, user)` key.  The lemmas below establish, handler by handler, that
the `pending` field is only ever left alone, `dset` or `dpop`-ed. -/

/-- A match-branch state equals the first component of the scrutinee. -/
theorem pendOf {α : Type} {f : SysState × α} {s1 : SysState} {v : α}
    (h : f = (s1, v)) : s1.pending = f.1.pending := by rw [h]

theorem tgSendMessage_pending (c : Int) (t : String) (s : SysState) :
    (tgSendMessage c t s).pending = s.pending := rfl

theorem tgSendHtml_pending (c : Int) (t : String) (s : SysState) :
    (tgSendHtml c t s).pending = s.pending := rfl

theorem tgSendKeyboard_pending (c : Int) (t : String)
    (kb : List (List (String × String))) (s : SysState) :
    (tgSendKeyboard c t kb s).pending = s.pending := rfl

theorem tgEditKeyboard_pending (c : Int) (mid : Nat) (t : String)
    (kb : List (List (String × String))) (s : SysState) :
    (tgEditKeyboard c mid t kb s).pending = s.pending := rfl

theorem tgAnswerCallback_pending (cid : String) (n : Option String)
    (s : SysState) : (tgAnswerCallback cid n s).pending = s.pending := rfl

theorem ghListIssuesWithLabels_fst (cfg : Config) (env : Env)
    (labels : List String) (r : Option String) (s : SysState) :
    (ghListIssuesWithLabels cfg env labels r s).1 = s := by
  unfold ghListIssuesWithLabels
  repeat' split
  all_goals rfl

theorem ghBranchExists_fst (cfg : Config) (env : Env) (b : String)
    (r : Option String) (s : SysState) :
    (ghBranchExists cfg env b r s).1 = s := by
  unfold ghBranchExists
  split <;> rfl

theorem ghGetDefaultBranch_fst (cfg : Config) (env : Env)
    (r : Option String) (s : SysState) :
    (ghGetDefaultBranch cfg env r s).1 = s := by
  unfold ghGetDefaultBranch
  split <;> rfl

theorem ghPutFile_fst (cfg : Config) (env : Env) (b p : String)
    (r : Option String) (s : SysState) :
    (ghPutFile cfg env b p r s).1 = s := by
  unfold ghPutFile
  split <;> rfl

theorem ghGetBranchSha_fst (cfg : Config) (env : Env) (b : String)
    (r : Option String) (s : SysState) :
    (ghGetBranchSha cfg env b r s).1 = s := by
  unfold ghGetBranchSha
  split <;> rfl

theorem ghForceResetBranch_fst (cfg : Config) (env : Env) (b tb : String)
    (r : Option String) (s : SysState) :
    (ghForceResetBranch cfg env b tb r s).1 = s := by
  unfold ghForceResetBranch
  split <;> rfl

theorem ghCreateTag_fst (cfg : Config) (env : Env) (tn sha : String)
    (r : Option String) (s : SysState) :
    (ghCreateTag cfg env tn sha r s).1 = s := by
  unfold ghCreateTag
  split <;> rfl

theorem ghAddLabel_pending (cfg : Config) (env : Env) (n : Nat)
    (lab : String) (r : Option String) (s : SysState) :
    ((ghAddLabel cfg env n lab r s).1).pending = s.pending := by
  unfold ghAddLabel
  repeat' split
  all_goals rfl

theorem ghRemoveLabel_pending (cfg : Config) (env : Env) (n : Nat)
    (lab : String) (r : Option String) (s : SysState) :
    ((ghRemoveLabel cfg env n lab r s).1).pending = s.pending := by
  unfold ghRemoveLabel
  repeat' split
  all_goals rfl

theorem ghCreateIssue_pending (cfg : Config) (env : Env) (t b : String)
    (extra : List String) (r : Option String) (s : SysState) :
    ((ghCreateIssue cfg env t b extra r s).1).pending = s.pending := by
  unfold ghCreateIssue
  repeat' split
  all_goals rfl

theorem ghUpdateIssue_pending (cfg : Config) (env : Env) (n : Nat)
    (b : String) (r : Option String) (s : SysState) :
    ((ghUpdateIssue cfg env n b r s).1).pending = s.pending := by
  unfold ghUpdateIssue
  repeat' split
  all_goals rfl

theorem ghCreateBranch_pending (cfg : Config) (env : Env) (b fb : String)
    (r : Option String) (s : SysState) :
    ((ghCreateBranch cfg env b fb r s).1).pending = s.pending := by
  unfold ghCreateBranch
  repeat' split
  all_goals rfl

theorem queueSetActive_pending (env : Env) (r : Option String) (b : String)
    (n : Nat) (t : String) (s : SysState) :
    (queueSetActive env r b n t s).pending = s.pending := rfl

theorem showConfirmation_pending (cfg : Config) (env : Env)
    (chatId authorId : Int) (key : String) (d : Draft) (s : SysState) :
    (showConfirmation cfg env chatId authorId key d s).pending =
      dset s.pending key { d with confirmationMessageId := some env.newMessageId } := rfl

theorem queueIsBusy_pending (cfg : Config) (env : Env) (r : Option String)
    (b : String) (s : SysState) :
    ((queueIsBusy cfg env r b s).1).pending = s.pending := by
  unfold queueIsBusy
  dsimp only
  repeat' split
  all_goals try rfl
  all_goals rename_i heq
  all_goals try rw [queueSetActive_pending]
  all_goals rw [pendOf heq, ghListIssuesWithLabels_fst]

theorem queueSize_pending (cfg : Config) (env : Env) (r : Option String)
    (b : String) (s : SysState) :
    ((queueSize cfg env r b s).1).pending = s.pending := by
  unfold queueSize
  repeat' split
  all_goals try rfl
  all_goals rename_i heq
  all_goals rw [pendOf heq, ghListIssuesWithLabels_fst]

theorem queueListPending_pending (cfg : Config) (env : Env)
    (r : Option String) (b : String) (s : SysState) :
    ((queueListPending cfg env r b s).1).pending = s.pending := by
  unfold queueListPending
  repeat' split
  all_goals try rfl
  all_goals rename_i heq
  all_goals rw [pendOf heq, ghListIssuesWithLabels_fst]

theorem queueClearActive_pending (cfg : Config) (env : Env)
    (r : Option String) (b : String) (s : SysState) :
    (queueClearActive cfg env r b s).pending = s.pending := by
  unfold queueClearActive
  dsimp only
  split
  · rw [ghRemoveLabel_pending]
  · rfl

theorem queueProcessNext_pending (cfg : Config) (env : Env)
    (r : Option String) (b : String) (s : SysState) :
    ((queueProcessNext cfg env r b s).1).pending = s.pending := by
  unfold queueProcessNext
  cases hdl : getDevLabel cfg b with
  | none => rfl
  | some devLabel =>
    dsimp only
    cases h1 : ghListIssuesWithLabels cfg env ["queue:pending", devLabel] r s with
    | mk s1 r1 =>
      have e1 : s1.pending = s.pending := by
        rw [pendOf h1, ghListIssuesWithLabels_fst]
      cases r1 with
      | error e => exact e1
      | ok lst =>
        cases lst with
        | nil => exact e1
        | cons issue rest =>
          dsimp only
          cases h2 : ghRemoveLabel cfg env issue.number "queue:pending" r s1 with
          | mk s2 r2 =>
            have e2 : s2.pending = s.pending := by
              rw [pendOf h2, ghRemoveLabel_pending, e1]
            cases r2 with
            | error e => exact e2
            | ok b2 =>
              dsimp only
              cases h3 : ghAddLabel cfg env issue.number "queue:execute" r s2 with
              | mk s3 r3 =>
                have e3 : s3.pending = s.pending := by
                  rw [pendOf h3, ghAddLabel_pending, e2]
                cases r3 with
                | error e => exact e3
                | ok b3 =>
                  cases b3 with
                  | false => exact e3
                  | true =>
                    dsimp only
                    split
                    · rw [tgSendHtml_pending, queueSetActive_pending]
                      exact e3
                    · rw [queueSetActive_pending]
                      exact e3

theorem fstOf {α : Type} {f : SysState × α} {s1 : SysState} {v : α}
    (h : f = (s1, v)) : s1 = f.1 := by rw [h]

theorem handlePick_pending (cfg : Config) (env : Env) (data : String)
    (chatId clickerId : Int) (rid : Nat) (mtxt : String) (s : SysState) :
    (handlePick cfg env data chatId clickerId rid mtxt s).pending =
      s.pending := by
  unfold handlePick
  dsimp only
  repeat' split
  all_goals try rfl
  all_goals first
    | rw [tgSendMessage_pending]
    | rw [tgEditKeyboard_pending]
  all_goals first
    | (rename_i heq; rw [pendOf heq, ghAddLabel_pending])
    | (rename_i heq _; rw [pendOf heq, ghAddLabel_pending])
    | (rename_i heq _ _; rw [pendOf heq, ghAddLabel_pending])
    | (rename_i heq _ _ _; rw [pendOf heq, ghAddLabel_pending])
    | (rename_i heq _ _ _ _; rw [pendOf heq, ghAddLabel_pending])
    | (rename_i heq _ _ _ _ _; rw [pendOf heq, ghAddLabel_pending])

theorem handleCiCallback_pending (data : String) (chatId : Int) (rid : Nat)
    (s : SysState) :
    (handleCiCallback data chatId rid s).pending = s.pending := by
  unfold handleCiCallback
  dsimp only
  repeat' split
  all_goals rfl

theorem handleResetConfirm_pending (cfg : Config) (env : Env)
    (chatId clickerId : Int) (rid : Nat) (s : SysState) :
    (handleResetConfirm cfg env chatId clickerId rid s).pending =
      s.pending := by
  unfold handleResetConfirm
  cases hdm : dget cfg.developerMap clickerId with
  | none => rfl
  | some devInfo =>
    dsimp only
    cases hA : ghGetBranchSha cfg env devInfo.branch
        (resolveRepo cfg s chatId clickerId) s with
    | mk sa ra =>
      have ea : sa.pending = s.pending := by
        rw [pendOf hA, ghGetBranchSha_fst]
      cases ra with
      | error e =>
              dsimp only
              cases hF : ghForceResetBranch cfg env devInfo.branch
                  (defaultBranchFor cfg (resolveRepo cfg s chatId clickerId))
                  (resolveRepo cfg s chatId clickerId) sa with
              | mk s2 r2 =>
                have e2 : s2.pending = s.pending := by
                  rw [pendOf hF, ghForceResetBranch_fst, ea]
                cases r2 with
                | error e => rw [tgSendMessage_pending]; exact e2
                | ok sha => dsimp only; rw [tgSendMessage_pending]; exact e2
      | ok branchSha =>
        dsimp only
        cases hB : ghGetBranchSha cfg env
            (defaultBranchFor cfg (resolveRepo cfg s chatId clickerId))
            (resolveRepo cfg s chatId clickerId) sa with
        | mk sb rb =>
          have eb : sb.pending = s.pending := by
            rw [pendOf hB, ghGetBranchSha_fst, ea]
          cases rb with
          | error e =>
                  dsimp only
                  cases hF : ghForceResetBranch cfg env devInfo.branch
                      (defaultBranchFor cfg (resolveRepo cfg s chatId clickerId))
                      (resolveRepo cfg s chatId clickerId) sb with
                  | mk s2 r2 =>
                    have e2 : s2.pending = s.pending := by
                      rw [pendOf hF, ghForceResetBranch_fst, eb]
                    cases r2 with
                    | error e => rw [tgSendMessage_pending]; exact e2
                    | ok sha => dsimp only; rw [tgSendMessage_pending]; exact e2
          | ok mainSha =>
            dsimp only
            by_cases hms : branchSha = mainSha
            · rw [if_pos hms]
              dsimp only
              cases hF : ghForceResetBranch cfg env devInfo.branch
                  (defaultBranchFor cfg (resolveRepo cfg s chatId clickerId))
                  (resolveRepo cfg s chatId clickerId) sb with
              | mk s2 r2 =>
                have e2 : s2.pending = s.pending := by
                  rw [pendOf hF, ghForceResetBranch_fst, eb]
                cases r2 with
                | error e => rw [tgSendMessage_pending]; exact e2
                | ok sha => dsimp only; rw [tgSendMessage_pending]; exact e2
            · rw [if_neg hms]
              try dsimp only
              cases hC : ghCreateTag cfg env
                  ("backup/" ++ ((pySplitOn devInfo.branch "/").getLast?).getD devInfo.branch
                    ++ "/" ++ pyTake branchSha 7) branchSha
                  (resolveRepo cfg s chatId clickerId) sb with
              | mk sc rc =>
                have ec : sc.pending = s.pending := by
                  rw [pendOf hC, ghCreateTag_fst, eb]
                cases rc with
                | ok u =>
                      dsimp only
                      cases hF : ghForceResetBranch cfg env devInfo.branch
                          (defaultBranchFor cfg (resolveRepo cfg s chatId clickerId))
                          (resolveRepo cfg s chatId clickerId) sc with
                      | mk s2 r2 =>
                        have e2 : s2.pending = s.pending := by
                          rw [pendOf hF, ghForceResetBranch_fst, ec]
                        cases r2 with
                        | error e => rw [tgSendMessage_pending]; exact e2
                        | ok sha => dsimp only; rw [tgSendMessage_pending]; exact e2
                | error e =>
                      dsimp only
                      cases hF : ghForceResetBranch cfg env devInfo.branch
                          (defaultBranchFor cfg (resolveRepo cfg s chatId clickerId))
                          (resolveRepo cfg s chatId clickerId) sc with
                      | mk s2 r2 =>
                        have e2 : s2.pending = s.pending := by
                          rw [pendOf hF, ghForceResetBranch_fst, ec]
                        cases r2 with
                        | error e => rw [tgSendMessage_pending]; exact e2
                        | ok sha => dsimp only; rw [tgSendMessage_pending]; exact e2

theorem handleToggle_nodup (cfg : Config) (action : String)
    (chatId authorId : Int) (key : String) (st : Draft) (s : SysState)
    (h : KeysNodup s.pending) :
    KeysNodup (handleToggle cfg action chatId authorId key st s).pending := by
  unfold handleToggle
  dsimp only
  split
  · rw [tgEditKeyboard_pending]
    exact keysNodup_dset h key _
  · exact keysNodup_dset h key _

theorem handleRepoCmd_pending (cfg : Config) (text : String)
    (chatId userId : Int) (s : SysState) :
    (handleRepoCmd cfg text chatId userId s).pending = s.pending := by
  unfold handleRepoCmd
  dsimp only
  repeat' split
  all_goals rfl

theorem handleResetCmd_pending (cfg : Config) (chatId userId : Int)
    (s : SysState) :
    ((handleResetCmd cfg chatId userId s).1).pending = s.pending := by
  unfold handleResetCmd
  split
  · rfl
  · dsimp only
    split
    all_goals rfl

theorem handleQueueCmd_pending (cfg : Config) (env : Env)
    (chatId userId : Int) (s : SysState) :
    ((handleQueueCmd cfg env chatId userId s).1).pending = s.pending := by
  unfold handleQueueCmd
  cases hdm : dget cfg.developerMap userId with
  | none => rfl
  | some devInfo =>
    dsimp only
    cases hrr : resolveRepo cfg s chatId userId with
    | none => rfl
    | some rr =>
      dsimp only
      cases hq : queueListPending cfg env (some rr) devInfo.branch
          ((queueIsBusy cfg env (some rr) devInfo.branch s).1) with
      | mk s2 pis =>
        dsimp only
        rw [tgSendMessage_pending, pendOf hq, queueListPending_pending,
          queueIsBusy_pending]

theorem handleStatusCmd_pending (cfg : Config) (env : Env)
    (chatId userId : Int) (s : SysState) :
    ((handleStatusCmd cfg env chatId userId s).1).pending = s.pending := by
  unfold handleStatusCmd
  cases hdm : dget cfg.developerMap userId with
  | none => rfl
  | some devInfo =>
    dsimp only
    cases hrr : resolveRepo cfg s chatId userId with
    | none => rfl
    | some rr =>
      dsimp only
      cases hq : queueListPending cfg env (some rr) devInfo.branch
          ((queueIsBusy cfg env (some rr) devInfo.branch s).1) with
      | mk s2 pis =>
        dsimp only
        rw [tgSendMessage_pending, pendOf hq, queueListPending_pending,
          queueIsBusy_pending]

theorem handleClearCmd_pending (cfg : Config) (env : Env)
    (chatId userId : Int) (s : SysState) :
    ((handleClearCmd cfg env chatId userId s).1).pending = s.pending := by
  unfold handleClearCmd
  cases hdm : dget cfg.developerMap userId with
  | none => rfl
  | some devInfo =>
    dsimp only
    cases hq : queueSize cfg env (resolveRepo cfg s chatId userId)
        devInfo.branch
        ((queueIsBusy cfg env (resolveRepo cfg s chatId userId)
          devInfo.branch s).1) with
    | mk s2 pc =>
      have e2 : s2.pending = s.pending := by
        rw [pendOf hq, queueSize_pending, queueIsBusy_pending]
      dsimp only
      cases hrr : resolveRepo cfg s chatId userId with
      | none => exact e2
      | some rr =>
        dsimp only
        split
        · rw [tgSendMessage_pending]; exact e2
        · split
          · split
            all_goals rename_i heq
            all_goals rw [tgSendMessage_pending, pendOf heq,
              queueProcessNext_pending]
            all_goals dsimp only
            all_goals rw [queueClearActive_pending]
            all_goals exact e2
          · rw [tgSendMessage_pending]
            dsimp only
            rw [queueClearActive_pending]
            exact e2

theorem ciRequestApproval_pending (cfg : Config) (env : Env)
    (p : ApprovalPayload) (s : SysState) :
    ((ciRequestApproval cfg env p s).1).pending = s.pending := by
  unfold ciRequestApproval
  dsimp only
  repeat' split
  all_goals rfl

theorem createBody_pending (cfg : Config) (env : Env)
    (chatId clickerId : Int) (fromUser : TgUser) (st : Draft)
    (s : SysState) :
    ((createBody cfg env chatId clickerId fromUser st s).1).pending =
      s.pending := by
  unfold createBody
  dsimp only
  cases hrep : st.repo.orElse (fun x => resolveRepo cfg s chatId clickerId) with
  | none => rfl
  | some targetRepo =>
    dsimp only
    cases hdev : dget cfg.developerMap clickerId with
    | none =>
      try dsimp only
      split
      · rename_i s3 e hci
        try dsimp only
        rw [pendOf hci, ghCreateIssue_pending]
      · rename_i s3 issue hci
        have e3 : s3.pending = s.pending := by
          rw [pendOf hci, ghCreateIssue_pending]
        try dsimp only
        cases hss : st.screenshot with
        | none =>
          simp only [Option.map_none']
          try dsimp only
          rw [if_neg (show ¬ (("" : String) ≠ "" ∨ ("" : String) ≠ "") by decide)]
          try dsimp only
          rw [if_neg (show ¬ (false = true) by decide)]
          try dsimp only
          rw [tgSendMessage_pending]
          exact e3
        | some shot =>
          simp only [Option.map_none']
          try dsimp only
          cases hgd : ghGetDefaultBranch cfg env (some targetRepo) s3 with
          | mk sb rg =>
            have egd : sb.pending = s.pending := by
              rw [pendOf hgd, ghGetDefaultBranch_fst, e3]
            cases rg with
            | error e =>
              try dsimp only
              exact egd
            | ok db =>
              try dsimp only
              cases hfp : env.getFilePath with
              | error e =>
                try dsimp only
                exact egd
              | ok o =>
                cases o with
                | none =>
                  try dsimp only
                  exact egd
                | some p =>
                  try dsimp only
                  by_cases hdk : env.downloadOk = true
                  · rw [if_pos hdk]
                    cases hpf : ghPutFile cfg env db
                        ("tickets/issue-" ++ toString issue.number
                          ++ "/screenshot." ++ shot.ext)
                        (some targetRepo) sb with
                    | mk sc rc2 =>
                      have epf : sc.pending = s.pending := by
                        rw [pendOf hpf, ghPutFile_fst, egd]
                      cases rc2 with
                      | ok htmlUrl =>
                        try dsimp only
                        by_cases hcond :
                            ("\nBranch: `" ++ db ++ "` (default)") ≠ ""
                            ∨ ("\nScreenshot: " ++ htmlUrl) ≠ ""
                        · rw [if_pos hcond]
                          cases hup : ghUpdateIssue cfg env issue.number
                              ((formatIssue st.text chatId fromUser none).2
                                ++ "\n\n---\n"
                                ++ pyTrim
                                  (("\nBranch: `" ++ db ++ "` (default)")
                                    ++ ("\nScreenshot: " ++ htmlUrl)))
                              (some targetRepo) sc with
                          | mk su ru =>
                            have eup : su.pending = s.pending := by
                              rw [pendOf hup, ghUpdateIssue_pending, epf]
                            cases ru with
                            | error e =>
                              try dsimp only
                              exact eup
                            | ok a =>
                              try dsimp only
                              rw [if_neg (show ¬ (false = true) by decide)]
                              try dsimp only
                              rw [tgSendMessage_pending]
                              exact eup
                        · rw [if_neg hcond]
                          try dsimp only
                          rw [if_neg (show ¬ (false = true) by decide)]
                          try dsimp only
                          rw [tgSendMessage_pending]
                          exact epf
                      | error e =>
                        try dsimp only
                        exact epf
                  · rw [if_neg hdk]
                    try dsimp only
                    exact egd
    | some di =>
      dsimp only
      cases hbe : ghBranchExists cfg env di.branch (some targetRepo) s with
      | mk s1 r1 =>
        have e1 : s1.pending = s.pending := by
          rw [pendOf hbe, ghBranchExists_fst]
        cases r1 with
        | error e =>
          try dsimp only
          exact e1
        | ok bex =>
          try dsimp only
          by_cases hbex : bex = true
          · rw [if_pos hbex]
            try dsimp only
            cases hqb : queueIsBusy cfg env (some targetRepo) di.branch ({ s1 with devChat := dset s1.devChat (ctxKeyOpt (some targetRepo) di.branch) ⟨chatId, clickerId, fromUser.firstName⟩ }) with
            | mk sq busy =>
              have eq2 : sq.pending = s.pending := by
                rw [pendOf hqb, queueIsBusy_pending]
                exact e1
              try dsimp only
              split
              · rename_i s3 e hci
                try dsimp only
                rw [pendOf hci, ghCreateIssue_pending, eq2]
              · rename_i s3 issue hci
                have e3 : s3.pending = s.pending := by
                  rw [pendOf hci, ghCreateIssue_pending, eq2]
                try dsimp only
                cases hss : st.screenshot with
                | none =>
                  simp only [Option.map_some']
                  try dsimp only
                  by_cases hcond : ("\nBranch: `" ++ di.branch ++ "`") ≠ "" ∨ ("" : String) ≠ ""
                  · rw [if_pos hcond]
                    cases hup : ghUpdateIssue cfg env issue.number
                        ((formatIssue st.text chatId fromUser (some di)).2 ++ "\n\n---\n"
                          ++ pyTrim (("\nBranch: `" ++ di.branch ++ "`") ++ ""))
                        (some targetRepo) s3 with
                    | mk su ru =>
                      have eup : su.pending = s.pending := by
                        rw [pendOf hup, ghUpdateIssue_pending, e3]
                      cases ru with
                      | error e =>
                        try dsimp only
                        exact eup
                      | ok a =>
                        try dsimp only
                        by_cases hbz : busy = true
                        · rw [if_pos hbz]
                          try dsimp only
                          cases hqs : queueSize cfg env (some targetRepo) di.branch su with
                          | mk s6 pc =>
                            try dsimp only
                            rw [tgSendHtml_pending, pendOf hqs, queueSize_pending, eup]
                        · rw [if_neg hbz]
                          try dsimp only
                          cases hal : ghAddLabel cfg env issue.number "queue:execute"
                              (some targetRepo) su with
                          | mk s6 ra =>
                            have eal : s6.pending = s.pending := by
                              rw [pendOf hal, ghAddLabel_pending, eup]
                            cases ra with
                            | error e =>
                              try dsimp only
                              exact eal
                            | ok b =>
                              try dsimp only
                              cases hqs2 : queueSize cfg env (some targetRepo) di.branch
                                  (queueSetActive env (some targetRepo) di.branch issue.number
                                    (formatIssue st.text chatId fromUser (some di)).1 s6) with
                              | mk s7 rem =>
                                try dsimp only
                                rw [tgSendMessage_pending, pendOf hqs2, queueSize_pending,
                                  queueSetActive_pending, eal]
                  · rw [if_neg hcond]
                    try dsimp only
                    by_cases hbz : busy = true
                    · rw [if_pos hbz]
                      try dsimp only
                      cases hqs : queueSize cfg env (some targetRepo) di.branch s3 with
                      | mk s6 pc =>
                        try dsimp only
                        rw [tgSendHtml_pending, pendOf hqs, queueSize_pending, e3]
                    · rw [if_neg hbz]
                      try dsimp only
                      cases hal : ghAddLabel cfg env issue.number "queue:execute"
                          (some targetRepo) s3 with
                      | mk s6 ra =>
                        have eal : s6.pending = s.pending := by
                          rw [pendOf hal, ghAddLabel_pending, e3]
                        cases ra with
                        | error e =>
                          try dsimp only
                          exact eal
                        | ok b =>
                          try dsimp only
                          cases hqs2 : queueSize cfg env (some targetRepo) di.branch
                              (queueSetActive env (some targetRepo) di.branch issue.number
                                (formatIssue st.text chatId fromUser (some di)).1 s6) with
                          | mk s7 rem =>
                            try dsimp only
                            rw [tgSendMessage_pending, pendOf hqs2, queueSize_pending,
                              queueSetActive_pending, eal]
                | some shot =>
                  simp only [Option.map_some']
                  try dsimp only
                  cases hfp : env.getFilePath with
                  | error e =>
                    try dsimp only
                    exact e3
                  | ok o =>
                    cases o with
                    | none =>
                      try dsimp only
                      exact e3
                    | some p =>
                      try dsimp only
                      by_cases hdk : env.downloadOk = true
                      · rw [if_pos hdk]
                        cases hpf : ghPutFile cfg env di.branch
                            ("tickets/issue-" ++ toString issue.number ++ "/screenshot."
                              ++ shot.ext) (some targetRepo) s3 with
                        | mk sc rc2 =>
                          have epf : sc.pending = s.pending := by
                            rw [pendOf hpf, ghPutFile_fst, e3]
                          cases rc2 with
                          | ok htmlUrl =>
                            try dsimp only
                            by_cases hcond : ("\nBranch: `" ++ di.branch ++ "`") ≠ ""
                                ∨ ("\nScreenshot: " ++ htmlUrl) ≠ ""
                            · rw [if_pos hcond]
                              cases hup : ghUpdateIssue cfg env issue.number
                                  ((formatIssue st.text chatId fromUser (some di)).2
                                    ++ "\n\n---\n"
                                    ++ pyTrim (("\nBranch: `" ++ di.branch ++ "`")
                                      ++ ("\nScreenshot: " ++ htmlUrl)))
                                  (some targetRepo) sc with
                              | mk su ru =>
                                have eup : su.pending = s.pending := by
                                  rw [pendOf hup, ghUpdateIssue_pending, epf]
                                cases ru with
                                | error e =>
                                  try dsimp only
                                  exact eup
                                | ok a =>
                                  try dsimp only
                                  by_cases hbz : busy = true
                                  · rw [if_pos hbz]
                                    try dsimp only
                                    cases hqs : queueSize cfg env (some targetRepo) di.branch su with
                                    | mk s6 pc =>
                                      try dsimp only
                                      rw [tgSendHtml_pending, pendOf hqs, queueSize_pending, eup]
                                  · rw [if_neg hbz]
                                    try dsimp only
                                    cases hal : ghAddLabel cfg env issue.number "queue:execute"
                                        (some targetRepo) su with
                                    | mk s6 ra =>
                                      have eal : s6.pending = s.pending := by
                                        rw [pendOf hal, ghAddLabel_pending, eup]
                                      cases ra with
                                      | error e =>
                                        try dsimp only
                                        exact eal
                                      | ok b =>
                                        try dsimp only
                                        cases hqs2 : queueSize cfg env (some targetRepo) di.branch
                                            (queueSetActive env (some targetRepo) di.branch issue.number
                                              (formatIssue st.text chatId fromUser (some di)).1 s6) with
                                        | mk s7 rem =>
                                          try dsimp only
                                          rw [tgSendMessage_pending, pendOf hqs2, queueSize_pending,
                                            queueSetActive_pending, eal]
                            · rw [if_neg hcond]
                              try dsimp only
                              by_cases hbz : busy = true
                              · rw [if_pos hbz]
                                try dsimp only
                                cases hqs : queueSize cfg env (some targetRepo) di.branch sc with
                                | mk s6 pc =>
                                  try dsimp only
                                  rw [tgSendHtml_pending, pendOf hqs, queueSize_pending, epf]
                              · rw [if_neg hbz]
                                try dsimp only
                                cases hal : ghAddLabel cfg env issue.number "queue:execute"
                                    (some targetRepo) sc with
                                | mk s6 ra =>
                                  have eal : s6.pending = s.pending := by
                                    rw [pendOf hal, ghAddLabel_pending, epf]
                                  cases ra with
                                  | error e =>
                                    try dsimp only
                                    exact eal
                                  | ok b =>
                                    try dsimp only
                                    cases hqs2 : queueSize cfg env (some targetRepo) di.branch
                                        (queueSetActive env (some targetRepo) di.branch issue.number
                                          (formatIssue st.text chatId fromUser (some di)).1 s6) with
                                    | mk s7 rem =>
                                      try dsimp only
                                      rw [tgSendMessage_pending, pendOf hqs2, queueSize_pending,
                                        queueSetActive_pending, eal]
                          | error e =>
                            try dsimp only
                            exact epf
                      · rw [if_neg hdk]
                        try dsimp only
                        exact e3
          · rw [if_neg hbex]
            try dsimp only
            cases hcb : ghCreateBranch cfg env di.branch
                (defaultBranchFor cfg (some targetRepo)) (some targetRepo)
                s1 with
            | mk sb r2 =>
              have ecb : sb.pending = s.pending := by
                rw [pendOf hcb, ghCreateBranch_pending, e1]
              cases r2 with
              | ok u =>
                try dsimp only
                cases hqb : queueIsBusy cfg env (some targetRepo) di.branch ({ sb with branchJustCreated := dset sb.branchJustCreated (ctxKeyOpt (some targetRepo) di.branch) env.now, devChat := dset sb.devChat (ctxKeyOpt (some targetRepo) di.branch) ⟨chatId, clickerId, fromUser.firstName⟩ }) with
                | mk sq busy =>
                  have eq2 : sq.pending = s.pending := by
                    rw [pendOf hqb, queueIsBusy_pending]
                    exact ecb
                  try dsimp only
                  split
                  · rename_i s3 e hci
                    try dsimp only
                    rw [pendOf hci, ghCreateIssue_pending, eq2]
                  · rename_i s3 issue hci
                    have e3 : s3.pending = s.pending := by
                      rw [pendOf hci, ghCreateIssue_pending, eq2]
                    try dsimp only
                    cases hss : st.screenshot with
                    | none =>
                      simp only [Option.map_some']
                      try dsimp only
                      by_cases hcond : ("\nBranch: `" ++ di.branch ++ "`") ≠ "" ∨ ("" : String) ≠ ""
                      · rw [if_pos hcond]
                        cases hup : ghUpdateIssue cfg env issue.number
                            ((formatIssue st.text chatId fromUser (some di)).2 ++ "\n\n---\n"
                              ++ pyTrim (("\nBranch: `" ++ di.branch ++ "`") ++ ""))
                            (some targetRepo) s3 with
                        | mk su ru =>
                          have eup : su.pending = s.pending := by
                            rw [pendOf hup, ghUpdateIssue_pending, e3]
                          cases ru with
                          | error e =>
                            try dsimp only
                            exact eup
                          | ok a =>
                            try dsimp only
                            by_cases hbz : busy = true
                            · rw [if_pos hbz]
                              try dsimp only
                              cases hqs : queueSize cfg env (some targetRepo) di.branch su with
                              | mk s6 pc =>
                                try dsimp only
                                rw [tgSendHtml_pending, pendOf hqs, queueSize_pending, eup]
                            · rw [if_neg hbz]
                              try dsimp only
                              cases hal : ghAddLabel cfg env issue.number "queue:execute"
                                  (some targetRepo) su with
                              | mk s6 ra =>
                                have eal : s6.pending = s.pending := by
                                  rw [pendOf hal, ghAddLabel_pending, eup]
                                cases ra with
                                | error e =>
                                  try dsimp only
                                  exact eal
                                | ok b =>
                                  try dsimp only
                                  cases hqs2 : queueSize cfg env (some targetRepo) di.branch
                                      (queueSetActive env (some targetRepo) di.branch issue.number
                                        (formatIssue st.text chatId fromUser (some di)).1 s6) with
                                  | mk s7 rem =>
                                    try dsimp only
                                    rw [tgSendMessage_pending, pendOf hqs2, queueSize_pending,
                                      queueSetActive_pending, eal]
                      · rw [if_neg hcond]
                        try dsimp only
                        by_cases hbz : busy = true
                        · rw [if_pos hbz]
                          try dsimp only
                          cases hqs : queueSize cfg env (some targetRepo) di.branch s3 with
                          | mk s6 pc =>
                            try dsimp only
                            rw [tgSendHtml_pending, pendOf hqs, queueSize_pending, e3]
                        · rw [if_neg hbz]
                          try dsimp only
                          cases hal : ghAddLabel cfg env issue.number "queue:execute"
                              (some targetRepo) s3 with
                          | mk s6 ra =>
                            have eal : s6.pending = s.pending := by
                              rw [pendOf hal, ghAddLabel_pending, e3]
                            cases ra with
                            | error e =>
                              try dsimp only
                              exact eal
                            | ok b =>
                              try dsimp only
                              cases hqs2 : queueSize cfg env (some targetRepo) di.branch
                                  (queueSetActive env (some targetRepo) di.branch issue.number
                                    (formatIssue st.text chatId fromUser (some di)).1 s6) with
                              | mk s7 rem =>
                                try dsimp only
                                rw [tgSendMessage_pending, pendOf hqs2, queueSize_pending,
                                  queueSetActive_pending, eal]
                    | some shot =>
                      simp only [Option.map_some']
                      try dsimp only
                      cases hfp : env.getFilePath with
                      | error e =>
                        try dsimp only
                        exact e3
                      | ok o =>
                        cases o with
                        | none =>
                          try dsimp only
                          exact e3
                        | some p =>
                          try dsimp only
                          by_cases hdk : env.downloadOk = true
                          · rw [if_pos hdk]
                            cases hpf : ghPutFile cfg env di.branch
                                ("tickets/issue-" ++ toString issue.number ++ "/screenshot."
                                  ++ shot.ext) (some targetRepo) s3 with
                            | mk sc rc2 =>
                              have epf : sc.pending = s.pending := by
                                rw [pendOf hpf, ghPutFile_fst, e3]
                              cases rc2 with
                              | ok htmlUrl =>
                                try dsimp only
                                by_cases hcond : ("\nBranch: `" ++ di.branch ++ "`") ≠ ""
                                    ∨ ("\nScreenshot: " ++ htmlUrl) ≠ ""
                                · rw [if_pos hcond]
                                  cases hup : ghUpdateIssue cfg env issue.number
                                      ((formatIssue st.text chatId fromUser (some di)).2
                                        ++ "\n\n---\n"
                                        ++ pyTrim (("\nBranch: `" ++ di.branch ++ "`")
                                          ++ ("\nScreenshot: " ++ htmlUrl)))
                                      (some targetRepo) sc with
                                  | mk su ru =>
                                    have eup : su.pending = s.pending := by
                                      rw [pendOf hup, ghUpdateIssue_pending, epf]
                                    cases ru with
                                    | error e =>
                                      try dsimp only
                                      exact eup
                                    | ok a =>
                                      try dsimp only
                                      by_cases hbz : busy = true
                                      · rw [if_pos hbz]
                                        try dsimp only
                                        cases hqs : queueSize cfg env (some targetRepo) di.branch su with
                                        | mk s6 pc =>
                                          try dsimp only
                                          rw [tgSendHtml_pending, pendOf hqs, queueSize_pending, eup]
                                      · rw [if_neg hbz]
                                        try dsimp only
                                        cases hal : ghAddLabel cfg env issue.number "queue:execute"
                                            (some targetRepo) su with
                                        | mk s6 ra =>
                                          have eal : s6.pending = s.pending := by
                                            rw [pendOf hal, ghAddLabel_pending, eup]
                                          cases ra with
                                          | error e =>
                                            try dsimp only
                                            exact eal
                                          | ok b =>
                                            try dsimp only
                                            cases hqs2 : queueSize cfg env (some targetRepo) di.branch
                                                (queueSetActive env (some targetRepo) di.branch issue.number
                                                  (formatIssue st.text chatId fromUser (some di)).1 s6) with
                                            | mk s7 rem =>
                                              try dsimp only
                                              rw [tgSendMessage_pending, pendOf hqs2, queueSize_pending,
                                                queueSetActive_pending, eal]
                                · rw [if_neg hcond]
                                  try dsimp only
                                  by_cases hbz : busy = true
                                  · rw [if_pos hbz]
                                    try dsimp only
                                    cases hqs : queueSize cfg env (some targetRepo) di.branch sc with
                                    | mk s6 pc =>
                                      try dsimp only
                                      rw [tgSendHtml_pending, pendOf hqs, queueSize_pending, epf]
                                  · rw [if_neg hbz]
                                    try dsimp only
                                    cases hal : ghAddLabel cfg env issue.number "queue:execute"
                                        (some targetRepo) sc with
                                    | mk s6 ra =>
                                      have eal : s6.pending = s.pending := by
                                        rw [pendOf hal, ghAddLabel_pending, epf]
                                      cases ra with
                                      | error e =>
                                        try dsimp only
                                        exact eal
                                      | ok b =>
                                        try dsimp only
                                        cases hqs2 : queueSize cfg env (some targetRepo) di.branch
                                            (queueSetActive env (some targetRepo) di.branch issue.number
                                              (formatIssue st.text chatId fromUser (some di)).1 s6) with
                                        | mk s7 rem =>
                                          try dsimp only
                                          rw [tgSendMessage_pending, pendOf hqs2, queueSize_pending,
                                            queueSetActive_pending, eal]
                              | error e =>
                                try dsimp only
                                exact epf
                          · rw [if_neg hdk]
                            try dsimp only
                            exact e3
              | error e =>
                try dsimp only
                cases hqb : queueIsBusy cfg env (some targetRepo) di.branch ({ sb with devChat := dset sb.devChat (ctxKeyOpt (some targetRepo) di.branch) ⟨chatId, clickerId, fromUser.firstName⟩ }) with
                | mk sq busy =>
                  have eq2 : sq.pending = s.pending := by
                    rw [pendOf hqb, queueIsBusy_pending]
                    exact ecb
                  try dsimp only
                  split
                  · rename_i s3 e hci
                    try dsimp only
                    rw [pendOf hci, ghCreateIssue_pending, eq2]
                  · rename_i s3 issue hci
                    have e3 : s3.pending = s.pending := by
                      rw [pendOf hci, ghCreateIssue_pending, eq2]
                    try dsimp only
                    cases hss : st.screenshot with
                    | none =>
                      simp only [Option.map_some']
                      try dsimp only
                      by_cases hcond : ("\nBranch: `" ++ di.branch ++ "`") ≠ "" ∨ ("" : String) ≠ ""
                      · rw [if_pos hcond]
                        cases hup : ghUpdateIssue cfg env issue.number
                            ((formatIssue st.text chatId fromUser (some di)).2 ++ "\n\n---\n"
                              ++ pyTrim (("\nBranch: `" ++ di.branch ++ "`") ++ ""))
                            (some targetRepo) s3 with
                        | mk su ru =>
                          have eup : su.pending = s.pending := by
                            rw [pendOf hup, ghUpdateIssue_pending, e3]
                          cases ru with
                          | error e =>
                            try dsimp only
                            exact eup
                          | ok a =>
                            try dsimp only
                            by_cases hbz : busy = true
                            · rw [if_pos hbz]
                              try dsimp only
                              cases hqs : queueSize cfg env (some targetRepo) di.branch su with
                              | mk s6 pc =>
                                try dsimp only
                                rw [tgSendHtml_pending, pendOf hqs, queueSize_pending, eup]
                            · rw [if_neg hbz]
                              try dsimp only
                              cases hal : ghAddLabel cfg env issue.number "queue:execute"
                                  (some targetRepo) su with
                              | mk s6 ra =>
                                have eal : s6.pending = s.pending := by
                                  rw [pendOf hal, ghAddLabel_pending, eup]
                                cases ra with
                                | error e =>
                                  try dsimp only
                                  exact eal
                                | ok b =>
                                  try dsimp only
                                  cases hqs2 : queueSize cfg env (some targetRepo) di.branch
                                      (queueSetActive env (some targetRepo) di.branch issue.number
                                        (formatIssue st.text chatId fromUser (some di)).1 s6) with
                                  | mk s7 rem =>
                                    try dsimp only
                                    rw [tgSendMessage_pending, pendOf hqs2, queueSize_pending,
                                      queueSetActive_pending, eal]
                      · rw [if_neg hcond]
                        try dsimp only
                        by_cases hbz : busy = true
                        · rw [if_pos hbz]
                          try dsimp only
                          cases hqs : queueSize cfg env (some targetRepo) di.branch s3 with
                          | mk s6 pc =>
                            try dsimp only
                            rw [tgSendHtml_pending, pendOf hqs, queueSize_pending, e3]
                        · rw [if_neg hbz]
                          try dsimp only
                          cases hal : ghAddLabel cfg env issue.number "queue:execute"
                              (some targetRepo) s3 with
                          | mk s6 ra =>
                            have eal : s6.pending = s.pending := by
                              rw [pendOf hal, ghAddLabel_pending, e3]
                            cases ra with
                            | error e =>
                              try dsimp only
                              exact eal
                            | ok b =>
                              try dsimp only
                              cases hqs2 : queueSize cfg env (some targetRepo) di.branch
                                  (queueSetActive env (some targetRepo) di.branch issue.number
                                    (formatIssue st.text chatId fromUser (some di)).1 s6) with
                              | mk s7 rem =>
                                try dsimp only
                                rw [tgSendMessage_pending, pendOf hqs2, queueSize_pending,
                                  queueSetActive_pending, eal]
                    | some shot =>
                      simp only [Option.map_some']
                      try dsimp only
                      cases hfp : env.getFilePath with
                      | error e =>
                        try dsimp only
                        exact e3
                      | ok o =>
                        cases o with
                        | none =>
                          try dsimp only
                          exact e3
                        | some p =>
                          try dsimp only
                          by_cases hdk : env.downloadOk = true
                          · rw [if_pos hdk]
                            cases hpf : ghPutFile cfg env di.branch
                                ("tickets/issue-" ++ toString issue.number ++ "/screenshot."
                                  ++ shot.ext) (some targetRepo) s3 with
                            | mk sc rc2 =>
                              have epf : sc.pending = s.pending := by
                                rw [pendOf hpf, ghPutFile_fst, e3]
                              cases rc2 with
                              | ok htmlUrl =>
                                try dsimp only
                                by_cases hcond : ("\nBranch: `" ++ di.branch ++ "`") ≠ ""
                                    ∨ ("\nScreenshot: " ++ htmlUrl) ≠ ""
                                · rw [if_pos hcond]
                                  cases hup : ghUpdateIssue cfg env issue.number
                                      ((formatIssue st.text chatId fromUser (some di)).2
                                        ++ "\n\n---\n"
                                        ++ pyTrim (("\nBranch: `" ++ di.branch ++ "`")
                                          ++ ("\nScreenshot: " ++ htmlUrl)))
                                      (some targetRepo) sc with
                                  | mk su ru =>
                                    have eup : su.pending = s.pending := by
                                      rw [pendOf hup, ghUpdateIssue_pending, epf]
                                    cases ru with
                                    | error e =>
                                      try dsimp only
                                      exact eup
                                    | ok a =>
                                      try dsimp only
                                      by_cases hbz : busy = true
                                      · rw [if_pos hbz]
                                        try dsimp only
                                        cases hqs : queueSize cfg env (some targetRepo) di.branch su with
                                        | mk s6 pc =>
                                          try dsimp only
                                          rw [tgSendHtml_pending, pendOf hqs, queueSize_pending, eup]
                                      · rw [if_neg hbz]
                                        try dsimp only
                                        cases hal : ghAddLabel cfg env issue.number "queue:execute"
                                            (some targetRepo) su with
                                        | mk s6 ra =>
                                          have eal : s6.pending = s.pending := by
                                            rw [pendOf hal, ghAddLabel_pending, eup]
                                          cases ra with
                                          | error e =>
                                            try dsimp only
                                            exact eal
                                          | ok b =>
                                            try dsimp only
                                            cases hqs2 : queueSize cfg env (some targetRepo) di.branch
                                                (queueSetActive env (some targetRepo) di.branch issue.number
                                                  (formatIssue st.text chatId fromUser (some di)).1 s6) with
                                            | mk s7 rem =>
                                              try dsimp only
                                              rw [tgSendMessage_pending, pendOf hqs2, queueSize_pending,
                                                queueSetActive_pending, eal]
                                · rw [if_neg hcond]
                                  try dsimp only
                                  by_cases hbz : busy = true
                                  · rw [if_pos hbz]
                                    try dsimp only
                                    cases hqs : queueSize cfg env (some targetRepo) di.branch sc with
                                    | mk s6 pc =>
                                      try dsimp only
                                      rw [tgSendHtml_pending, pendOf hqs, queueSize_pending, epf]
                                  · rw [if_neg hbz]
                                    try dsimp only
                                    cases hal : ghAddLabel cfg env issue.number "queue:execute"
                                        (some targetRepo) sc with
                                    | mk s6 ra =>
                                      have eal : s6.pending = s.pending := by
                                        rw [pendOf hal, ghAddLabel_pending, epf]
                                      cases ra with
                                      | error e =>
                                        try dsimp only
                                        exact eal
                                      | ok b =>
                                        try dsimp only
                                        cases hqs2 : queueSize cfg env (some targetRepo) di.branch
                                            (queueSetActive env (some targetRepo) di.branch issue.number
                                              (formatIssue st.text chatId fromUser (some di)).1 s6) with
                                        | mk s7 rem =>
                                          try dsimp only
                                          rw [tgSendMessage_pending, pendOf hqs2, queueSize_pending,
                                            queueSetActive_pending, eal]
                              | error e =>
                                try dsimp only
                                exact epf
                          · rw [if_neg hdk]
                            try dsimp only
                            exact e3

theorem handleCreate_pending (cfg : Config) (env : Env)
    (chatId clickerId : Int) (fromUser : TgUser) (key : String) (st : Draft)
    (s : SysState) :
    (handleCreate cfg env chatId clickerId fromUser key st s).pending =
      dpop s.pending key := by
  unfold handleCreate
  dsimp only
  cases hr : createBody cfg env chatId clickerId fromUser st s with
  | mk sc rc =>
    have ec : sc.pending = s.pending := by
      rw [pendOf hr, createBody_pending]
    cases rc with
    | ok u => dsimp only; rw [ec]
    | error e => dsimp only; rw [tgSendMessage_pending, ec]

theorem handleVoice_nodup (cfg : Config) (env : Env) (chatId userId : Int)
    (g : Bool) (key : String) (s : SysState) (h : KeysNodup s.pending) :
    KeysNodup ((handleVoice cfg env chatId userId g key s).1).pending := by
  unfold handleVoice
  dsimp only
  split
  · exact h
  · cases hfp : env.getFilePath with
    | error e => exact h
    | ok fp =>
      cases fp with
      | none => exact h
      | some p =>
        dsimp only
        by_cases hdl : env.downloadOk = false
        · rw [if_pos hdl]
          exact h
        · rw [if_neg hdl]
          cases htr : env.transcription with
          | error e => exact h
          | ok recognized =>
            dsimp only
            by_cases hrec : recognized = ""
            · rw [if_pos hrec]
              exact h
            · rw [if_neg hrec]
              dsimp only
              rw [showConfirmation_pending]
              dsimp only
              exact keysNodup_dset (keysNodup_dset h key _) key _

theorem handleCallback_nodup (cfg : Config) (env : Env) (cq : TgCallback)
    (s : SysState) (h : KeysNodup s.pending) :
    KeysNodup (((handleCallback cfg env cq s).1).pending) := by
  unfold handleCallback
  dsimp only
  split
  · rename_i o1 o2 chatId clickerId hq1 hq2
    generalize pyTrim (cq.cbData.getD "") = d
    generalize (Option.map (fun x => x.messageId) cq.message).getD 0 = rid
    generalize (cq.message.bind fun x => x.text).getD "" = mtxt
    generalize pySplitOn d ":" = parts
    by_cases h1 : pyStartsWith d "pick:" = true
    · rw [if_pos h1]
      dsimp only
      rw [handlePick_pending, tgAnswerCallback_pending]
      exact h
    · rw [if_neg h1]
      by_cases h2 : pyStartsWith d "ci_ok:" = true ∨ pyStartsWith d "ci_no:" = true ∨ pyStartsWith d "ci_edit:" = true
      · rw [if_pos h2]
        dsimp only
        rw [handleCiCallback_pending, tgAnswerCallback_pending]
        exact h
      · rw [if_neg h2]
        by_cases h3 : parts.length < 2
        · rw [if_pos h3]
          exact h
        · rw [if_neg h3]
          cases hint : pyToInt? (parts.getD 1 "") with
          | none => exact h
          | some authorId =>
            dsimp only
            by_cases h4 : clickerId ≠ authorId
            · rw [if_pos h4]
              exact h
            · rw [if_neg h4]
              by_cases h5 : parts.headD "" = "reset_confirm"
              · rw [if_pos h5]
                dsimp only
                rw [handleResetConfirm_pending, tgAnswerCallback_pending]
                exact h
              · rw [if_neg h5]
                by_cases h6 : parts.headD "" = "reset_cancel"
                · rw [if_pos h6]
                  exact h
                · rw [if_neg h6]
                  cases hpend : dget (tgAnswerCallback cq.cbId none s).pending (stateKey chatId authorId) with
                  | none => exact h
                  | some st =>
                    dsimp only
                    by_cases h7 : parts.headD "" = "noop"
                    · rw [if_pos h7]
                      exact h
                    · rw [if_neg h7]
                      by_cases h8 : parts.headD "" = "opt_ma" ∨ parts.headD "" = "opt_test" ∨ parts.headD "" = "opt_appr"
                      · rw [if_pos h8]
                        dsimp only
                        exact handleToggle_nodup _ _ _ _ _ _ _ h
                      · rw [if_neg h8]
                        by_cases h9 : parts.headD "" = "cancel"
                        · rw [if_pos h9]
                          dsimp only
                          rw [tgSendMessage_pending]
                          dsimp only
                          exact keysNodup_dpop h _
                        · rw [if_neg h9]
                          by_cases h10 : parts.headD "" = "edit"
                          · rw [if_pos h10]
                            dsimp only
                            rw [tgSendMessage_pending]
                            dsimp only
                            exact keysNodup_dset h _ _
                          · rw [if_neg h10]
                            by_cases h11 : parts.headD "" = "shot"
                            · rw [if_pos h11]
                              dsimp only
                              rw [tgSendMessage_pending]
                              dsimp only
                              exact keysNodup_dset h _ _
                            · rw [if_neg h11]
                              by_cases h12 : parts.headD "" = "create"
                              · rw [if_pos h12]
                                dsimp only
                                rw [handleCreate_pending]
                                exact keysNodup_dpop h _
                              · rw [if_neg h12]
                                exact h
  · exact h
theorem handleMessage_nodup (cfg : Config) (env : Env) (m : TgMsg)
    (s : SysState) (h : KeysNodup s.pending) :
    KeysNodup (((handleMessage cfg env m s).1).pending) := by
  unfold handleMessage
  dsimp only
  split
  · rename_i o1 o2 chatId userId hq1 hq2
    generalize isGroup m.chat = gb
    generalize stateKey chatId userId = key
    generalize pyTrim (m.text.getD "") = txt
    generalize (pySplitOn (pyToLower txt) "@").headD "" = cmdBase
    generalize extractTicketCommand txt = tc
    by_cases h1 : cmdBase = "/start" ∨ cmdBase = "/help" ∨ cmdBase = "help"
    · rw [if_pos h1]
      exact h
    · rw [if_neg h1]
      by_cases h2 : cmdBase = "/repo" ∨ pyStartsWith (pyToLower txt) "/repo " = true
      · rw [if_pos h2]
        dsimp only
        rw [handleRepoCmd_pending]
        exact h
      · rw [if_neg h2]
        by_cases h3 : cmdBase = "/apps"
        · rw [if_pos h3]
          exact h
        · rw [if_neg h3]
          by_cases h4 : cmdBase = "/debug"
          · rw [if_pos h4]
            exact h
          · rw [if_neg h4]
            by_cases h5 : cmdBase = "/reset"
            · rw [if_pos h5]
              rw [handleResetCmd_pending]
              exact h
            · rw [if_neg h5]
              by_cases h6 : cmdBase = "/clear"
              · rw [if_pos h6]
                rw [handleClearCmd_pending]
                exact h
              · rw [if_neg h6]
                by_cases h7 : cmdBase = "/queue"
                · rw [if_pos h7]
                  rw [handleQueueCmd_pending]
                  exact h
                · rw [if_neg h7]
                  by_cases h8 : cmdBase = "/status"
                  · rw [if_pos h8]
                    rw [handleStatusCmd_pending]
                    exact h
                  · rw [if_neg h8]
                    by_cases h9 : (dget s.approvalAwaitingFeedback chatId).isSome = true ∧ txt ≠ "" ∧ ¬ pyStartsWith txt "/" = true
                    · rw [if_pos h9]
                      cases hfb : dget s.approvalAwaitingFeedback chatId with
                      | none => exact h
                      | some fb =>
                        dsimp only
                        rw [tgSendMessage_pending]
                        exact h
                    · rw [if_neg h9]
                      cases hp : dget s.pending key with
                      | some st =>
                        cases himg : extractImageFromMessage m with
                        | some img =>
                          dsimp only
                          rw [showConfirmation_pending]
                          dsimp only
                          exact keysNodup_dset (keysNodup_dset h key _) key _
                        | none =>
                          dsimp only
                          by_cases hst : st.stage = "edit" ∧ txt ≠ ""
                          · rw [if_pos hst]
                            dsimp only
                            rw [showConfirmation_pending]
                            dsimp only
                            exact keysNodup_dset (keysNodup_dset h key _) key _
                          · rw [if_neg hst]
                            by_cases ht1 : gb = true ∧ cfg.requireTicketCommand = true ∧ tc.1 = true ∧ tc.2 ≠ ""
                            · rw [if_pos ht1]
                              dsimp only
                              rw [showConfirmation_pending]
                              dsimp only
                              exact keysNodup_dset (keysNodup_dset h key _) key _
                            · rw [if_neg ht1]
                              by_cases ht2 : gb = true ∧ cfg.requireTicketCommand = true ∧ tc.1 = true ∧ tc.2 = ""
                              · rw [if_pos ht2]
                                rw [tgSendMessage_pending]
                                exact h
                              · rw [if_neg ht2]
                                by_cases ht3 : gb = true ∧ cfg.requireTicketCommand = true ∧ txt ≠ "" ∧ m.voice = none ∧ m.audio = none
                                · rw [if_pos ht3]
                                  exact h
                                · rw [if_neg ht3]
                                  by_cases ht4 : txt ≠ "" ∧ ¬ gb = true ∧ tc.1 = true ∧ tc.2 ≠ ""
                                  · rw [if_pos ht4]
                                    dsimp only
                                    rw [showConfirmation_pending]
                                    dsimp only
                                    exact keysNodup_dset (keysNodup_dset h key _) key _
                                  · rw [if_neg ht4]
                                    by_cases ht5 : txt ≠ "" ∧ m.voice = none ∧ m.audio = none
                                    · rw [if_pos ht5]
                                      exact h
                                    · rw [if_neg ht5]
                                      cases hv : m.voice.orElse (fun x => m.audio) with
                                      | none => exact h
                                      | some v => exact handleVoice_nodup _ _ _ _ _ _ _ h
                      | none =>
                        by_cases ht1 : gb = true ∧ cfg.requireTicketCommand = true ∧ tc.1 = true ∧ tc.2 ≠ ""
                        · rw [if_pos ht1]
                          dsimp only
                          rw [showConfirmation_pending]
                          dsimp only
                          exact keysNodup_dset (keysNodup_dset h key _) key _
                        · rw [if_neg ht1]
                          by_cases ht2 : gb = true ∧ cfg.requireTicketCommand = true ∧ tc.1 = true ∧ tc.2 = ""
                          · rw [if_pos ht2]
                            rw [tgSendMessage_pending]
                            exact h
                          · rw [if_neg ht2]
                            by_cases ht3 : gb = true ∧ cfg.requireTicketCommand = true ∧ txt ≠ "" ∧ m.voice = none ∧ m.audio = none
                            · rw [if_pos ht3]
                              exact h
                            · rw [if_neg ht3]
                              by_cases ht4 : txt ≠ "" ∧ ¬ gb = true ∧ tc.1 = true ∧ tc.2 ≠ ""
                              · rw [if_pos ht4]
                                dsimp only
                                rw [showConfirmation_pending]
                                dsimp only
                                exact keysNodup_dset (keysNodup_dset h key _) key _
                              · rw [if_neg ht4]
                                by_cases ht5 : txt ≠ "" ∧ m.voice = none ∧ m.audio = none
                                · rw [if_pos ht5]
                                  exact h
                                · rw [if_neg ht5]
                                  cases hv : m.voice.orElse (fun x => m.audio) with
                                  | none => exact h
                                  | some v => exact handleVoice_nodup _ _ _ _ _ _ _ h
  · exact h
theorem handleUpdate_nodup (cfg : Config) (env : Env) (u : TgUpdate)
    (s : SysState) (h : KeysNodup s.pending) :
    KeysNodup (((handleUpdate cfg env u s).1).pending) := by
  cases u with
  | callback cq => exact handleCallback_nodup cfg env cq s h
  | message m => exact handleMessage_nodup cfg env m s h
  | edited m => exact handleMessage_nodup cfg env m s h
  | other => exact h

theorem telegramWebhook_nodup (cfg : Config) (env : Env) (r : RawRequest)
    (s : SysState) (h : KeysNodup s.pending) :
    KeysNodup (((telegramWebhook cfg env r s).1).pending) := by
  unfold telegramWebhook
  cases r with
  | malformed => exact h
  | wellFormed u =>
    dsimp only
    rcases hu : handleUpdate cfg env u s with ⟨s1, res⟩
    have h1 := handleUpdate_nodup cfg env u s h
    rw [hu] at h1
    dsimp only at h1
    cases res with
    | ok a => exact h1
    | error e => exact h1

/-- One external event driving the system: a webhook request with that
request's oracle, or a CI approval request. -/
inductive SysEvent
  | tg (env : Env) (r : RawRequest)
  | ci (env : Env) (p : ApprovalPayload)

/-- The state transition performed by one event. -/
def stepEvent (cfg : Config) (e : SysEvent) (s : SysState) : SysState :=
  match e with
  | .tg env r => (telegramWebhook cfg env r s).1
  | .ci env p => (ciRequestApproval cfg env p s).1

/-- A whole run of the system from a starting state. -/
def runEvents (cfg : Config) (evs : List SysEvent) (s : SysState) : SysState :=
  evs.foldl (fun acc e => stepEvent cfg e acc) s

theorem stepEvent_nodup (cfg : Config) (e : SysEvent) (s : SysState)
    (h : KeysNodup s.pending) : KeysNodup ((stepEvent cfg e s).pending) := by
  cases e with
  | tg env r => exact telegramWebhook_nodup cfg env r s h
  | ci env p =>
    unfold stepEvent
    rw [ciRequestApproval_pending]
    exact h

theorem runEvents_nodup (cfg : Config) (evs : List SysEvent) :
    ∀ s : SysState, KeysNodup s.pending →
      KeysNodup ((runEvents cfg evs s).pending) := by
  induction evs with
  | nil => intro s h; exact h
  | cons e t ih => intro s h; exact ih _ (stepEvent_nodup cfg e s h)

/-- **C4**: for all (chat, user) pairs and every reachable state, at most
one draft exists for that pair: `PENDING` starts empty, every handler
mutates it only through `dset`/`dpop` (a qualifying input while a draft
exists updates the existing entry in place or removes it), so along any
event sequence the key `state_key(chat, user)` holds at most one draft at
every observation point. -/
theorem C4_at_most_one_draft (cfg : Config) (evs : List SysEvent)
    (chatId userId : Int) :
    countKey ((runEvents cfg evs initState).pending)
      (stateKey chatId userId) ≤ 1 :=
  countKey_le_one (runEvents_nodup cfg evs initState keysNodup_nil) _


/-! ### C3 — the queue-execute invariant over the queueing mechanism -/

/-! ### C3: at most one `queue:execute` per (repo, branch)

The queue-relevant event alphabet from the source: draft submission
(`handleCreate`, src/app.py:1618-1743), the operator `/clear` command
(`handleClearCmd`, src/app.py:1890-1927) and the worker's terminal signal
(`github_notify` on `claude_failed`/`merged`, src/app.py:1057-1064 and
1090-1092: `queue_clear_active` then `queue_process_next`). -/

/-- The queue hand-off performed by `github_notify` on a terminal event
(src/app.py:1057-1064, 1090-1092): clear the active ticket, then advance
the queue. -/
def githubNotifyTerminal (cfg : Config) (env : Env) (repo? : Option String)
    (branch : String) (s : SysState) : SysState :=
  (queueProcessNext cfg env repo? branch
    (queueClearActive cfg env repo? branch s)).1

/-- The issues of `repo` currently carrying both `queue:execute` and the
developer label `l`. -/
def execIssues (issues : List Issue) (repo l : String) : List Issue :=
  issues.filter (fun i => decide (i.repo = repo) &&
    i.labels.contains "queue:execute" && i.labels.contains l)

/-- The invariant-relevant projection of an issue. -/
def ikey (i : Issue) : Nat × String × List String := (i.number, i.repo, i.labels)

/-- A sane deployment configuration for repository `r0`: developer ids are
unique, developer labels are distinct from the queue/ci labels and from
the configured base labels, equal labels mean equal branches, and every
chat resolves to `r0`. -/
def CfgClean (cfg : Config) (r0 : String) : Prop :=
  KeysNodup cfg.developerMap ∧
  pyContainsChar r0 '/' = true ∧
  (cfg.developerMap.all (fun p =>
    decide (¬ p.2.label = "queue:execute") &&
    decide (¬ p.2.label = "queue:pending") &&
    decide (¬ p.2.label = "ci:multi-agent") &&
    decide (¬ p.2.label = "ci:testing") &&
    decide (¬ p.2.label = "ci:approve") &&
    ! (cfg.githubLabels.contains p.2.label)) = true) ∧
  (cfg.developerMap.all (fun p => cfg.developerMap.all (fun q =>
    decide (p.2.label = q.2.label → p.2.branch = q.2.branch))) = true) ∧
  (cfg.chatToRepo.all (fun p => decide (p.2 = r0)) = true) ∧
  cfg.githubRepo = some r0 ∧
  cfg.githubLabels.contains "queue:execute" = false

/-- The queue invariant: no duplicate issue numbers, at most one developer
label per issue, and the in-memory active marker of each (repo, branch)
context governs which issue may carry `queue:execute`. -/
structure QInv (cfg : Config) (r0 : String) (s : SysState) : Prop where
  uar : s.userActiveRepo = []
  bound : ∀ i ∈ s.tracker.issues, i.number < s.tracker.nextNumber
  nodups : (s.tracker.issues.map (fun i => i.number)).Nodup
  onedev : ∀ i ∈ s.tracker.issues, ∀ b1 l1 b2 l2,
    getDevLabel cfg b1 = some l1 → getDevLabel cfg b2 = some l2 →
    i.labels.contains l1 = true → i.labels.contains l2 = true → l1 = l2
  mactive : ∀ b l t, getDevLabel cfg b = some l →
    dget s.activeTicket (r0 ++ ":" ++ b) = some (some t) →
    ∀ i ∈ s.tracker.issues, i.repo = r0 →
    i.labels.contains "queue:execute" = true → i.labels.contains l = true →
    i.number = t.issueNumber
  mfree : ∀ b l, getDevLabel cfg b = some l →
    (∀ t, ¬ dget s.activeTicket (r0 ++ ":" ++ b) = some (some t)) →
    ∀ i ∈ s.tracker.issues, i.repo = r0 →
    ¬ (i.labels.contains "queue:execute" = true ∧ i.labels.contains l = true)

/-- Invariant transfer along steps that keep the issue keys, the counter,
the marker table and the user-repo table. -/
theorem QInv_transfer {cfg : Config} {r0 : String} {s : SysState}
    (h : QInv cfg r0 s) (s' : SysState)
    (hu : s'.userActiveRepo = s.userActiveRepo)
    (hn : s'.tracker.nextNumber = s.tracker.nextNumber)
    (ha : s'.activeTicket = s.activeTicket)
    (hi : s'.tracker.issues.map ikey = s.tracker.issues.map ikey) :
    QInv cfg r0 s' := by
  have hmem : ∀ i' ∈ s'.tracker.issues, ∃ i ∈ s.tracker.issues, ikey i = ikey i' := by
    intro i' hi'
    have : ikey i' ∈ s.tracker.issues.map ikey := by
      rw [← hi]
      exact List.mem_map_of_mem ikey hi'
    rcases List.mem_map.mp this with ⟨i, him, hik⟩
    exact ⟨i, him, hik⟩
  have hnum : ∀ {a b : Issue}, ikey a = ikey b → a.number = b.number := by
    intro a b hab
    have := congrArg Prod.fst hab
    simpa [ikey] using this
  have hrepo : ∀ {a b : Issue}, ikey a = ikey b → a.repo = b.repo := by
    intro a b hab
    have := congrArg (fun p => p.2.1) hab
    simpa [ikey] using this
  have hlab : ∀ {a b : Issue}, ikey a = ikey b → a.labels = b.labels := by
    intro a b hab
    have := congrArg (fun p => p.2.2) hab
    simpa [ikey] using this
  refine ⟨by rw [hu]; exact h.uar, ?_, ?_, ?_, ?_, ?_⟩
  · intro i' hi'
    rcases hmem i' hi' with ⟨i, him, hik⟩
    rw [hn, ← hnum hik]
    exact h.bound i him
  · have : s'.tracker.issues.map (fun i => i.number) =
        s.tracker.issues.map (fun i => i.number) := by
      have h1 : s'.tracker.issues.map (fun i => i.number) =
          (s'.tracker.issues.map ikey).map Prod.fst := by
        rw [List.map_map]; rfl
      have h2 : s.tracker.issues.map (fun i => i.number) =
          (s.tracker.issues.map ikey).map Prod.fst := by
        rw [List.map_map]; rfl
      rw [h1, h2, hi]
    rw [this]
    exact h.nodups
  · intro i' hi' b1 l1 b2 l2 hg1 hg2 hc1 hc2
    rcases hmem i' hi' with ⟨i, him, hik⟩
    rw [← hlab hik] at hc1 hc2
    exact h.onedev i him b1 l1 b2 l2 hg1 hg2 hc1 hc2
  · intro b l t hg hm i' hi' hr hc hl
    rcases hmem i' hi' with ⟨i, him, hik⟩
    rw [← hlab hik] at hc hl
    rw [← hrepo hik] at hr
    rw [← hnum hik]
    rw [ha] at hm
    exact h.mactive b l t hg hm i him hr hc hl
  · intro b l hg hm i' hi' hr
    rcases hmem i' hi' with ⟨i, him, hik⟩
    rw [← hlab hik]
    rw [← hrepo hik] at hr
    rw [ha] at hm
    exact h.mfree b l hg hm i him hr

theorem dget_some_mem {K V : Type} [DecidableEq K] {m : List (K × V)}
    {k : K} {v : V} (h : dget m k = some v) : (k, v) ∈ m := by
  unfold dget at h
  cases hf : m.find? (fun p => decide (p.1 = k)) with
  | none => rw [hf] at h; cases h
  | some q =>
    rw [hf] at h
    have hmem := List.mem_of_find?_eq_some hf
    have hq := List.find?_some hf
    simp only [decide_eq_true_eq] at hq
    simp only [Option.map_some', Option.some.injEq] at h
    have : (k, v) = q := by
      cases q with
      | mk a b =>
        simp only at hq h
        rw [hq, h]
    rw [this]
    exact hmem

theorem dget_of_mem_nodup {K V : Type} [DecidableEq K] {m : List (K × V)}
    (hn : KeysNodup m) {k : K} {v : V} (h : (k, v) ∈ m) :
    dget m k = some v := by
  induction m with
  | nil => cases h
  | cons p t ih =>
    unfold KeysNodup at hn
    simp only [List.map_cons, List.nodup_cons] at hn
    rcases List.mem_cons.mp h with heq | hmem
    · rw [← heq]
      unfold dget
      rw [List.find?_cons_of_pos _ (by simp)]
      rfl
    · by_cases hpk : p.1 = k
      · exfalso
        apply hn.1
        rw [hpk]
        exact List.mem_map_of_mem Prod.fst hmem
      · unfold dget
        rw [List.find?_cons_of_neg _ (by simp [hpk])]
        exact ih (by unfold KeysNodup; exact hn.2) hmem

theorem mem_dset {K V : Type} [DecidableEq K] {m : List (K × V)}
    {k : K} {v : V} {x : K × V} (h : x ∈ dset m k v) :
    x ∈ m ∨ x = (k, v) := by
  unfold dset at h
  split at h
  · rcases List.mem_map.mp h with ⟨p, hp, hpe⟩
    by_cases hpk : p.1 = k
    · right; rw [← hpe]; simp [hpk]
    · left; rw [← hpe]; simp [hpk]; exact hp
  · rcases List.mem_append.mp h with hm | hm
    · left; exact hm
    · right; simpa using hm

theorem mem_foldl_dset {A K V : Type} [DecidableEq K] (f : A → K × V) :
    ∀ (l : List A) (m0 : List (K × V)) (x : K × V),
      x ∈ l.foldl (fun m a => dset m (f a).1 (f a).2) m0 →
      x ∈ m0 ∨ ∃ a ∈ l, x = f a := by
  intro l
  induction l with
  | nil => intro m0 x h; exact Or.inl h
  | cons a t ih =>
    intro m0 x h
    rcases ih _ x h with hm | ⟨b, hb, hbe⟩
    · rcases mem_dset hm with hm0 | he
      · exact Or.inl hm0
      · exact Or.inr ⟨a, List.mem_cons_self a t, by rw [he]⟩
    · exact Or.inr ⟨b, List.mem_cons_of_mem a hb, hbe⟩

/-- Inverting `_get_dev_label`: a developer label comes from a developer-map
entry whose branch is the queried branch (given unique user ids). -/
theorem getDevLabel_inv {cfg : Config} {b l : String}
    (hn : KeysNodup cfg.developerMap) (h : getDevLabel cfg b = some l) :
    ∃ p ∈ cfg.developerMap, p.2.branch = b ∧ p.2.label = l := by
  unfold getDevLabel at h
  cases hbd : branchToDev cfg b with
  | none => rw [hbd] at h; cases h
  | some uid =>
    rw [hbd] at h
    dsimp only at h
    cases hdm : dget cfg.developerMap uid with
    | none => rw [hdm] at h; cases h
    | some di =>
      rw [hdm] at h
      simp only [Option.map_some', Option.some.injEq] at h
      unfold branchToDev at hbd
      have hbm := dget_some_mem hbd
      rcases mem_foldl_dset (fun p => (p.2.branch, p.1)) cfg.developerMap [] _ hbm with
        hnil | ⟨p, hp, hpe⟩
      · cases hnil
      · have hp1 : p.2.branch = b := by
          have := congrArg Prod.fst hpe
          simp only at this
          exact this.symm
        have hp2 : p.1 = uid := by
          have := congrArg Prod.snd hpe
          simp only at this
          exact this.symm
        have : dget cfg.developerMap p.1 = some p.2 := by
          apply dget_of_mem_nodup hn
          cases p with
          | mk a c => exact hp
        rw [hp2, hdm] at this
        have hdi : di = p.2 := by
          simpa using this
        exact ⟨p, hp, hp1, by rw [← hdi]; exact h⟩

theorem cfgClean_devLabel {cfg : Config} {r0 : String}
    (hc : CfgClean cfg r0) {p : Int × DevInfo} (hp : p ∈ cfg.developerMap) :
    p.2.label ≠ "queue:execute" ∧ p.2.label ≠ "queue:pending" ∧
    p.2.label ≠ "ci:multi-agent" ∧ p.2.label ≠ "ci:testing" ∧
    p.2.label ≠ "ci:approve" ∧ cfg.githubLabels.contains p.2.label = false := by
  have h := List.all_eq_true.mp hc.2.2.1 p hp
  simp only [Bool.and_eq_true, decide_eq_true_eq, Bool.not_eq_true'] at h
  exact ⟨h.1.1.1.1.1, h.1.1.1.1.2, h.1.1.1.2, h.1.1.2, h.1.2, h.2⟩

theorem cfgClean_labelInj {cfg : Config} {r0 : String}
    (hc : CfgClean cfg r0) {p q : Int × DevInfo}
    (hp : p ∈ cfg.developerMap) (hq : q ∈ cfg.developerMap)
    (h : p.2.label = q.2.label) : p.2.branch = q.2.branch := by
  have h1 := List.all_eq_true.mp hc.2.2.2.1 p hp
  have h2 := List.all_eq_true.mp h1 q hq
  simp only [decide_eq_true_eq] at h2
  exact h2 h

/-- Two branches with the same developer label are the same branch. -/
theorem getDevLabel_inj {cfg : Config} {r0 : String} (hc : CfgClean cfg r0)
    {b b' l : String} (h : getDevLabel cfg b = some l)
    (h' : getDevLabel cfg b' = some l) : b = b' := by
  rcases getDevLabel_inv hc.1 h with ⟨p, hp, hpb, hpl⟩
  rcases getDevLabel_inv hc.1 h' with ⟨q, hq, hqb, hql⟩
  rw [← hpb, ← hqb]
  exact cfgClean_labelInj hc hp hq (by rw [hpl, hql])

/-- A developer label is none of the queue/ci/base labels. -/
theorem getDevLabel_clean {cfg : Config} {r0 : String} (hc : CfgClean cfg r0)
    {b l : String} (h : getDevLabel cfg b = some l) :
    l ≠ "queue:execute" ∧ l ≠ "queue:pending" ∧ l ≠ "ci:multi-agent" ∧
    l ≠ "ci:testing" ∧ l ≠ "ci:approve" ∧
    cfg.githubLabels.contains l = false := by
  rcases getDevLabel_inv hc.1 h with ⟨p, hp, hpb, hpl⟩
  rw [← hpl]
  exact cfgClean_devLabel hc hp

/-- The submitter's developer label belongs to the submitter's branch. -/
theorem getDevLabel_of_submitter {cfg : Config} {r0 : String}
    (hc : CfgClean cfg r0) {uid : Int} {di : DevInfo}
    (hdm : dget cfg.developerMap uid = some di) {b : String}
    (h : getDevLabel cfg b = some di.label) : b = di.branch := by
  rcases getDevLabel_inv hc.1 h with ⟨p, hp, hpb, hpl⟩
  have hdi := dget_some_mem hdm
  rw [← hpb]
  exact cfgClean_labelInj hc hp hdi hpl

theorem resolveRepo_eval {cfg : Config} {r0 : String} {s : SysState}
    (hc : CfgClean cfg r0) (huar : s.userActiveRepo = [])
    (chatId userId : Int) : resolveRepo cfg s chatId userId = some r0 := by
  unfold resolveRepo
  cases hct : dget cfg.chatToRepo chatId with
  | some r =>
    have := List.all_eq_true.mp hc.2.2.2.2.1 _ (dget_some_mem hct)
    simp only [decide_eq_true_eq] at this
    rw [this]
  | none =>
    rw [huar]
    have : dget ([] : List (Int × String)) userId = none := rfl
    rw [this]
    exact hc.2.2.2.2.2.1

theorem ghRepoParts_r0 {cfg : Config} {r0 : String} (hc : CfgClean cfg r0) :
    ghRepoParts cfg (some r0) = .ok r0 := by
  unfold ghRepoParts
  dsimp only [Option.orElse]
  rw [if_pos hc.2.1]

theorem string_append_left_cancel {a b c : String} (h : a ++ b = a ++ c) :
    b = c := by
  have hd : a.data ++ b.data = a.data ++ c.data := by
    have h1 := congrArg String.data h
    simpa [String.data_append] using h1
  have := List.append_cancel_left hd
  cases b with
  | mk db =>
    cases c with
    | mk dc =>
      simp only at this
      rw [this]

/-- Context keys within one repository identify the branch. -/
theorem ctxKey_inj {r0 b b' : String} (h : r0 ++ ":" ++ b = r0 ++ ":" ++ b') :
    b = b' :=
  string_append_left_cancel h

theorem length_le_one_of_all_eq {xs : List Issue}
    (hn : (xs.map (fun i => i.number)).Nodup) (v : Nat)
    (h : ∀ i ∈ xs, i.number = v) : xs.length ≤ 1 := by
  cases xs with
  | nil => simp
  | cons a t =>
    cases t with
    | nil => simp
    | cons b t2 =>
      exfalso
      simp only [List.map_cons, List.nodup_cons, List.mem_cons,
        List.mem_map, not_or] at hn
      apply hn.1.1
      rw [h a (by simp), h b (by simp)]

/-- Under the invariant, at most one issue of `(r0, b)` carries the
executing label. -/
theorem QInv_exec_le_one {cfg : Config} {r0 : String} {s : SysState}
    (h : QInv cfg r0 s) {b l : String} (hg : getDevLabel cfg b = some l) :
    (execIssues s.tracker.issues r0 l).length ≤ 1 := by
  have hmem : ∀ i ∈ execIssues s.tracker.issues r0 l,
      i ∈ s.tracker.issues ∧ i.repo = r0 ∧
      i.labels.contains "queue:execute" = true ∧
      i.labels.contains l = true := by
    intro i hi
    unfold execIssues at hi
    have := List.mem_filter.mp hi
    rcases this with ⟨him, hcond⟩
    simp only [Bool.and_eq_true, decide_eq_true_eq] at hcond
    exact ⟨him, hcond.1.1, hcond.1.2, hcond.2⟩
  cases hmk : dget s.activeTicket (r0 ++ ":" ++ b) with
  | some ot =>
    cases ot with
    | some t =>
      apply length_le_one_of_all_eq _ t.issueNumber
      · intro i hi
        rcases hmem i hi with ⟨him, hr, hx, hl⟩
        exact h.mactive b l t hg hmk i him hr hx hl
      · unfold execIssues
        exact List.Nodup.sublist
          ((List.filter_sublist s.tracker.issues).map (fun i => i.number))
          h.nodups
    | none =>
      have : execIssues s.tracker.issues r0 l = [] := by
        unfold execIssues
        rw [List.filter_eq_nil_iff]
        intro i him hp
        simp only [Bool.and_eq_true, decide_eq_true_eq] at hp
        exact h.mfree b l hg (by intro t; rw [hmk]; simp) i him hp.1.1
          ⟨hp.1.2, hp.2⟩
      rw [this]
      simp
  | none =>
    have : execIssues s.tracker.issues r0 l = [] := by
      unfold execIssues
      rw [List.filter_eq_nil_iff]
      intro i him hp
      simp only [Bool.and_eq_true, decide_eq_true_eq] at hp
      exact h.mfree b l hg (by intro t; rw [hmk]; simp) i him hp.1.1
        ⟨hp.1.2, hp.2⟩
    rw [this]
    simp

theorem ghCreateIssue_eval {cfg : Config} {env : Env} {repo? : Option String}
    {repo : String} (t b : String) (extra : List String) (s : SysState)
    (hrepo : ghRepoParts cfg repo? = .ok repo)
    (hok : env.createIssueOk = true) :
    ghCreateIssue cfg env t b extra repo? s =
      ({ s with tracker := { s.tracker with
          issues := s.tracker.issues ++
            [⟨s.tracker.nextNumber, repo, t, b, cfg.githubLabels ++ extra, env.now⟩],
          nextNumber := s.tracker.nextNumber + 1 } },
       .ok ⟨s.tracker.nextNumber, repo, t, b, cfg.githubLabels ++ extra, env.now⟩) := by
  unfold ghCreateIssue
  rw [hrepo]
  dsimp only
  rw [if_pos hok]

theorem ghUpdateIssue_eval {cfg : Config} {env : Env} {repo? : Option String}
    {repo : String} (n : Nat) (b : String) (s : SysState)
    (hrepo : ghRepoParts cfg repo? = .ok repo)
    (hok : env.updateIssueOk = true) :
    ghUpdateIssue cfg env n b repo? s =
      ({ s with tracker := { s.tracker with
          issues := s.tracker.issues.map (fun i =>
            if i.number = n ∧ i.repo = repo then { i with body := b } else i) } },
       .ok ()) := by
  unfold ghUpdateIssue
  rw [hrepo]
  dsimp only
  rw [if_pos hok]

theorem pairEq {A B : Type} {a b : A} {x y : B} (h : (a, x) = (b, y)) :
    a = b ∧ x = y := by
  refine ⟨?_, ?_⟩
  · exact congrArg Prod.fst h
  · exact congrArg Prod.snd h

theorem bodyMap_ikey (xs : List Issue) (n : Nat) (repo b : String) :
    (xs.map (fun i => if i.number = n ∧ i.repo = repo then { i with body := b } else i)).map ikey
      = xs.map ikey := by
  rw [List.map_map]
  apply List.map_congr_left
  intro i hm
  by_cases hc : i.number = n ∧ i.repo = repo
  · simp [hc, ikey]
  · simp [hc]

theorem removeLabelMap_number (n : Nat) (lab repo : String) (xs : List Issue) :
    (removeLabelMap n lab repo xs).map (fun i => i.number) =
      xs.map (fun i => i.number) := by
  unfold removeLabelMap
  rw [List.map_map]
  apply List.map_congr_left
  intro i hm
  by_cases hc : i.number = n ∧ i.repo = repo
  · simp [hc]
  · simp [hc]

theorem addLabelMap_number (n : Nat) (lab repo : String) (xs : List Issue) :
    (addLabelMap n lab repo xs).map (fun i => i.number) =
      xs.map (fun i => i.number) := by
  unfold addLabelMap
  rw [List.map_map]
  apply List.map_congr_left
  intro i hm
  by_cases hc : i.number = n ∧ i.repo = repo
  · simp [hc]
  · simp [hc]

theorem mem_removeLabelMap {n : Nat} {lab repo : String} {xs : List Issue}
    {j : Issue} (h : j ∈ removeLabelMap n lab repo xs) :
    ∃ i ∈ xs, j.number = i.number ∧ j.repo = i.repo ∧
      (∀ x, j.labels.contains x = true → i.labels.contains x = true) ∧
      (i.number = n ∧ i.repo = repo → j.labels.contains lab = false) ∧
      (¬ (i.number = n ∧ i.repo = repo) → j = i) := by
  unfold removeLabelMap at h
  rcases List.mem_map.mp h with ⟨i, him, hie⟩
  by_cases hc : i.number = n ∧ i.repo = repo
  · rw [if_pos hc] at hie
    refine ⟨i, him, ?_, ?_, ?_, ?_, ?_⟩
    · rw [← hie]
    · rw [← hie]
    · intro x hx
      rw [← hie] at hx
      dsimp only at hx
      rw [List.elem_iff] at hx ⊢
      exact List.mem_of_mem_filter hx
    · intro hcc
      rw [← hie]
      dsimp only
      rw [Bool.eq_false_iff]
      intro hcontra
      rw [List.elem_iff] at hcontra
      have := List.of_mem_filter hcontra
      simp at this
    · intro hcc
      exact absurd hc hcc
  · rw [if_neg hc] at hie
    subst hie
    exact ⟨i, him, rfl, rfl, fun x hx => hx, fun hcc => absurd hcc hc,
      fun hcc => rfl⟩

theorem mem_addLabelMap {n : Nat} {lab repo : String} {xs : List Issue}
    {j : Issue} (h : j ∈ addLabelMap n lab repo xs) :
    ∃ i ∈ xs, j.number = i.number ∧ j.repo = i.repo ∧
      ((j = i) ∨ (i.number = n ∧ i.repo = repo ∧ j.labels = i.labels ++ [lab])) := by
  unfold addLabelMap at h
  rcases List.mem_map.mp h with ⟨i, him, hie⟩
  by_cases hc : i.number = n ∧ i.repo = repo
  · rw [if_pos hc] at hie
    refine ⟨i, him, ?_, ?_, Or.inr ⟨hc.1, hc.2, ?_⟩⟩
    · rw [← hie]
    · rw [← hie]
    · rw [← hie]
  · rw [if_neg hc] at hie
    subst hie
    exact ⟨i, him, rfl, rfl, Or.inl rfl⟩

theorem contains_append_one {l1 : List String} {x a : String} :
    (l1 ++ [x]).contains a = true ↔ a ∈ l1 ∨ a = x := by
  rw [List.elem_iff]
  simp

/-- Removing any label anywhere preserves the queue invariant. -/
theorem QInv_removeLabel {cfg : Config} {r0 : String} {s : SysState}
    (h : QInv cfg r0 s) (n : Nat) (lab rep : String) :
    QInv cfg r0 { s with tracker := { s.tracker with
      issues := removeLabelMap n lab rep s.tracker.issues } } := by
  refine ⟨h.uar, ?_, ?_, ?_, ?_, ?_⟩
  · intro j hj
    rcases mem_removeLabelMap hj with ⟨i, him, hnum, hrep, hshr, hifm, hifn⟩
    dsimp only
    rw [hnum]
    exact h.bound i him
  · dsimp only
    rw [removeLabelMap_number]
    exact h.nodups
  · intro j hj b1 l1 b2 l2 hg1 hg2 hc1 hc2
    rcases mem_removeLabelMap hj with ⟨i, him, hnum, hrep, hshr, hifm, hifn⟩
    exact h.onedev i him b1 l1 b2 l2 hg1 hg2 (hshr _ hc1) (hshr _ hc2)
  · intro b' l' t' hg' hm' j hj hr hx hl
    rcases mem_removeLabelMap hj with ⟨i, him, hnum, hrep, hshr, hifm, hifn⟩
    rw [hnum]
    exact h.mactive b' l' t' hg' hm' i him (by rw [← hrep]; exact hr)
      (hshr _ hx) (hshr _ hl)
  · intro b' l' hg' hm' j hj hr
    rcases mem_removeLabelMap hj with ⟨i, him, hnum, hrep, hshr, hifm, hifn⟩
    intro hcontra
    exact h.mfree b' l' hg' hm' i him (by rw [← hrep]; exact hr)
      ⟨hshr _ hcontra.1, hshr _ hcontra.2⟩

/-- Clearing the in-memory marker of a branch that has no executing issue
preserves the invariant. -/
theorem QInv_markClear {cfg : Config} {r0 : String} {s : SysState}
    (h : QInv cfg r0 s) (b : String)
    (hfree : ∀ l, getDevLabel cfg b = some l → ∀ j ∈ s.tracker.issues,
      j.repo = r0 → ¬ (j.labels.contains "queue:execute" = true ∧
        j.labels.contains l = true)) :
    QInv cfg r0 { s with
      activeTicket := dset s.activeTicket (r0 ++ ":" ++ b) none,
      ciProgress := dpop s.ciProgress (r0 ++ ":" ++ b) } := by
  refine ⟨h.uar, h.bound, h.nodups, h.onedev, ?_, ?_⟩
  · intro b' l' t' hg' hm' j hj hr hx hl
    dsimp only at hm'
    by_cases hb : b' = b
    · subst hb
      rw [dget_dset_self] at hm'
      exact absurd hm' (by simp)
    · rw [dget_dset_ne _ (fun he => hb (ctxKey_inj he))] at hm'
      exact h.mactive b' l' t' hg' hm' j hj hr hx hl
  · intro b' l' hg' hm' j hj hr
    by_cases hb : b' = b
    · subst hb
      exact hfree l' hg' j hj hr
    · dsimp only at hm'
      have hm'' : ∀ t, ¬ dget s.activeTicket (r0 ++ ":" ++ b') = some (some t) := by
        intro t ht
        exact hm' t (by rw [dget_dset_ne _ (fun he => hb (ctxKey_inj he))]; exact ht)
      exact h.mfree b' l' hg' hm'' j hj hr

/-- `queue_clear_active` preserves the queue invariant. -/
theorem queueClearActive_QInv {cfg : Config} {r0 : String} {env : Env}
    {s : SysState} (b : String) (hc : CfgClean cfg r0)
    (hrel : Env.reliable env) (h : QInv cfg r0 s) :
    QInv cfg r0 (queueClearActive cfg env (some r0) b s) := by
  unfold queueClearActive ctxKeyOpt
  dsimp only
  cases hmk : dget s.activeTicket (r0 ++ ":" ++ b) with
  | some ot =>
    cases ot with
    | some active =>
      dsimp only
      rw [ghRemoveLabel_eval active.issueNumber "queue:execute" s
        (ghRepoParts_r0 hc) hrel.2.2.2.1]
      dsimp only
      have h1 := QInv_removeLabel h active.issueNumber "queue:execute" r0
      have hfree : ∀ l, getDevLabel cfg b = some l →
          ∀ j ∈ removeLabelMap active.issueNumber "queue:execute" r0 s.tracker.issues,
          j.repo = r0 → ¬ (j.labels.contains "queue:execute" = true ∧
            j.labels.contains l = true) := by
        intro l hg j hj hr hcontra
        rcases mem_removeLabelMap hj with ⟨i, him, hnum, hrep, hshr, hifm, hifn⟩
        by_cases hmatch : i.number = active.issueNumber ∧ i.repo = r0
        · have hfalse := hifm hmatch
          rw [hcontra.1] at hfalse
          cases hfalse
        · have hji := hifn hmatch
          subst hji
          apply hmatch
          refine ⟨?_, hr⟩
          exact h.mactive b l active hg hmk j him hr hcontra.1 hcontra.2
      exact QInv_markClear h1 b hfree
    | none =>
      dsimp only
      apply QInv_markClear h b
      intro l hg j hj hr
      exact h.mfree b l hg (by intro t ht; rw [hmk] at ht; simp at ht) j hj hr
  | none =>
    dsimp only
    apply QInv_markClear h b
    intro l hg j hj hr
    exact h.mfree b l hg (by intro t ht; rw [hmk] at ht; simp at ht) j hj hr

/-- Under the invariant, a branch with no active marker has no executing
issue, so the `queue_is_busy` fallback query is empty. -/
theorem execQuery_nil {cfg : Config} {r0 : String} {s : SysState}
    {b l : String} (h : QInv cfg r0 s) (hg : getDevLabel cfg b = some l)
    (hm : ∀ t, ¬ dget s.activeTicket (r0 ++ ":" ++ b) = some (some t)) :
    s.tracker.issues.filter (fun i => decide (i.repo = r0) &&
      (["queue:execute", l]).all (fun lab => i.labels.contains lab)) = [] := by
  rw [List.filter_eq_nil_iff]
  intro i him hp
  simp only [Bool.and_eq_true, decide_eq_true_eq, List.all_cons,
    List.all_nil, Bool.and_true] at hp
  exact h.mfree b l hg hm i him hp.1 ⟨hp.2.1, hp.2.2⟩

/-- Under the invariant, `queue_is_busy` performs no recovery: the state is
returned unchanged. -/
theorem queueIsBusy_fst_QInv {cfg : Config} {r0 : String} {env : Env}
    {s : SysState} (b : String) (hc : CfgClean cfg r0)
    (hrel : Env.reliable env) (h : QInv cfg r0 s) :
    (queueIsBusy cfg env (some r0) b s).1 = s := by
  unfold queueIsBusy ctxKeyOpt
  dsimp only
  cases hmk : dget s.activeTicket (r0 ++ ":" ++ b) with
  | some ot =>
    cases ot with
    | some t => rfl
    | none =>
      dsimp only
      cases hgd : getDevLabel cfg b with
      | none => rfl
      | some l =>
        dsimp only
        rw [ghList_eval ["queue:execute", l] s (ghRepoParts_r0 hc)
          hrel.2.2.2.2.1]
        rw [execQuery_nil h hgd (by intro t ht; rw [hmk] at ht; simp at ht)]
        rfl
  | none =>
    dsimp only
    cases hgd : getDevLabel cfg b with
    | none => rfl
    | some l =>
      dsimp only
      rw [ghList_eval ["queue:execute", l] s (ghRepoParts_r0 hc)
        hrel.2.2.2.2.1]
      rw [execQuery_nil h hgd (by intro t ht; rw [hmk] at ht; simp at ht)]
      rfl

/-- Under the invariant, a non-busy verdict means the marker is clear. -/
theorem queueIsBusy_false_marker {cfg : Config} {r0 : String} {env : Env}
    {s : SysState} (b : String) (hc : CfgClean cfg r0)
    (hrel : Env.reliable env) (h : QInv cfg r0 s)
    (hf : (queueIsBusy cfg env (some r0) b s).2 = false) :
    ∀ t, ¬ dget s.activeTicket (r0 ++ ":" ++ b) = some (some t) := by
  intro t ht
  unfold queueIsBusy ctxKeyOpt at hf
  dsimp only at hf
  rw [ht] at hf
  dsimp only at hf
  cases hf

theorem ctxKeyOpt_some (r b : String) : ctxKeyOpt (some r) b = r ++ ":" ++ b := rfl

theorem eq_of_number_nodup {xs : List Issue}
    (hn : (xs.map (fun i => i.number)).Nodup) {i j : Issue}
    (hi : i ∈ xs) (hj : j ∈ xs) (he : i.number = j.number) : i = j :=
  List.inj_on_of_nodup_map hn hi hj he

/-- Creating an issue that does not carry the executing label preserves the
invariant. -/
theorem QInv_createIssue {cfg : Config} {r0 : String} {s : SysState}
    (h : QInv cfg r0 s) (rep ti bo : String) (L : List String) (ca : Nat)
    (hexec : L.contains "queue:execute" = false)
    (honed : ∀ b1 l1 b2 l2, getDevLabel cfg b1 = some l1 →
      getDevLabel cfg b2 = some l2 → L.contains l1 = true →
      L.contains l2 = true → l1 = l2) :
    QInv cfg r0 { s with tracker := { s.tracker with
      issues := s.tracker.issues ++ [⟨s.tracker.nextNumber, rep, ti, bo, L, ca⟩],
      nextNumber := s.tracker.nextNumber + 1 } } := by
  refine ⟨h.uar, ?_, ?_, ?_, ?_, ?_⟩
  · intro j hj
    dsimp only
    rcases List.mem_append.mp hj with hm | hm
    · exact Nat.lt_succ_of_lt (h.bound j hm)
    · simp only [List.mem_singleton] at hm
      rw [hm]
      exact Nat.lt_succ_self _
  · dsimp only
    rw [List.map_append]
    simp only [List.map_cons, List.map_nil]
    rw [List.nodup_append]
    refine ⟨h.nodups, List.nodup_singleton _, ?_⟩
    intro a ha hb
    simp only [List.mem_singleton] at hb
    subst hb
    rcases List.mem_map.mp ha with ⟨i, him, hie⟩
    have := h.bound i him
    rw [hie] at this
    exact absurd this (Nat.lt_irrefl _)
  · intro j hj b1 l1 b2 l2 hg1 hg2 hc1 hc2
    rcases List.mem_append.mp hj with hm | hm
    · exact h.onedev j hm b1 l1 b2 l2 hg1 hg2 hc1 hc2
    · simp only [List.mem_singleton] at hm
      subst hm
      exact honed b1 l1 b2 l2 hg1 hg2 hc1 hc2
  · intro b' l' t' hg' hm' j hj hr hx hl
    rcases List.mem_append.mp hj with hm | hm
    · exact h.mactive b' l' t' hg' hm' j hm hr hx hl
    · simp only [List.mem_singleton] at hm
      subst hm
      rw [hx] at hexec
      cases hexec
  · intro b' l' hg' hm' j hj hr hcontra
    rcases List.mem_append.mp hj with hm | hm
    · exact h.mfree b' l' hg' hm' j hm hr hcontra
    · simp only [List.mem_singleton] at hm
      subst hm
      rw [hcontra.1] at hexec
      cases hexec

/-- Activating issue `n` on a branch with a clear marker and no executing
issue preserves the invariant, provided `n` carries no other branch's
developer label. -/
theorem QInv_activate {cfg : Config} {r0 : String} {env : Env} {s : SysState}
    (hc : CfgClean cfg r0) (h : QInv cfg r0 s) (b ti : String) (n : Nat)
    (hm : ∀ t, ¬ dget s.activeTicket (r0 ++ ":" ++ b) = some (some t))
    (hactiv : ∀ j ∈ s.tracker.issues, j.number = n → ∀ b' l',
      getDevLabel cfg b' = some l' → j.labels.contains l' = true → b' = b) :
    QInv cfg r0 (queueSetActive env (some r0) b n ti
      { s with tracker := { s.tracker with
        issues := addLabelMap n "queue:execute" r0 s.tracker.issues } }) := by
  unfold queueSetActive
  rw [ctxKeyOpt_some]
  refine ⟨h.uar, ?_, ?_, ?_, ?_, ?_⟩
  · intro j hj
    rcases mem_addLabelMap hj with ⟨i, him, hnum, hrep, hor⟩
    dsimp only
    rw [hnum]
    exact h.bound i him
  · dsimp only
    rw [addLabelMap_number]
    exact h.nodups
  · intro j hj b1 l1 b2 l2 hg1 hg2 hc1 hc2
    rcases mem_addLabelMap hj with ⟨i, him, hnum, hrep, hor⟩
    rcases hor with hji | ⟨hin, hirep, hlab⟩
    · rw [hji] at hc1 hc2
      exact h.onedev i him b1 l1 b2 l2 hg1 hg2 hc1 hc2
    · rw [hlab] at hc1 hc2
      rcases contains_append_one.mp hc1 with hm1 | hm1
      · rcases contains_append_one.mp hc2 with hm2 | hm2
        · exact h.onedev i him b1 l1 b2 l2 hg1 hg2
            (List.elem_iff.mpr hm1) (List.elem_iff.mpr hm2)
        · exact absurd hm2 (getDevLabel_clean hc hg2).1
      · exact absurd hm1 (getDevLabel_clean hc hg1).1
  · intro b' l' t' hg' hm' j hj hr hx hl
    dsimp only at hm'
    by_cases hb : b' = b
    · subst hb
      rw [dget_dset_self] at hm'
      have ht' : t' = ⟨n, ti⟩ := by
        simpa using hm'.symm
      subst ht'
      rcases mem_addLabelMap hj with ⟨i, him, hnum, hrep, hor⟩
      rcases hor with hji | ⟨hin, hirep, hlab⟩
      · rw [hji] at hx hl hr
        rw [hji]
        exact absurd ⟨hx, hl⟩ (h.mfree b' l' hg' hm i him hr)
      · rw [hnum, hin]
    · rw [dget_dset_ne _ (fun he => hb (ctxKey_inj he))] at hm'
      rcases mem_addLabelMap hj with ⟨i, him, hnum, hrep, hor⟩
      rcases hor with hji | ⟨hin, hirep, hlab⟩
      · rw [hji] at hx hl hr
        rw [hji]
        exact h.mactive b' l' t' hg' hm' i him hr hx hl
      · rw [hlab] at hl
        rcases contains_append_one.mp hl with hm1 | hm1
        · exact absurd (hactiv i him hin b' l' hg' (List.elem_iff.mpr hm1)) hb
        · exact absurd hm1 (getDevLabel_clean hc hg').1
  · intro b' l' hg' hm' j hj hr hcontra
    dsimp only at hm'
    by_cases hb : b' = b
    · subst hb
      exact hm' ⟨n, ti⟩ (dget_dset_self _ _ _)
    · rw [← ctxKeyOpt_some] at hm'
      have hm'' : ∀ t, ¬ dget s.activeTicket (r0 ++ ":" ++ b') = some (some t) := by
        intro t ht
        apply hm' t
        rw [ctxKeyOpt_some]
        rw [dget_dset_ne _ (fun he => hb (ctxKey_inj he))]
        exact ht
      rcases mem_addLabelMap hj with ⟨i, him, hnum, hrep, hor⟩
      rcases hor with hji | ⟨hin, hirep, hlab⟩
      · rw [hji] at hr hcontra
        exact h.mfree b' l' hg' hm'' i him hr hcontra
      · rw [hlab] at hcontra
        rcases contains_append_one.mp hcontra.2 with hm1 | hm1
        · exact absurd (hactiv i him hin b' l' hg' (List.elem_iff.mpr hm1)) hb
        · exact absurd hm1 (getDevLabel_clean hc hg').1

/-- `queue_process_next` on a branch with a clear marker preserves the
invariant. -/
theorem queueProcessNext_QInv {cfg : Config} {r0 : String} {env : Env}
    {s : SysState} (b : String) (hc : CfgClean cfg r0)
    (hrel : Env.reliable env) (h : QInv cfg r0 s)
    (hm : ∀ t, ¬ dget s.activeTicket (r0 ++ ":" ++ b) = some (some t)) :
    QInv cfg r0 ((queueProcessNext cfg env (some r0) b s).1) := by
  unfold queueProcessNext ctxKeyOpt
  try dsimp only
  cases hgd : getDevLabel cfg b with
  | none => exact h
  | some l =>
    try dsimp only
    rw [ghList_eval ["queue:pending", l] s (ghRepoParts_r0 hc) hrel.2.2.2.2.1]
    try dsimp only
    cases hq : (s.tracker.issues.filter (fun i => decide (i.repo = r0) &&
        (["queue:pending", l]).all (fun lab => i.labels.contains lab))).take 20 with
    | nil =>
      try dsimp only
      exact h
    | cons issue rest =>
      try dsimp only
      rw [ghRemoveLabel_eval issue.number "queue:pending" s
        (ghRepoParts_r0 hc) hrel.2.2.2.1]
      try dsimp only
      rw [ghAddLabel_eval issue.number "queue:execute" _
        (ghRepoParts_r0 hc) hrel.2.2.1]
      try dsimp only
      have hhead : issue ∈ s.tracker.issues ∧ issue.repo = r0 ∧
          issue.labels.contains "queue:pending" = true ∧
          issue.labels.contains l = true := by
        have h1 : issue ∈ (s.tracker.issues.filter (fun i => decide (i.repo = r0) &&
            (["queue:pending", l]).all (fun lab => i.labels.contains lab))).take 20 := by
          rw [hq]
          exact List.mem_cons_self _ _
        have h2 := (List.take_sublist _ _).subset h1
        have h3 := List.mem_filter.mp h2
        rcases h3 with ⟨him, hcond⟩
        simp only [Bool.and_eq_true, decide_eq_true_eq, List.all_cons,
          List.all_nil, Bool.and_true] at hcond
        exact ⟨him, hcond.1, hcond.2.1, hcond.2.2⟩
      have hS2 := QInv_removeLabel h issue.number "queue:pending" r0
      have hcore : QInv cfg r0 (queueSetActive env (some r0) b issue.number
          issue.title { { s with tracker := { s.tracker with
            issues := removeLabelMap issue.number "queue:pending" r0 s.tracker.issues } } with
            tracker := { { s with tracker := { s.tracker with
              issues := removeLabelMap issue.number "queue:pending" r0 s.tracker.issues } }.tracker with
              issues := addLabelMap issue.number "queue:execute" r0
                (removeLabelMap issue.number "queue:pending" r0 s.tracker.issues) } }) := by
        apply QInv_activate hc hS2 b issue.title issue.number
        · exact hm
        · intro j hj hjn b' l' hg' hl'
          rcases mem_removeLabelMap hj with ⟨i, him, hnum, hrep, hshr, hifm, hifn⟩
          have hin : i.number = issue.number := by rw [← hnum]; exact hjn
          have hii : i = issue := eq_of_number_nodup h.nodups him hhead.1 hin
          have hconl : i.labels.contains l = true := by rw [hii]; exact hhead.2.2.2
          have hl'i : i.labels.contains l' = true := hshr _ hl'
          have : l' = l := h.onedev i him b' l' b l hg' hgd hl'i hconl
          rw [this] at hg'
          exact getDevLabel_inj hc hg' hgd
      split
      · exact QInv_transfer hcore _ rfl rfl rfl rfl
      · exact hcore

theorem queueSize_fst (cfg : Config) (env : Env) (r? : Option String)
    (b : String) (s : SysState) : (queueSize cfg env r? b s).1 = s := by
  unfold queueSize
  cases hgd : getDevLabel cfg b with
  | none => rfl
  | some l =>
    dsimp only
    cases hql : ghListIssuesWithLabels cfg env ["queue:pending", l] r? s with
    | mk s1 r1 =>
      have h1 : s1 = s := by rw [fstOf hql, ghListIssuesWithLabels_fst]
      cases r1 with
      | ok xs => exact h1
      | error e => exact h1

theorem ghBranchExists_eval {cfg : Config} {env : Env} {repo? : Option String}
    {repo : String} (b : String) (s : SysState)
    (hrepo : ghRepoParts cfg repo? = .ok repo) :
    ghBranchExists cfg env b repo? s = (s, env.branchExists) := by
  unfold ghBranchExists
  rw [hrepo]

theorem mem_iteList {c : Prop} [Decidable c] {x : String} {l1 l2 : List String}
    (h : x ∈ (if c then l1 else l2)) : x ∈ l1 ∨ x ∈ l2 := by
  split at h
  · exact Or.inl h
  · exact Or.inr h

theorem contains_eq_false_of_not_mem {l : List String} {x : String}
    (h : x ∉ l) : l.contains x = false := by
  rw [Bool.eq_false_iff]
  intro hcontra
  exact h (List.elem_iff.mp hcontra)

theorem queueClearActive_marker (cfg : Config) (env : Env) (r0 b : String)
    (s : SysState) :
    dget (queueClearActive cfg env (some r0) b s).activeTicket
      (r0 ++ ":" ++ b) = some none := by
  unfold queueClearActive ctxKeyOpt
  dsimp only
  exact dget_dset_self _ _ _

/-- `/clear` preserves the queue invariant. -/
theorem handleClearCmd_QInv {cfg : Config} {r0 : String} {env : Env}
    {s : SysState} (chatId userId : Int) (hc : CfgClean cfg r0)
    (hrel : Env.reliable env) (h : QInv cfg r0 s) :
    QInv cfg r0 ((handleClearCmd cfg env chatId userId s).1) := by
  unfold handleClearCmd
  cases hdm : dget cfg.developerMap userId with
  | none => exact QInv_transfer h _ rfl rfl rfl rfl
  | some devInfo =>
    dsimp only
    rw [resolveRepo_eval hc h.uar chatId userId]
    simp only [ctxKeyOpt_some]
    rw [queueIsBusy_fst_QInv devInfo.branch hc hrel h]
    cases hqs : queueSize cfg env (some r0) devInfo.branch s with
    | mk s2 pc =>
      have hs2 : s2 = s := by rw [fstOf hqs, queueSize_fst]
      subst hs2
      dsimp only
      split
      · exact QInv_transfer h _ rfl rfl rfl rfl
      · have hclear := queueClearActive_QInv devInfo.branch hc hrel h
        have h4 : QInv cfg r0 ({ queueClearActive cfg env (some r0) devInfo.branch s2 with
            lastDeployUrl := dpop (queueClearActive cfg env (some r0) devInfo.branch s2).lastDeployUrl
              (r0 ++ ":" ++ devInfo.branch) }) :=
          QInv_transfer hclear _ rfl rfl rfl rfl
        have hm4 : ∀ t, ¬ dget ({ queueClearActive cfg env (some r0) devInfo.branch s2 with
            lastDeployUrl := dpop (queueClearActive cfg env (some r0) devInfo.branch s2).lastDeployUrl
              (r0 ++ ":" ++ devInfo.branch) }).activeTicket
            (r0 ++ ":" ++ devInfo.branch) = some (some t) := by
          intro t ht
          dsimp only at ht
          rw [queueClearActive_marker] at ht
          simp at ht
        have hpn := queueProcessNext_QInv devInfo.branch hc hrel h4 hm4
        split
        · split
          · rename_i s5 v heq
            have h5 : QInv cfg r0 s5 := by
              rw [fstOf heq]
              exact hpn
            exact QInv_transfer h5 _ rfl rfl rfl rfl
          · rename_i s5 heq
            have h5 : QInv cfg r0 s5 := by
              rw [fstOf heq]
              exact hpn
            exact QInv_transfer h5 _ rfl rfl rfl rfl
        · exact QInv_transfer h4 _ rfl rfl rfl rfl

theorem mem_bodyMap {xs : List Issue} {n : Nat} {repo bo : String} {j : Issue}
    (h : j ∈ xs.map (fun i =>
      if i.number = n ∧ i.repo = repo then { i with body := bo } else i)) :
    ∃ i ∈ xs, j.number = i.number ∧ j.repo = i.repo ∧ j.labels = i.labels := by
  rcases List.mem_map.mp h with ⟨i, him, hie⟩
  by_cases hcnd : i.number = n ∧ i.repo = repo
  · rw [if_pos hcnd] at hie
    exact ⟨i, him, by rw [← hie], by rw [← hie], by rw [← hie]⟩
  · rw [if_neg hcnd] at hie
    subst hie
    exact ⟨i, him, rfl, rfl, rfl⟩

/-- Where a label on a freshly created submit issue can come from. -/
theorem creation_mem_inv {cfg : Config} {x : String} {c1 c2 c3 c4 : Prop}
    [Decidable c1] [Decidable c2] [Decidable c3] [Decidable c4]
    {dl : List String}
    (h : x ∈ cfg.githubLabels ++
      (((if c1 then ["ci:multi-agent"] else []) ++
        (if c2 then ["ci:testing"] else []) ++
        (if c3 then ["ci:approve"] else [])) ++ dl ++
        (if c4 then ["queue:pending"] else []))) :
    x ∈ cfg.githubLabels ∨ x = "ci:multi-agent" ∨ x = "ci:testing" ∨
    x = "ci:approve" ∨ x ∈ dl ∨ x = "queue:pending" := by
  simp only [List.mem_append, or_assoc] at h
  rcases h with h | h | h | h | h | h
  · exact Or.inl h
  · rcases mem_iteList h with h | h
    · exact Or.inr (Or.inl (List.mem_singleton.mp h))
    · cases h
  · rcases mem_iteList h with h | h
    · exact Or.inr (Or.inr (Or.inl (List.mem_singleton.mp h)))
    · cases h
  · rcases mem_iteList h with h | h
    · exact Or.inr (Or.inr (Or.inr (Or.inl (List.mem_singleton.mp h))))
    · cases h
  · exact Or.inr (Or.inr (Or.inr (Or.inr (Or.inl h))))
  · rcases mem_iteList h with h | h
    · exact Or.inr (Or.inr (Or.inr (Or.inr (Or.inr (List.mem_singleton.mp h)))))
    · cases h
theorem QInv_bodyMap {cfg : Config} {r0 : String} {s : SysState}
    (h : QInv cfg r0 s) (n : Nat) (rep b : String) :
    QInv cfg r0 { s with tracker := { s.tracker with
      issues := s.tracker.issues.map (fun i =>
        if i.number = n ∧ i.repo = rep then { i with body := b } else i) } } :=
  QInv_transfer h _ rfl rfl rfl (bodyMap_ikey _ _ _ _)

/-- A compact state builder: replace the tracker issue list and counter. -/
def withIssues (s : SysState) (il : List Issue) (n : Nat) : SysState :=
  { s with tracker := { s.tracker with issues := il, nextNumber := n } }

theorem ghCreateIssue_eval2 {cfg : Config} {env : Env} {repo? : Option String}
    {repo : String} (t b : String) (extra : List String) (s : SysState)
    (hrepo : ghRepoParts cfg repo? = .ok repo)
    (hok : env.createIssueOk = true) :
    ghCreateIssue cfg env t b extra repo? s =
      (withIssues s (s.tracker.issues ++
          [⟨s.tracker.nextNumber, repo, t, b, cfg.githubLabels ++ extra, env.now⟩])
        (s.tracker.nextNumber + 1),
       .ok ⟨s.tracker.nextNumber, repo, t, b, cfg.githubLabels ++ extra, env.now⟩) :=
  ghCreateIssue_eval t b extra s hrepo hok

theorem ghUpdateIssue_eval2 {cfg : Config} {env : Env} {repo? : Option String}
    {repo : String} (n : Nat) (b : String) (s : SysState)
    (hrepo : ghRepoParts cfg repo? = .ok repo)
    (hok : env.updateIssueOk = true) :
    ghUpdateIssue cfg env n b repo? s =
      (withIssues s (s.tracker.issues.map (fun i =>
          if i.number = n ∧ i.repo = repo then { i with body := b } else i))
        s.tracker.nextNumber,
       .ok ()) :=
  ghUpdateIssue_eval n b s hrepo hok

theorem ghAddLabel_eval2 {cfg : Config} {env : Env} {repo? : Option String}
    {repo : String} (n : Nat) (lab : String) (s : SysState)
    (hrepo : ghRepoParts cfg repo? = .ok repo)
    (hadd : env.addLabel = LRes.ok) :
    ghAddLabel cfg env n lab repo? s =
      (withIssues s (addLabelMap n lab repo s.tracker.issues) s.tracker.nextNumber,
       .ok true) :=
  ghAddLabel_eval n lab s hrepo hadd

theorem QInv_createIssue2 {cfg : Config} {r0 : String} {s : SysState}
    (h : QInv cfg r0 s) (rep ti bo : String) (L : List String) (ca : Nat)
    (hexec : L.contains "queue:execute" = false)
    (honed : ∀ b1 l1 b2 l2, getDevLabel cfg b1 = some l1 →
      getDevLabel cfg b2 = some l2 → L.contains l1 = true →
      L.contains l2 = true → l1 = l2) :
    QInv cfg r0 (withIssues s
      (s.tracker.issues ++ [⟨s.tracker.nextNumber, rep, ti, bo, L, ca⟩])
      (s.tracker.nextNumber + 1)) :=
  QInv_createIssue h rep ti bo L ca hexec honed

theorem QInv_bodyMap2 {cfg : Config} {r0 : String} {s : SysState}
    (h : QInv cfg r0 s) (n : Nat) (rep b : String) :
    QInv cfg r0 (withIssues s (s.tracker.issues.map (fun i =>
        if i.number = n ∧ i.repo = rep then { i with body := b } else i))
      s.tracker.nextNumber) :=
  QInv_bodyMap h n rep b

theorem QInv_activate2 {cfg : Config} {r0 : String} {env : Env} {s : SysState}
    (hc : CfgClean cfg r0) (h : QInv cfg r0 s) (b ti : String) (n : Nat)
    (hm : ∀ t, ¬ dget s.activeTicket (r0 ++ ":" ++ b) = some (some t))
    (hactiv : ∀ j ∈ s.tracker.issues, j.number = n → ∀ b' l',
      getDevLabel cfg b' = some l' → j.labels.contains l' = true → b' = b) :
    QInv cfg r0 (queueSetActive env (some r0) b n ti
      (withIssues s (addLabelMap n "queue:execute" r0 s.tracker.issues)
        s.tracker.nextNumber)) :=
  QInv_activate hc h b ti n hm hactiv

theorem QInv_tgSendMessage {cfg : Config} {r0 : String} {s : SysState}
    (h : QInv cfg r0 s) (c : Int) (m : String) :
    QInv cfg r0 (tgSendMessage c m s) :=
  QInv_transfer h _ rfl rfl rfl rfl

theorem QInv_tgSendHtml {cfg : Config} {r0 : String} {s : SysState}
    (h : QInv cfg r0 s) (c : Int) (m : String) :
    QInv cfg r0 (tgSendHtml c m s) :=
  QInv_transfer h _ rfl rfl rfl rfl

/-- `creation_mem_inv` with the pending-queue tail already reduced. -/
theorem creation_mem_inv2 {cfg : Config} {x : String} {c1 c2 c3 : Prop}
    [Decidable c1] [Decidable c2] [Decidable c3]
    {dl qd : List String} (hqd : qd = [] ∨ qd = ["queue:pending"])
    (h : x ∈ cfg.githubLabels ++
      (((if c1 then ["ci:multi-agent"] else []) ++
        (if c2 then ["ci:testing"] else []) ++
        (if c3 then ["ci:approve"] else [])) ++ dl ++ qd)) :
    x ∈ cfg.githubLabels ∨ x = "ci:multi-agent" ∨ x = "ci:testing" ∨
    x = "ci:approve" ∨ x ∈ dl ∨ x = "queue:pending" := by
  simp only [List.mem_append, or_assoc] at h
  rcases h with h | h | h | h | h | h
  · exact Or.inl h
  · rcases mem_iteList h with h | h
    · exact Or.inr (Or.inl (List.mem_singleton.mp h))
    · cases h
  · rcases mem_iteList h with h | h
    · exact Or.inr (Or.inr (Or.inl (List.mem_singleton.mp h)))
    · cases h
  · rcases mem_iteList h with h | h
    · exact Or.inr (Or.inr (Or.inr (Or.inl (List.mem_singleton.mp h))))
    · cases h
  · exact Or.inr (Or.inr (Or.inr (Or.inr (Or.inl h))))
  · rcases hqd with hq | hq
    · rw [hq] at h
      cases h
    · rw [hq] at h
      exact Or.inr (Or.inr (Or.inr (Or.inr (Or.inr (List.mem_singleton.mp h)))))

theorem ghGetDefaultBranch_eval {cfg : Config} {r0 : String} (env : Env)
    (s : SysState) (hc : CfgClean cfg r0) :
    ghGetDefaultBranch cfg env (some r0) s = (s, env.getDefaultBranch) := by
  unfold ghGetDefaultBranch
  rw [ghRepoParts_r0 hc]

theorem ghPutFile_eval {cfg : Config} {r0 : String} (env : Env) (b p : String)
    (s : SysState) (hc : CfgClean cfg r0) :
    ghPutFile cfg env b p (some r0) s = (s, env.putFile) := by
  unfold ghPutFile
  rw [ghRepoParts_r0 hc]

theorem createBody_QInv {cfg : Config} {r0 : String} {env : Env}
    {s : SysState} (chatId clickerId : Int) (fromUser : TgUser) (st : Draft)
    (hc : CfgClean cfg r0) (hrel : Env.reliable env) (h : QInv cfg r0 s)
    (hst : st.repo = some r0 ∨ st.repo = none) :
    QInv cfg r0 ((createBody cfg env chatId clickerId fromUser st s).1) := by
  have horel : st.repo.orElse (fun x => resolveRepo cfg s chatId clickerId) = some r0 := by
    rcases hst with hst | hst
    · rw [hst]; rfl
    · rw [hst]
      dsimp only [Option.orElse]
      exact resolveRepo_eval hc h.uar chatId clickerId
  unfold createBody
  dsimp only
  rw [horel]
  dsimp only
  cases hdev : dget cfg.developerMap clickerId with
  | none =>
    try dsimp only
    rw [ghCreateIssue_eval _ _ _ _ (ghRepoParts_r0 hc) hrel.1]
    try dsimp only
    cases hss : st.screenshot with
    | none =>
      try dsimp only
      simp only [Option.map_none']
      try dsimp only
      rw [if_neg (show ¬ (("" : String) ≠ "" ∨ ("" : String) ≠ "") by decide)]
      try dsimp only
      rw [if_neg (show ¬ (false = true) by decide)]
      try dsimp only
      refine QInv_transfer (QInv_createIssue h _ _ _ _ _ ?hx1 ?ho1) _ rfl rfl rfl rfl
      case hx1 =>
        apply contains_eq_false_of_not_mem
        intro hmem
        rcases creation_mem_inv hmem with hm | hm | hm | hm | hm | hm
        · have hcc : cfg.githubLabels.contains "queue:execute" = true := List.elem_iff.mpr hm
          rw [hc.2.2.2.2.2.2] at hcc
          cases hcc
        · exact absurd hm (by decide)
        · exact absurd hm (by decide)
        · exact absurd hm (by decide)
        · cases hm
        · exact absurd hm (by decide)
      case ho1 =>
        intro b1 l1 b2 l2 hg1 hg2 hc1 hc2
        have hm1 := creation_mem_inv (List.elem_iff.mp hc1)
        have hm2 := creation_mem_inv (List.elem_iff.mp hc2)
        have hone : ∀ bx lx, getDevLabel cfg bx = some lx →
            lx ∈ cfg.githubLabels ∨ lx = "ci:multi-agent" ∨ lx = "ci:testing" ∨
            lx = "ci:approve" ∨ lx ∈ ([] : List String) ∨ lx = "queue:pending" → lx ∈ ([] : List String) := by
          intro bx lx hgx hmx
          have hcl := getDevLabel_clean hc hgx
          rcases hmx with hm | hm | hm | hm | hm | hm
          · have hcc : cfg.githubLabels.contains lx = true := List.elem_iff.mpr hm
            rw [hcl.2.2.2.2.2] at hcc
            cases hcc
          · exact absurd hm hcl.2.2.1
          · exact absurd hm hcl.2.2.2.1
          · exact absurd hm hcl.2.2.2.2.1
          · exact hm
          · exact absurd hm hcl.2.1
        have hd1 := hone b1 l1 hg1 hm1
        have hd2 := hone b2 l2 hg2 hm2
        cases hd1
    | some shot =>
      simp only [Option.map_none']
      try dsimp only
      rw [ghGetDefaultBranch_eval _ _ hc]
      cases hgdb : env.getDefaultBranch with
      | error e =>
        try dsimp only
        refine QInv_createIssue h _ _ _ _ _ ?hx2 ?ho2
        case hx2 =>
          apply contains_eq_false_of_not_mem
          intro hmem
          rcases creation_mem_inv hmem with hm | hm | hm | hm | hm | hm
          · have hcc : cfg.githubLabels.contains "queue:execute" = true := List.elem_iff.mpr hm
            rw [hc.2.2.2.2.2.2] at hcc
            cases hcc
          · exact absurd hm (by decide)
          · exact absurd hm (by decide)
          · exact absurd hm (by decide)
          · cases hm
          · exact absurd hm (by decide)
        case ho2 =>
          intro b1 l1 b2 l2 hg1 hg2 hc1 hc2
          have hm1 := creation_mem_inv (List.elem_iff.mp hc1)
          have hm2 := creation_mem_inv (List.elem_iff.mp hc2)
          have hone : ∀ bx lx, getDevLabel cfg bx = some lx →
              lx ∈ cfg.githubLabels ∨ lx = "ci:multi-agent" ∨ lx = "ci:testing" ∨
              lx = "ci:approve" ∨ lx ∈ ([] : List String) ∨ lx = "queue:pending" → lx ∈ ([] : List String) := by
            intro bx lx hgx hmx
            have hcl := getDevLabel_clean hc hgx
            rcases hmx with hm | hm | hm | hm | hm | hm
            · have hcc : cfg.githubLabels.contains lx = true := List.elem_iff.mpr hm
              rw [hcl.2.2.2.2.2] at hcc
              cases hcc
            · exact absurd hm hcl.2.2.1
            · exact absurd hm hcl.2.2.2.1
            · exact absurd hm hcl.2.2.2.2.1
            · exact hm
            · exact absurd hm hcl.2.1
          have hd1 := hone b1 l1 hg1 hm1
          have hd2 := hone b2 l2 hg2 hm2
          cases hd1
      | ok db =>
        try dsimp only
        cases hfp : env.getFilePath with
        | error e =>
          try dsimp only
          refine QInv_createIssue h _ _ _ _ _ ?hx3 ?ho3
          case hx3 =>
            apply contains_eq_false_of_not_mem
            intro hmem
            rcases creation_mem_inv hmem with hm | hm | hm | hm | hm | hm
            · have hcc : cfg.githubLabels.contains "queue:execute" = true := List.elem_iff.mpr hm
              rw [hc.2.2.2.2.2.2] at hcc
              cases hcc
            · exact absurd hm (by decide)
            · exact absurd hm (by decide)
            · exact absurd hm (by decide)
            · cases hm
            · exact absurd hm (by decide)
          case ho3 =>
            intro b1 l1 b2 l2 hg1 hg2 hc1 hc2
            have hm1 := creation_mem_inv (List.elem_iff.mp hc1)
            have hm2 := creation_mem_inv (List.elem_iff.mp hc2)
            have hone : ∀ bx lx, getDevLabel cfg bx = some lx →
                lx ∈ cfg.githubLabels ∨ lx = "ci:multi-agent" ∨ lx = "ci:testing" ∨
                lx = "ci:approve" ∨ lx ∈ ([] : List String) ∨ lx = "queue:pending" → lx ∈ ([] : List String) := by
              intro bx lx hgx hmx
              have hcl := getDevLabel_clean hc hgx
              rcases hmx with hm | hm | hm | hm | hm | hm
              · have hcc : cfg.githubLabels.contains lx = true := List.elem_iff.mpr hm
                rw [hcl.2.2.2.2.2] at hcc
                cases hcc
              · exact absurd hm hcl.2.2.1
              · exact absurd hm hcl.2.2.2.1
              · exact absurd hm hcl.2.2.2.2.1
              · exact hm
              · exact absurd hm hcl.2.1
            have hd1 := hone b1 l1 hg1 hm1
            have hd2 := hone b2 l2 hg2 hm2
            cases hd1
        | ok o =>
          cases o with
          | none =>
            try dsimp only
            refine QInv_createIssue h _ _ _ _ _ ?hx4 ?ho4
            case hx4 =>
              apply contains_eq_false_of_not_mem
              intro hmem
              rcases creation_mem_inv hmem with hm | hm | hm | hm | hm | hm
              · have hcc : cfg.githubLabels.contains "queue:execute" = true := List.elem_iff.mpr hm
                rw [hc.2.2.2.2.2.2] at hcc
                cases hcc
              · exact absurd hm (by decide)
              · exact absurd hm (by decide)
              · exact absurd hm (by decide)
              · cases hm
              · exact absurd hm (by decide)
            case ho4 =>
              intro b1 l1 b2 l2 hg1 hg2 hc1 hc2
              have hm1 := creation_mem_inv (List.elem_iff.mp hc1)
              have hm2 := creation_mem_inv (List.elem_iff.mp hc2)
              have hone : ∀ bx lx, getDevLabel cfg bx = some lx →
                  lx ∈ cfg.githubLabels ∨ lx = "ci:multi-agent" ∨ lx = "ci:testing" ∨
                  lx = "ci:approve" ∨ lx ∈ ([] : List String) ∨ lx = "queue:pending" → lx ∈ ([] : List String) := by
                intro bx lx hgx hmx
                have hcl := getDevLabel_clean hc hgx
                rcases hmx with hm | hm | hm | hm | hm | hm
                · have hcc : cfg.githubLabels.contains lx = true := List.elem_iff.mpr hm
                  rw [hcl.2.2.2.2.2] at hcc
                  cases hcc
                · exact absurd hm hcl.2.2.1
                · exact absurd hm hcl.2.2.2.1
                · exact absurd hm hcl.2.2.2.2.1
                · exact hm
                · exact absurd hm hcl.2.1
              have hd1 := hone b1 l1 hg1 hm1
              have hd2 := hone b2 l2 hg2 hm2
              cases hd1
          | some p =>
            try dsimp only
            rw [if_pos hrel.2.2.2.2.2.2]
            rw [ghPutFile_eval _ _ _ _ hc]
            cases hpu : env.putFile with
            | error e =>
              try dsimp only
              refine QInv_createIssue h _ _ _ _ _ ?hx5 ?ho5
              case hx5 =>
                apply contains_eq_false_of_not_mem
                intro hmem
                rcases creation_mem_inv hmem with hm | hm | hm | hm | hm | hm
                · have hcc : cfg.githubLabels.contains "queue:execute" = true := List.elem_iff.mpr hm
                  rw [hc.2.2.2.2.2.2] at hcc
                  cases hcc
                · exact absurd hm (by decide)
                · exact absurd hm (by decide)
                · exact absurd hm (by decide)
                · cases hm
                · exact absurd hm (by decide)
              case ho5 =>
                intro b1 l1 b2 l2 hg1 hg2 hc1 hc2
                have hm1 := creation_mem_inv (List.elem_iff.mp hc1)
                have hm2 := creation_mem_inv (List.elem_iff.mp hc2)
                have hone : ∀ bx lx, getDevLabel cfg bx = some lx →
                    lx ∈ cfg.githubLabels ∨ lx = "ci:multi-agent" ∨ lx = "ci:testing" ∨
                    lx = "ci:approve" ∨ lx ∈ ([] : List String) ∨ lx = "queue:pending" → lx ∈ ([] : List String) := by
                  intro bx lx hgx hmx
                  have hcl := getDevLabel_clean hc hgx
                  rcases hmx with hm | hm | hm | hm | hm | hm
                  · have hcc : cfg.githubLabels.contains lx = true := List.elem_iff.mpr hm
                    rw [hcl.2.2.2.2.2] at hcc
                    cases hcc
                  · exact absurd hm hcl.2.2.1
                  · exact absurd hm hcl.2.2.2.1
                  · exact absurd hm hcl.2.2.2.2.1
                  · exact hm
                  · exact absurd hm hcl.2.1
                have hd1 := hone b1 l1 hg1 hm1
                have hd2 := hone b2 l2 hg2 hm2
                cases hd1
            | ok htmlUrl =>
              try dsimp only
              by_cases hcond : ("\nBranch: `" ++ db ++ "` (default)") ≠ "" ∨ ("\nScreenshot: " ++ htmlUrl) ≠ ""
              · rw [if_pos hcond]
                rw [ghUpdateIssue_eval _ _ _ (ghRepoParts_r0 hc) hrel.2.1]
                try dsimp only
                rw [if_neg (show ¬ (false = true) by decide)]
                try dsimp only
                refine QInv_transfer (QInv_bodyMap (QInv_createIssue h _ _ _ _ _ ?hx6 ?ho6) _ _ _) _ rfl rfl rfl rfl
                case hx6 =>
                  apply contains_eq_false_of_not_mem
                  intro hmem
                  rcases creation_mem_inv hmem with hm | hm | hm | hm | hm | hm
                  · have hcc : cfg.githubLabels.contains "queue:execute" = true := List.elem_iff.mpr hm
                    rw [hc.2.2.2.2.2.2] at hcc
                    cases hcc
                  · exact absurd hm (by decide)
                  · exact absurd hm (by decide)
                  · exact absurd hm (by decide)
                  · cases hm
                  · exact absurd hm (by decide)
                case ho6 =>
                  intro b1 l1 b2 l2 hg1 hg2 hc1 hc2
                  have hm1 := creation_mem_inv (List.elem_iff.mp hc1)
                  have hm2 := creation_mem_inv (List.elem_iff.mp hc2)
                  have hone : ∀ bx lx, getDevLabel cfg bx = some lx →
                      lx ∈ cfg.githubLabels ∨ lx = "ci:multi-agent" ∨ lx = "ci:testing" ∨
                      lx = "ci:approve" ∨ lx ∈ ([] : List String) ∨ lx = "queue:pending" → lx ∈ ([] : List String) := by
                    intro bx lx hgx hmx
                    have hcl := getDevLabel_clean hc hgx
                    rcases hmx with hm | hm | hm | hm | hm | hm
                    · have hcc : cfg.githubLabels.contains lx = true := List.elem_iff.mpr hm
                      rw [hcl.2.2.2.2.2] at hcc
                      cases hcc
                    · exact absurd hm hcl.2.2.1
                    · exact absurd hm hcl.2.2.2.1
                    · exact absurd hm hcl.2.2.2.2.1
                    · exact hm
                    · exact absurd hm hcl.2.1
                  have hd1 := hone b1 l1 hg1 hm1
                  have hd2 := hone b2 l2 hg2 hm2
                  cases hd1
              · rw [if_neg hcond]
                try dsimp only
                rw [if_neg (show ¬ (false = true) by decide)]
                try dsimp only
                refine QInv_transfer (QInv_createIssue h _ _ _ _ _ ?hx7 ?ho7) _ rfl rfl rfl rfl
                case hx7 =>
                  apply contains_eq_false_of_not_mem
                  intro hmem
                  rcases creation_mem_inv hmem with hm | hm | hm | hm | hm | hm
                  · have hcc : cfg.githubLabels.contains "queue:execute" = true := List.elem_iff.mpr hm
                    rw [hc.2.2.2.2.2.2] at hcc
                    cases hcc
                  · exact absurd hm (by decide)
                  · exact absurd hm (by decide)
                  · exact absurd hm (by decide)
                  · cases hm
                  · exact absurd hm (by decide)
                case ho7 =>
                  intro b1 l1 b2 l2 hg1 hg2 hc1 hc2
                  have hm1 := creation_mem_inv (List.elem_iff.mp hc1)
                  have hm2 := creation_mem_inv (List.elem_iff.mp hc2)
                  have hone : ∀ bx lx, getDevLabel cfg bx = some lx →
                      lx ∈ cfg.githubLabels ∨ lx = "ci:multi-agent" ∨ lx = "ci:testing" ∨
                      lx = "ci:approve" ∨ lx ∈ ([] : List String) ∨ lx = "queue:pending" → lx ∈ ([] : List String) := by
                    intro bx lx hgx hmx
                    have hcl := getDevLabel_clean hc hgx
                    rcases hmx with hm | hm | hm | hm | hm | hm
                    · have hcc : cfg.githubLabels.contains lx = true := List.elem_iff.mpr hm
                      rw [hcl.2.2.2.2.2] at hcc
                      cases hcc
                    · exact absurd hm hcl.2.2.1
                    · exact absurd hm hcl.2.2.2.1
                    · exact absurd hm hcl.2.2.2.2.1
                    · exact hm
                    · exact absurd hm hcl.2.1
                  have hd1 := hone b1 l1 hg1 hm1
                  have hd2 := hone b2 l2 hg2 hm2
                  cases hd1
  | some di =>
    try dsimp only
    rw [ghBranchExists_eval _ _ (ghRepoParts_r0 hc), hrel.2.2.2.2.2.1]
    try dsimp only
    rw [if_pos (rfl : (true : Bool) = true)]
    try dsimp only
    cases hqb : queueIsBusy cfg env (some r0) di.branch { s with devChat := dset s.devChat (ctxKeyOpt (some r0) di.branch) { chatId := chatId, userId := clickerId, firstName := fromUser.firstName } } with
    | mk s2q busy =>
      try dsimp only
      have hSD : QInv cfg r0 { s with devChat := dset s.devChat (ctxKeyOpt (some r0) di.branch) { chatId := chatId, userId := clickerId, firstName := fromUser.firstName } } := QInv_transfer h _ rfl rfl rfl rfl
      have hs2q : s2q = { s with devChat := dset s.devChat (ctxKeyOpt (some r0) di.branch) { chatId := chatId, userId := clickerId, firstName := fromUser.firstName } } := by
        rw [fstOf hqb]
        exact queueIsBusy_fst_QInv di.branch hc hrel hSD
      subst hs2q
      rw [ghCreateIssue_eval2 _ _ _ _ (ghRepoParts_r0 hc) hrel.1]
      try dsimp only
      simp only [Option.map_some']
      try dsimp only
      cases busy with
      | true =>
        try dsimp only
        rw [if_pos (rfl : (true : Bool) = true)]
        try dsimp only
        cases hss : st.screenshot with
        | none =>
          try dsimp only
          by_cases hcond : ("\nBranch: `" ++ di.branch ++ "`") ≠ "" ∨ ("" : String) ≠ ""
          · rw [if_pos hcond]
            rw [ghUpdateIssue_eval2 _ _ _ (ghRepoParts_r0 hc) hrel.2.1]
            try dsimp only
            rw [queueSize_fst]
            refine QInv_tgSendHtml (QInv_bodyMap2 (QInv_createIssue2 hSD _ _ _ _ _ ?hxT1 ?hoT1) _ _ _) _ _
            case hxT1 =>
              apply contains_eq_false_of_not_mem
              intro hmem
              rcases creation_mem_inv2 (Or.inr rfl) hmem with hm | hm | hm | hm | hm | hm
              · have hcc : cfg.githubLabels.contains "queue:execute" = true := List.elem_iff.mpr hm
                rw [hc.2.2.2.2.2.2] at hcc
                cases hcc
              · exact absurd hm (by decide)
              · exact absurd hm (by decide)
              · exact absurd hm (by decide)
              · exact absurd (List.mem_singleton.mp hm).symm (cfgClean_devLabel hc (dget_some_mem hdev)).1
              · exact absurd hm (by decide)
            case hoT1 =>
              intro b1 l1 b2 l2 hg1 hg2 hc1 hc2
              have hone : ∀ bx lx, getDevLabel cfg bx = some lx →
                  lx ∈ cfg.githubLabels ∨ lx = "ci:multi-agent" ∨ lx = "ci:testing" ∨
                  lx = "ci:approve" ∨ lx ∈ [di.label] ∨ lx = "queue:pending" → lx = di.label := by
                intro bx lx hgx hmx
                have hcl := getDevLabel_clean hc hgx
                rcases hmx with hm | hm | hm | hm | hm | hm
                · have hcc : cfg.githubLabels.contains lx = true := List.elem_iff.mpr hm
                  rw [hcl.2.2.2.2.2] at hcc
                  cases hcc
                · exact absurd hm hcl.2.2.1
                · exact absurd hm hcl.2.2.2.1
                · exact absurd hm hcl.2.2.2.2.1
                · exact List.mem_singleton.mp hm
                · exact absurd hm hcl.2.1
              have hd1 := hone b1 l1 hg1 (creation_mem_inv2 (Or.inr rfl) (List.elem_iff.mp hc1))
              have hd2 := hone b2 l2 hg2 (creation_mem_inv2 (Or.inr rfl) (List.elem_iff.mp hc2))
              rw [hd1, hd2]
          · rw [if_neg hcond]
            try dsimp only
            rw [queueSize_fst]
            refine QInv_tgSendHtml (QInv_createIssue2 hSD _ _ _ _ _ ?hxT2 ?hoT2) _ _
            case hxT2 =>
              apply contains_eq_false_of_not_mem
              intro hmem
              rcases creation_mem_inv2 (Or.inr rfl) hmem with hm | hm | hm | hm | hm | hm
              · have hcc : cfg.githubLabels.contains "queue:execute" = true := List.elem_iff.mpr hm
                rw [hc.2.2.2.2.2.2] at hcc
                cases hcc
              · exact absurd hm (by decide)
              · exact absurd hm (by decide)
              · exact absurd hm (by decide)
              · exact absurd (List.mem_singleton.mp hm).symm (cfgClean_devLabel hc (dget_some_mem hdev)).1
              · exact absurd hm (by decide)
            case hoT2 =>
              intro b1 l1 b2 l2 hg1 hg2 hc1 hc2
              have hone : ∀ bx lx, getDevLabel cfg bx = some lx →
                  lx ∈ cfg.githubLabels ∨ lx = "ci:multi-agent" ∨ lx = "ci:testing" ∨
                  lx = "ci:approve" ∨ lx ∈ [di.label] ∨ lx = "queue:pending" → lx = di.label := by
                intro bx lx hgx hmx
                have hcl := getDevLabel_clean hc hgx
                rcases hmx with hm | hm | hm | hm | hm | hm
                · have hcc : cfg.githubLabels.contains lx = true := List.elem_iff.mpr hm
                  rw [hcl.2.2.2.2.2] at hcc
                  cases hcc
                · exact absurd hm hcl.2.2.1
                · exact absurd hm hcl.2.2.2.1
                · exact absurd hm hcl.2.2.2.2.1
                · exact List.mem_singleton.mp hm
                · exact absurd hm hcl.2.1
              have hd1 := hone b1 l1 hg1 (creation_mem_inv2 (Or.inr rfl) (List.elem_iff.mp hc1))
              have hd2 := hone b2 l2 hg2 (creation_mem_inv2 (Or.inr rfl) (List.elem_iff.mp hc2))
              rw [hd1, hd2]
        | some shot =>
          try dsimp only
          cases hfp : env.getFilePath with
          | error e =>
            try dsimp only
            refine QInv_createIssue2 hSD _ _ _ _ _ ?hxT3 ?hoT3
            case hxT3 =>
              apply contains_eq_false_of_not_mem
              intro hmem
              rcases creation_mem_inv2 (Or.inr rfl) hmem with hm | hm | hm | hm | hm | hm
              · have hcc : cfg.githubLabels.contains "queue:execute" = true := List.elem_iff.mpr hm
                rw [hc.2.2.2.2.2.2] at hcc
                cases hcc
              · exact absurd hm (by decide)
              · exact absurd hm (by decide)
              · exact absurd hm (by decide)
              · exact absurd (List.mem_singleton.mp hm).symm (cfgClean_devLabel hc (dget_some_mem hdev)).1
              · exact absurd hm (by decide)
            case hoT3 =>
              intro b1 l1 b2 l2 hg1 hg2 hc1 hc2
              have hone : ∀ bx lx, getDevLabel cfg bx = some lx →
                  lx ∈ cfg.githubLabels ∨ lx = "ci:multi-agent" ∨ lx = "ci:testing" ∨
                  lx = "ci:approve" ∨ lx ∈ [di.label] ∨ lx = "queue:pending" → lx = di.label := by
                intro bx lx hgx hmx
                have hcl := getDevLabel_clean hc hgx
                rcases hmx with hm | hm | hm | hm | hm | hm
                · have hcc : cfg.githubLabels.contains lx = true := List.elem_iff.mpr hm
                  rw [hcl.2.2.2.2.2] at hcc
                  cases hcc
                · exact absurd hm hcl.2.2.1
                · exact absurd hm hcl.2.2.2.1
                · exact absurd hm hcl.2.2.2.2.1
                · exact List.mem_singleton.mp hm
                · exact absurd hm hcl.2.1
              have hd1 := hone b1 l1 hg1 (creation_mem_inv2 (Or.inr rfl) (List.elem_iff.mp hc1))
              have hd2 := hone b2 l2 hg2 (creation_mem_inv2 (Or.inr rfl) (List.elem_iff.mp hc2))
              rw [hd1, hd2]
          | ok o =>
            cases o with
            | none =>
              try dsimp only
              refine QInv_createIssue2 hSD _ _ _ _ _ ?hxT4 ?hoT4
              case hxT4 =>
                apply contains_eq_false_of_not_mem
                intro hmem
                rcases creation_mem_inv2 (Or.inr rfl) hmem with hm | hm | hm | hm | hm | hm
                · have hcc : cfg.githubLabels.contains "queue:execute" = true := List.elem_iff.mpr hm
                  rw [hc.2.2.2.2.2.2] at hcc
                  cases hcc
                · exact absurd hm (by decide)
                · exact absurd hm (by decide)
                · exact absurd hm (by decide)
                · exact absurd (List.mem_singleton.mp hm).symm (cfgClean_devLabel hc (dget_some_mem hdev)).1
                · exact absurd hm (by decide)
              case hoT4 =>
                intro b1 l1 b2 l2 hg1 hg2 hc1 hc2
                have hone : ∀ bx lx, getDevLabel cfg bx = some lx →
                    lx ∈ cfg.githubLabels ∨ lx = "ci:multi-agent" ∨ lx = "ci:testing" ∨
                    lx = "ci:approve" ∨ lx ∈ [di.label] ∨ lx = "queue:pending" → lx = di.label := by
                  intro bx lx hgx hmx
                  have hcl := getDevLabel_clean hc hgx
                  rcases hmx with hm | hm | hm | hm | hm | hm
                  · have hcc : cfg.githubLabels.contains lx = true := List.elem_iff.mpr hm
                    rw [hcl.2.2.2.2.2] at hcc
                    cases hcc
                  · exact absurd hm hcl.2.2.1
                  · exact absurd hm hcl.2.2.2.1
                  · exact absurd hm hcl.2.2.2.2.1
                  · exact List.mem_singleton.mp hm
                  · exact absurd hm hcl.2.1
                have hd1 := hone b1 l1 hg1 (creation_mem_inv2 (Or.inr rfl) (List.elem_iff.mp hc1))
                have hd2 := hone b2 l2 hg2 (creation_mem_inv2 (Or.inr rfl) (List.elem_iff.mp hc2))
                rw [hd1, hd2]
            | some p =>
              try dsimp only
              rw [if_pos hrel.2.2.2.2.2.2]
              rw [ghPutFile_eval _ _ _ _ hc]
              cases hpu : env.putFile with
              | error e =>
                try dsimp only
                refine QInv_createIssue2 hSD _ _ _ _ _ ?hxT5 ?hoT5
                case hxT5 =>
                  apply contains_eq_false_of_not_mem
                  intro hmem
                  rcases creation_mem_inv2 (Or.inr rfl) hmem with hm | hm | hm | hm | hm | hm
                  · have hcc : cfg.githubLabels.contains "queue:execute" = true := List.elem_iff.mpr hm
                    rw [hc.2.2.2.2.2.2] at hcc
                    cases hcc
                  · exact absurd hm (by decide)
                  · exact absurd hm (by decide)
                  · exact absurd hm (by decide)
                  · exact absurd (List.mem_singleton.mp hm).symm (cfgClean_devLabel hc (dget_some_mem hdev)).1
                  · exact absurd hm (by decide)
                case hoT5 =>
                  intro b1 l1 b2 l2 hg1 hg2 hc1 hc2
                  have hone : ∀ bx lx, getDevLabel cfg bx = some lx →
                      lx ∈ cfg.githubLabels ∨ lx = "ci:multi-agent" ∨ lx = "ci:testing" ∨
                      lx = "ci:approve" ∨ lx ∈ [di.label] ∨ lx = "queue:pending" → lx = di.label := by
                    intro bx lx hgx hmx
                    have hcl := getDevLabel_clean hc hgx
                    rcases hmx with hm | hm | hm | hm | hm | hm
                    · have hcc : cfg.githubLabels.contains lx = true := List.elem_iff.mpr hm
                      rw [hcl.2.2.2.2.2] at hcc
                      cases hcc
                    · exact absurd hm hcl.2.2.1
                    · exact absurd hm hcl.2.2.2.1
                    · exact absurd hm hcl.2.2.2.2.1
                    · exact List.mem_singleton.mp hm
                    · exact absurd hm hcl.2.1
                  have hd1 := hone b1 l1 hg1 (creation_mem_inv2 (Or.inr rfl) (List.elem_iff.mp hc1))
                  have hd2 := hone b2 l2 hg2 (creation_mem_inv2 (Or.inr rfl) (List.elem_iff.mp hc2))
                  rw [hd1, hd2]
              | ok htmlUrl =>
                try dsimp only
                by_cases hcond : ("\nBranch: `" ++ di.branch ++ "`") ≠ "" ∨ ("\nScreenshot: " ++ htmlUrl) ≠ ""
                · rw [if_pos hcond]
                  rw [ghUpdateIssue_eval2 _ _ _ (ghRepoParts_r0 hc) hrel.2.1]
                  try dsimp only
                  rw [queueSize_fst]
                  refine QInv_tgSendHtml (QInv_bodyMap2 (QInv_createIssue2 hSD _ _ _ _ _ ?hxT6 ?hoT6) _ _ _) _ _
                  case hxT6 =>
                    apply contains_eq_false_of_not_mem
                    intro hmem
                    rcases creation_mem_inv2 (Or.inr rfl) hmem with hm | hm | hm | hm | hm | hm
                    · have hcc : cfg.githubLabels.contains "queue:execute" = true := List.elem_iff.mpr hm
                      rw [hc.2.2.2.2.2.2] at hcc
                      cases hcc
                    · exact absurd hm (by decide)
                    · exact absurd hm (by decide)
                    · exact absurd hm (by decide)
                    · exact absurd (List.mem_singleton.mp hm).symm (cfgClean_devLabel hc (dget_some_mem hdev)).1
                    · exact absurd hm (by decide)
                  case hoT6 =>
                    intro b1 l1 b2 l2 hg1 hg2 hc1 hc2
                    have hone : ∀ bx lx, getDevLabel cfg bx = some lx →
                        lx ∈ cfg.githubLabels ∨ lx = "ci:multi-agent" ∨ lx = "ci:testing" ∨
                        lx = "ci:approve" ∨ lx ∈ [di.label] ∨ lx = "queue:pending" → lx = di.label := by
                      intro bx lx hgx hmx
                      have hcl := getDevLabel_clean hc hgx
                      rcases hmx with hm | hm | hm | hm | hm | hm
                      · have hcc : cfg.githubLabels.contains lx = true := List.elem_iff.mpr hm
                        rw [hcl.2.2.2.2.2] at hcc
                        cases hcc
                      · exact absurd hm hcl.2.2.1
                      · exact absurd hm hcl.2.2.2.1
                      · exact absurd hm hcl.2.2.2.2.1
                      · exact List.mem_singleton.mp hm
                      · exact absurd hm hcl.2.1
                    have hd1 := hone b1 l1 hg1 (creation_mem_inv2 (Or.inr rfl) (List.elem_iff.mp hc1))
                    have hd2 := hone b2 l2 hg2 (creation_mem_inv2 (Or.inr rfl) (List.elem_iff.mp hc2))
                    rw [hd1, hd2]
                · rw [if_neg hcond]
                  try dsimp only
                  rw [queueSize_fst]
                  refine QInv_tgSendHtml (QInv_createIssue2 hSD _ _ _ _ _ ?hxT7 ?hoT7) _ _
                  case hxT7 =>
                    apply contains_eq_false_of_not_mem
                    intro hmem
                    rcases creation_mem_inv2 (Or.inr rfl) hmem with hm | hm | hm | hm | hm | hm
                    · have hcc : cfg.githubLabels.contains "queue:execute" = true := List.elem_iff.mpr hm
                      rw [hc.2.2.2.2.2.2] at hcc
                      cases hcc
                    · exact absurd hm (by decide)
                    · exact absurd hm (by decide)
                    · exact absurd hm (by decide)
                    · exact absurd (List.mem_singleton.mp hm).symm (cfgClean_devLabel hc (dget_some_mem hdev)).1
                    · exact absurd hm (by decide)
                  case hoT7 =>
                    intro b1 l1 b2 l2 hg1 hg2 hc1 hc2
                    have hone : ∀ bx lx, getDevLabel cfg bx = some lx →
                        lx ∈ cfg.githubLabels ∨ lx = "ci:multi-agent" ∨ lx = "ci:testing" ∨
                        lx = "ci:approve" ∨ lx ∈ [di.label] ∨ lx = "queue:pending" → lx = di.label := by
                      intro bx lx hgx hmx
                      have hcl := getDevLabel_clean hc hgx
                      rcases hmx with hm | hm | hm | hm | hm | hm
                      · have hcc : cfg.githubLabels.contains lx = true := List.elem_iff.mpr hm
                        rw [hcl.2.2.2.2.2] at hcc
                        cases hcc
                      · exact absurd hm hcl.2.2.1
                      · exact absurd hm hcl.2.2.2.1
                      · exact absurd hm hcl.2.2.2.2.1
                      · exact List.mem_singleton.mp hm
                      · exact absurd hm hcl.2.1
                    have hd1 := hone b1 l1 hg1 (creation_mem_inv2 (Or.inr rfl) (List.elem_iff.mp hc1))
                    have hd2 := hone b2 l2 hg2 (creation_mem_inv2 (Or.inr rfl) (List.elem_iff.mp hc2))
                    rw [hd1, hd2]
      | false =>
        try dsimp only
        rw [if_neg (show ¬ (false = true) by decide)]
        try dsimp only
        have hmar := queueIsBusy_false_marker di.branch hc hrel hSD (by rw [hqb])
        cases hss : st.screenshot with
        | none =>
          try dsimp only
          by_cases hcond : ("\nBranch: `" ++ di.branch ++ "`") ≠ "" ∨ ("" : String) ≠ ""
          · rw [if_pos hcond]
            rw [ghUpdateIssue_eval2 _ _ _ (ghRepoParts_r0 hc) hrel.2.1]
            try dsimp only
            rw [ghAddLabel_eval2 _ _ _ (ghRepoParts_r0 hc) hrel.2.2.1]
            try dsimp only
            rw [if_neg (show ¬ (false = true) by decide)]
            try dsimp only
            rw [queueSize_fst]
            apply QInv_tgSendMessage
            refine QInv_activate2 hc ?hsF1 di.branch _ _ ?hmF1 ?haF1
            case hmF1 =>
              intro t
              exact hmar t
            case haF1 =>
              intro j hj hn b' l' hg' hl'
              try dsimp only at hj
              rcases mem_bodyMap hj with ⟨i, him, hnum, hrep2, hlab⟩
              rcases List.mem_append.mp him with hold | hnew
              · have hbnd := h.bound i hold
                rw [← hnum, hn] at hbnd
                exact absurd hbnd (lt_irrefl _)
              · rw [hlab, List.mem_singleton.mp hnew] at hl'
                try dsimp only at hl'
                have hd := creation_mem_inv2 (Or.inl rfl) (List.elem_iff.mp hl')
                have hcl := getDevLabel_clean hc hg'
                have hleq : l' = di.label := by
                  rcases hd with hm | hm | hm | hm | hm | hm
                  · have hcc : cfg.githubLabels.contains l' = true := List.elem_iff.mpr hm
                    rw [hcl.2.2.2.2.2] at hcc
                    cases hcc
                  · exact absurd hm hcl.2.2.1
                  · exact absurd hm hcl.2.2.2.1
                  · exact absurd hm hcl.2.2.2.2.1
                  · exact List.mem_singleton.mp hm
                  · exact absurd hm hcl.2.1
                rw [hleq] at hg'
                exact getDevLabel_of_submitter hc hdev hg' 
            case hsF1 =>
              refine QInv_bodyMap2 (QInv_createIssue2 hSD _ _ _ _ _ ?hxF1 ?hoF1) _ _ _
              case hxF1 =>
                apply contains_eq_false_of_not_mem
                intro hmem
                rcases creation_mem_inv2 (Or.inl rfl) hmem with hm | hm | hm | hm | hm | hm
                · have hcc : cfg.githubLabels.contains "queue:execute" = true := List.elem_iff.mpr hm
                  rw [hc.2.2.2.2.2.2] at hcc
                  cases hcc
                · exact absurd hm (by decide)
                · exact absurd hm (by decide)
                · exact absurd hm (by decide)
                · exact absurd (List.mem_singleton.mp hm).symm (cfgClean_devLabel hc (dget_some_mem hdev)).1
                · exact absurd hm (by decide)
              case hoF1 =>
                intro b1 l1 b2 l2 hg1 hg2 hc1 hc2
                have hone : ∀ bx lx, getDevLabel cfg bx = some lx →
                    lx ∈ cfg.githubLabels ∨ lx = "ci:multi-agent" ∨ lx = "ci:testing" ∨
                    lx = "ci:approve" ∨ lx ∈ [di.label] ∨ lx = "queue:pending" → lx = di.label := by
                  intro bx lx hgx hmx
                  have hcl := getDevLabel_clean hc hgx
                  rcases hmx with hm | hm | hm | hm | hm | hm
                  · have hcc : cfg.githubLabels.contains lx = true := List.elem_iff.mpr hm
                    rw [hcl.2.2.2.2.2] at hcc
                    cases hcc
                  · exact absurd hm hcl.2.2.1
                  · exact absurd hm hcl.2.2.2.1
                  · exact absurd hm hcl.2.2.2.2.1
                  · exact List.mem_singleton.mp hm
                  · exact absurd hm hcl.2.1
                have hd1 := hone b1 l1 hg1 (creation_mem_inv2 (Or.inl rfl) (List.elem_iff.mp hc1))
                have hd2 := hone b2 l2 hg2 (creation_mem_inv2 (Or.inl rfl) (List.elem_iff.mp hc2))
                rw [hd1, hd2]
          · rw [if_neg hcond]
            try dsimp only
            rw [ghAddLabel_eval2 _ _ _ (ghRepoParts_r0 hc) hrel.2.2.1]
            try dsimp only
            rw [if_neg (show ¬ (false = true) by decide)]
            try dsimp only
            rw [queueSize_fst]
            apply QInv_tgSendMessage
            refine QInv_activate2 hc ?hsF2 di.branch _ _ ?hmF2 ?haF2
            case hmF2 =>
              intro t
              exact hmar t
            case haF2 =>
              intro j hj hn b' l' hg' hl'
              try dsimp only at hj
              rcases List.mem_append.mp hj with hold | hnew
              · have hbnd := h.bound j hold
                rw [hn] at hbnd
                exact absurd hbnd (lt_irrefl _)
              · rw [List.mem_singleton.mp hnew] at hl'
                try dsimp only at hl'
                have hd := creation_mem_inv2 (Or.inl rfl) (List.elem_iff.mp hl')
                have hcl := getDevLabel_clean hc hg'
                have hleq : l' = di.label := by
                  rcases hd with hm | hm | hm | hm | hm | hm
                  · have hcc : cfg.githubLabels.contains l' = true := List.elem_iff.mpr hm
                    rw [hcl.2.2.2.2.2] at hcc
                    cases hcc
                  · exact absurd hm hcl.2.2.1
                  · exact absurd hm hcl.2.2.2.1
                  · exact absurd hm hcl.2.2.2.2.1
                  · exact List.mem_singleton.mp hm
                  · exact absurd hm hcl.2.1
                rw [hleq] at hg'
                exact getDevLabel_of_submitter hc hdev hg' 
            case hsF2 =>
              refine QInv_createIssue2 hSD _ _ _ _ _ ?hxF2 ?hoF2
              case hxF2 =>
                apply contains_eq_false_of_not_mem
                intro hmem
                rcases creation_mem_inv2 (Or.inl rfl) hmem with hm | hm | hm | hm | hm | hm
                · have hcc : cfg.githubLabels.contains "queue:execute" = true := List.elem_iff.mpr hm
                  rw [hc.2.2.2.2.2.2] at hcc
                  cases hcc
                · exact absurd hm (by decide)
                · exact absurd hm (by decide)
                · exact absurd hm (by decide)
                · exact absurd (List.mem_singleton.mp hm).symm (cfgClean_devLabel hc (dget_some_mem hdev)).1
                · exact absurd hm (by decide)
              case hoF2 =>
                intro b1 l1 b2 l2 hg1 hg2 hc1 hc2
                have hone : ∀ bx lx, getDevLabel cfg bx = some lx →
                    lx ∈ cfg.githubLabels ∨ lx = "ci:multi-agent" ∨ lx = "ci:testing" ∨
                    lx = "ci:approve" ∨ lx ∈ [di.label] ∨ lx = "queue:pending" → lx = di.label := by
                  intro bx lx hgx hmx
                  have hcl := getDevLabel_clean hc hgx
                  rcases hmx with hm | hm | hm | hm | hm | hm
                  · have hcc : cfg.githubLabels.contains lx = true := List.elem_iff.mpr hm
                    rw [hcl.2.2.2.2.2] at hcc
                    cases hcc
                  · exact absurd hm hcl.2.2.1
                  · exact absurd hm hcl.2.2.2.1
                  · exact absurd hm hcl.2.2.2.2.1
                  · exact List.mem_singleton.mp hm
                  · exact absurd hm hcl.2.1
                have hd1 := hone b1 l1 hg1 (creation_mem_inv2 (Or.inl rfl) (List.elem_iff.mp hc1))
                have hd2 := hone b2 l2 hg2 (creation_mem_inv2 (Or.inl rfl) (List.elem_iff.mp hc2))
                rw [hd1, hd2]
        | some shot =>
          try dsimp only
          cases hfp : env.getFilePath with
          | error e =>
            try dsimp only
            refine QInv_createIssue2 hSD _ _ _ _ _ ?hxF3 ?hoF3
            case hxF3 =>
              apply contains_eq_false_of_not_mem
              intro hmem
              rcases creation_mem_inv2 (Or.inl rfl) hmem with hm | hm | hm | hm | hm | hm
              · have hcc : cfg.githubLabels.contains "queue:execute" = true := List.elem_iff.mpr hm
                rw [hc.2.2.2.2.2.2] at hcc
                cases hcc
              · exact absurd hm (by decide)
              · exact absurd hm (by decide)
              · exact absurd hm (by decide)
              · exact absurd (List.mem_singleton.mp hm).symm (cfgClean_devLabel hc (dget_some_mem hdev)).1
              · exact absurd hm (by decide)
            case hoF3 =>
              intro b1 l1 b2 l2 hg1 hg2 hc1 hc2
              have hone : ∀ bx lx, getDevLabel cfg bx = some lx →
                  lx ∈ cfg.githubLabels ∨ lx = "ci:multi-agent" ∨ lx = "ci:testing" ∨
                  lx = "ci:approve" ∨ lx ∈ [di.label] ∨ lx = "queue:pending" → lx = di.label := by
                intro bx lx hgx hmx
                have hcl := getDevLabel_clean hc hgx
                rcases hmx with hm | hm | hm | hm | hm | hm
                · have hcc : cfg.githubLabels.contains lx = true := List.elem_iff.mpr hm
                  rw [hcl.2.2.2.2.2] at hcc
                  cases hcc
                · exact absurd hm hcl.2.2.1
                · exact absurd hm hcl.2.2.2.1
                · exact absurd hm hcl.2.2.2.2.1
                · exact List.mem_singleton.mp hm
                · exact absurd hm hcl.2.1
              have hd1 := hone b1 l1 hg1 (creation_mem_inv2 (Or.inl rfl) (List.elem_iff.mp hc1))
              have hd2 := hone b2 l2 hg2 (creation_mem_inv2 (Or.inl rfl) (List.elem_iff.mp hc2))
              rw [hd1, hd2]
          | ok o =>
            cases o with
            | none =>
              try dsimp only
              refine QInv_createIssue2 hSD _ _ _ _ _ ?hxF4 ?hoF4
              case hxF4 =>
                apply contains_eq_false_of_not_mem
                intro hmem
                rcases creation_mem_inv2 (Or.inl rfl) hmem with hm | hm | hm | hm | hm | hm
                · have hcc : cfg.githubLabels.contains "queue:execute" = true := List.elem_iff.mpr hm
                  rw [hc.2.2.2.2.2.2] at hcc
                  cases hcc
                · exact absurd hm (by decide)
                · exact absurd hm (by decide)
                · exact absurd hm (by decide)
                · exact absurd (List.mem_singleton.mp hm).symm (cfgClean_devLabel hc (dget_some_mem hdev)).1
                · exact absurd hm (by decide)
              case hoF4 =>
                intro b1 l1 b2 l2 hg1 hg2 hc1 hc2
                have hone : ∀ bx lx, getDevLabel cfg bx = some lx →
                    lx ∈ cfg.githubLabels ∨ lx = "ci:multi-agent" ∨ lx = "ci:testing" ∨
                    lx = "ci:approve" ∨ lx ∈ [di.label] ∨ lx = "queue:pending" → lx = di.label := by
                  intro bx lx hgx hmx
                  have hcl := getDevLabel_clean hc hgx
                  rcases hmx with hm | hm | hm | hm | hm | hm
                  · have hcc : cfg.githubLabels.contains lx = true := List.elem_iff.mpr hm
                    rw [hcl.2.2.2.2.2] at hcc
                    cases hcc
                  · exact absurd hm hcl.2.2.1
                  · exact absurd hm hcl.2.2.2.1
                  · exact absurd hm hcl.2.2.2.2.1
                  · exact List.mem_singleton.mp hm
                  · exact absurd hm hcl.2.1
                have hd1 := hone b1 l1 hg1 (creation_mem_inv2 (Or.inl rfl) (List.elem_iff.mp hc1))
                have hd2 := hone b2 l2 hg2 (creation_mem_inv2 (Or.inl rfl) (List.elem_iff.mp hc2))
                rw [hd1, hd2]
            | some p =>
              try dsimp only
              rw [if_pos hrel.2.2.2.2.2.2]
              rw [ghPutFile_eval _ _ _ _ hc]
              cases hpu : env.putFile with
              | error e =>
                try dsimp only
                refine QInv_createIssue2 hSD _ _ _ _ _ ?hxF5 ?hoF5
                case hxF5 =>
                  apply contains_eq_false_of_not_mem
                  intro hmem
                  rcases creation_mem_inv2 (Or.inl rfl) hmem with hm | hm | hm | hm | hm | hm
                  · have hcc : cfg.githubLabels.contains "queue:execute" = true := List.elem_iff.mpr hm
                    rw [hc.2.2.2.2.2.2] at hcc
                    cases hcc
                  · exact absurd hm (by decide)
                  · exact absurd hm (by decide)
                  · exact absurd hm (by decide)
                  · exact absurd (List.mem_singleton.mp hm).symm (cfgClean_devLabel hc (dget_some_mem hdev)).1
                  · exact absurd hm (by decide)
                case hoF5 =>
                  intro b1 l1 b2 l2 hg1 hg2 hc1 hc2
                  have hone : ∀ bx lx, getDevLabel cfg bx = some lx →
                      lx ∈ cfg.githubLabels ∨ lx = "ci:multi-agent" ∨ lx = "ci:testing" ∨
                      lx = "ci:approve" ∨ lx ∈ [di.label] ∨ lx = "queue:pending" → lx = di.label := by
                    intro bx lx hgx hmx
                    have hcl := getDevLabel_clean hc hgx
                    rcases hmx with hm | hm | hm | hm | hm | hm
                    · have hcc : cfg.githubLabels.contains lx = true := List.elem_iff.mpr hm
                      rw [hcl.2.2.2.2.2] at hcc
                      cases hcc
                    · exact absurd hm hcl.2.2.1
                    · exact absurd hm hcl.2.2.2.1
                    · exact absurd hm hcl.2.2.2.2.1
                    · exact List.mem_singleton.mp hm
                    · exact absurd hm hcl.2.1
                  have hd1 := hone b1 l1 hg1 (creation_mem_inv2 (Or.inl rfl) (List.elem_iff.mp hc1))
                  have hd2 := hone b2 l2 hg2 (creation_mem_inv2 (Or.inl rfl) (List.elem_iff.mp hc2))
                  rw [hd1, hd2]
              | ok htmlUrl =>
                try dsimp only
                by_cases hcond : ("\nBranch: `" ++ di.branch ++ "`") ≠ "" ∨ ("\nScreenshot: " ++ htmlUrl) ≠ ""
                · rw [if_pos hcond]
                  rw [ghUpdateIssue_eval2 _ _ _ (ghRepoParts_r0 hc) hrel.2.1]
                  try dsimp only
                  rw [ghAddLabel_eval2 _ _ _ (ghRepoParts_r0 hc) hrel.2.2.1]
                  try dsimp only
                  rw [if_neg (show ¬ (false = true) by decide)]
                  try dsimp only
                  rw [queueSize_fst]
                  apply QInv_tgSendMessage
                  refine QInv_activate2 hc ?hsF6 di.branch _ _ ?hmF6 ?haF6
                  case hmF6 =>
                    intro t
                    exact hmar t
                  case haF6 =>
                    intro j hj hn b' l' hg' hl'
                    try dsimp only at hj
                    rcases mem_bodyMap hj with ⟨i, him, hnum, hrep2, hlab⟩
                    rcases List.mem_append.mp him with hold | hnew
                    · have hbnd := h.bound i hold
                      rw [← hnum, hn] at hbnd
                      exact absurd hbnd (lt_irrefl _)
                    · rw [hlab, List.mem_singleton.mp hnew] at hl'
                      try dsimp only at hl'
                      have hd := creation_mem_inv2 (Or.inl rfl) (List.elem_iff.mp hl')
                      have hcl := getDevLabel_clean hc hg'
                      have hleq : l' = di.label := by
                        rcases hd with hm | hm | hm | hm | hm | hm
                        · have hcc : cfg.githubLabels.contains l' = true := List.elem_iff.mpr hm
                          rw [hcl.2.2.2.2.2] at hcc
                          cases hcc
                        · exact absurd hm hcl.2.2.1
                        · exact absurd hm hcl.2.2.2.1
                        · exact absurd hm hcl.2.2.2.2.1
                        · exact List.mem_singleton.mp hm
                        · exact absurd hm hcl.2.1
                      rw [hleq] at hg'
                      exact getDevLabel_of_submitter hc hdev hg' 
                  case hsF6 =>
                    refine QInv_bodyMap2 (QInv_createIssue2 hSD _ _ _ _ _ ?hxF6 ?hoF6) _ _ _
                    case hxF6 =>
                      apply contains_eq_false_of_not_mem
                      intro hmem
                      rcases creation_mem_inv2 (Or.inl rfl) hmem with hm | hm | hm | hm | hm | hm
                      · have hcc : cfg.githubLabels.contains "queue:execute" = true := List.elem_iff.mpr hm
                        rw [hc.2.2.2.2.2.2] at hcc
                        cases hcc
                      · exact absurd hm (by decide)
                      · exact absurd hm (by decide)
                      · exact absurd hm (by decide)
                      · exact absurd (List.mem_singleton.mp hm).symm (cfgClean_devLabel hc (dget_some_mem hdev)).1
                      · exact absurd hm (by decide)
                    case hoF6 =>
                      intro b1 l1 b2 l2 hg1 hg2 hc1 hc2
                      have hone : ∀ bx lx, getDevLabel cfg bx = some lx →
                          lx ∈ cfg.githubLabels ∨ lx = "ci:multi-agent" ∨ lx = "ci:testing" ∨
                          lx = "ci:approve" ∨ lx ∈ [di.label] ∨ lx = "queue:pending" → lx = di.label := by
                        intro bx lx hgx hmx
                        have hcl := getDevLabel_clean hc hgx
                        rcases hmx with hm | hm | hm | hm | hm | hm
                        · have hcc : cfg.githubLabels.contains lx = true := List.elem_iff.mpr hm
                          rw [hcl.2.2.2.2.2] at hcc
                          cases hcc
                        · exact absurd hm hcl.2.2.1
                        · exact absurd hm hcl.2.2.2.1
                        · exact absurd hm hcl.2.2.2.2.1
                        · exact List.mem_singleton.mp hm
                        · exact absurd hm hcl.2.1
                      have hd1 := hone b1 l1 hg1 (creation_mem_inv2 (Or.inl rfl) (List.elem_iff.mp hc1))
                      have hd2 := hone b2 l2 hg2 (creation_mem_inv2 (Or.inl rfl) (List.elem_iff.mp hc2))
                      rw [hd1, hd2]
                · rw [if_neg hcond]
                  try dsimp only
                  rw [ghAddLabel_eval2 _ _ _ (ghRepoParts_r0 hc) hrel.2.2.1]
                  try dsimp only
                  rw [if_neg (show ¬ (false = true) by decide)]
                  try dsimp only
                  rw [queueSize_fst]
                  apply QInv_tgSendMessage
                  refine QInv_activate2 hc ?hsF7 di.branch _ _ ?hmF7 ?haF7
                  case hmF7 =>
                    intro t
                    exact hmar t
                  case haF7 =>
                    intro j hj hn b' l' hg' hl'
                    try dsimp only at hj
                    rcases List.mem_append.mp hj with hold | hnew
                    · have hbnd := h.bound j hold
                      rw [hn] at hbnd
                      exact absurd hbnd (lt_irrefl _)
                    · rw [List.mem_singleton.mp hnew] at hl'
                      try dsimp only at hl'
                      have hd := creation_mem_inv2 (Or.inl rfl) (List.elem_iff.mp hl')
                      have hcl := getDevLabel_clean hc hg'
                      have hleq : l' = di.label := by
                        rcases hd with hm | hm | hm | hm | hm | hm
                        · have hcc : cfg.githubLabels.contains l' = true := List.elem_iff.mpr hm
                          rw [hcl.2.2.2.2.2] at hcc
                          cases hcc
                        · exact absurd hm hcl.2.2.1
                        · exact absurd hm hcl.2.2.2.1
                        · exact absurd hm hcl.2.2.2.2.1
                        · exact List.mem_singleton.mp hm
                        · exact absurd hm hcl.2.1
                      rw [hleq] at hg'
                      exact getDevLabel_of_submitter hc hdev hg' 
                  case hsF7 =>
                    refine QInv_createIssue2 hSD _ _ _ _ _ ?hxF7 ?hoF7
                    case hxF7 =>
                      apply contains_eq_false_of_not_mem
                      intro hmem
                      rcases creation_mem_inv2 (Or.inl rfl) hmem with hm | hm | hm | hm | hm | hm
                      · have hcc : cfg.githubLabels.contains "queue:execute" = true := List.elem_iff.mpr hm
                        rw [hc.2.2.2.2.2.2] at hcc
                        cases hcc
                      · exact absurd hm (by decide)
                      · exact absurd hm (by decide)
                      · exact absurd hm (by decide)
                      · exact absurd (List.mem_singleton.mp hm).symm (cfgClean_devLabel hc (dget_some_mem hdev)).1
                      · exact absurd hm (by decide)
                    case hoF7 =>
                      intro b1 l1 b2 l2 hg1 hg2 hc1 hc2
                      have hone : ∀ bx lx, getDevLabel cfg bx = some lx →
                          lx ∈ cfg.githubLabels ∨ lx = "ci:multi-agent" ∨ lx = "ci:testing" ∨
                          lx = "ci:approve" ∨ lx ∈ [di.label] ∨ lx = "queue:pending" → lx = di.label := by
                        intro bx lx hgx hmx
                        have hcl := getDevLabel_clean hc hgx
                        rcases hmx with hm | hm | hm | hm | hm | hm
                        · have hcc : cfg.githubLabels.contains lx = true := List.elem_iff.mpr hm
                          rw [hcl.2.2.2.2.2] at hcc
                          cases hcc
                        · exact absurd hm hcl.2.2.1
                        · exact absurd hm hcl.2.2.2.1
                        · exact absurd hm hcl.2.2.2.2.1
                        · exact List.mem_singleton.mp hm
                        · exact absurd hm hcl.2.1
                      have hd1 := hone b1 l1 hg1 (creation_mem_inv2 (Or.inl rfl) (List.elem_iff.mp hc1))
                      have hd2 := hone b2 l2 hg2 (creation_mem_inv2 (Or.inl rfl) (List.elem_iff.mp hc2))
                      rw [hd1, hd2]

/-- The `create` branch preserves the queue invariant: the body is the
walk of `createBody_QInv`; the `except` report and the `finally` pop only
touch the outbox and the pending drafts. -/
theorem handleCreate_QInv {cfg : Config} {r0 : String} {env : Env}
    {s : SysState} (chatId clickerId : Int) (fromUser : TgUser) (key : String)
    (st : Draft) (hc : CfgClean cfg r0) (hrel : Env.reliable env)
    (h : QInv cfg r0 s) (hst : st.repo = some r0 ∨ st.repo = none) :
    QInv cfg r0 (handleCreate cfg env chatId clickerId fromUser key st s) := by
  have hr := createBody_QInv chatId clickerId fromUser st hc hrel h hst
  unfold handleCreate
  cases hcb : createBody cfg env chatId clickerId fromUser st s with
  | mk s1 res =>
    rw [hcb] at hr
    dsimp only at hr
    dsimp only
    cases res with
    | ok a =>
      dsimp only
      exact QInv_transfer hr _ rfl rfl rfl rfl
    | error e =>
      dsimp only
      exact QInv_transfer hr _ rfl rfl rfl rfl

/-- A terminal CI signal (failure or merge) clears the active ticket and
advances the queue; the invariant is preserved. -/
theorem githubNotifyTerminal_QInv {cfg : Config} {r0 : String} {env : Env}
    {s : SysState} (b : String) (hc : CfgClean cfg r0)
    (hrel : Env.reliable env) (h : QInv cfg r0 s) :
    QInv cfg r0 (githubNotifyTerminal cfg env (some r0) b s) := by
  unfold githubNotifyTerminal
  have h1 := queueClearActive_QInv b hc hrel h
  have hm : ∀ t, ¬ dget (queueClearActive cfg env (some r0) b s).activeTicket
      (r0 ++ ":" ++ b) = some (some t) := by
    intro t hcontra
    rw [queueClearActive_marker] at hcontra
    cases hcontra
  exact queueProcessNext_QInv b hc hrel h1 hm

/-- The events of the label-based queueing mechanism named by the claim:
a draft submission (the `create` click), the operator `/clear` command,
and a terminal CI signal (failure or merge) for a branch. -/
inductive QEvent where
  | submit (env : Env) (chatId clickerId : Int) (fromUser : TgUser)
      (key : String) (st : Draft)
  | clearCmd (env : Env) (chatId userId : Int)
  | terminal (env : Env) (repo? : Option String) (branch : String)

/-- One step of the queueing mechanism. -/
def qStep (cfg : Config) (s : SysState) : QEvent → SysState
  | .submit env chatId clickerId fromUser key st =>
      handleCreate cfg env chatId clickerId fromUser key st s
  | .clearCmd env chatId userId => (handleClearCmd cfg env chatId userId s).1
  | .terminal env repo? branch => githubNotifyTerminal cfg env repo? branch s

/-- Sequential event handling. -/
def qRun (cfg : Config) (s : SysState) : List QEvent → SysState
  | [] => s
  | e :: es => qRun cfg (qStep cfg s e) es

/-- Event sanity: the external oracles answer reliably; a submitted draft
names the configured repository or no repository; a terminal signal names
the configured repository. -/
def QEventOK (r0 : String) : QEvent → Prop
  | .submit env _ _ _ _ st =>
      Env.reliable env ∧ (st.repo = some r0 ∨ st.repo = none)
  | .clearCmd env _ _ => Env.reliable env
  | .terminal env repo? _ => Env.reliable env ∧ repo? = some r0

/-- The initial state satisfies the queue invariant. -/
theorem QInv_init (cfg : Config) (r0 : String) : QInv cfg r0 initState := by
  refine ⟨rfl, ?_, ?_, ?_, ?_, ?_⟩
  · intro i hi
    cases hi
  · exact List.nodup_nil
  · intro i hi
    cases hi
  · intro b l t hg hm
    cases hm
  · intro b l hg hm j hj
    cases hj

/-- Each queue event preserves the invariant. -/
theorem qStep_QInv {cfg : Config} {r0 : String} {s : SysState} {e : QEvent}
    (hc : CfgClean cfg r0) (h : QInv cfg r0 s) (he : QEventOK r0 e) :
    QInv cfg r0 (qStep cfg s e) := by
  cases e with
  | submit env chatId clickerId fromUser key st =>
    exact handleCreate_QInv chatId clickerId fromUser key st hc he.1 h he.2
  | clearCmd env chatId userId =>
    exact handleClearCmd_QInv chatId userId hc he h
  | terminal env repo? branch =>
    have he2 : repo? = some r0 := he.2
    dsimp only [qStep]
    rw [he2]
    exact githubNotifyTerminal_QInv branch hc he.1 h

/-- Trace induction: the invariant holds in every reachable state. -/
theorem qRun_QInv {cfg : Config} {r0 : String} {evs : List QEvent}
    {s : SysState} (hc : CfgClean cfg r0) (h : QInv cfg r0 s)
    (hevs : ∀ e ∈ evs, QEventOK r0 e) :
    QInv cfg r0 (qRun cfg s evs) := by
  induction evs generalizing s with
  | nil => exact h
  | cons e es ih =>
    exact ih (qStep_QInv hc h (hevs e (List.mem_cons_self e es)))
      (fun e' he' => hevs e' (List.mem_cons_of_mem e he'))

/-- **C3**: for every (repo, branch) pair and every reachable state of the
system (sequential handling of submit clicks, `/clear` commands and
terminal CI signals from the initial state, tracker modeled as a label
store), at most one open issue simultaneously carries the
`queue:execute` label: the direct-activation path on submit only adds the
label when the branch is not busy, `queue_process_next` only activates
after the previous active ticket's label was removed by
`queue_clear_active`, and both set the in-memory active marker that makes
`queue_is_busy` true.  Stated for a clean configuration (distinct
developer labels disjoint from the base/queue labels, injective
label-to-branch mapping, all chats resolving to the configured
repository) and reliable tracker oracles. -/
theorem C3_at_most_one_executing (cfg : Config) (r0 : String)
    (evs : List QEvent) (hc : CfgClean cfg r0)
    (hevs : ∀ e ∈ evs, QEventOK r0 e) (b l : String)
    (hg : getDevLabel cfg b = some l) :
    (execIssues (qRun cfg initState evs).tracker.issues r0 l).length ≤ 1 :=
  QInv_exec_le_one (qRun_QInv hc (QInv_init cfg r0) hevs) hg

theorem C3_at_most_one_executing_witness :
    CfgClean cfgSample "own/repo" ∧
    QEventOK "own/repo" (QEvent.terminal envOkAll (some "own/repo") "dev/alice") ∧
    getDevLabel cfgSample "dev/alice" = some "developer:alice" ∧
    (execIssues (qRun cfgSample initState
        [QEvent.terminal envOkAll (some "own/repo") "dev/alice"]).tracker.issues
      "own/repo" "developer:alice").length ≤ 1 := by
  have hc : CfgClean cfgSample "own/repo" := by
    unfold CfgClean KeysNodup
    decide
  have hevs : ∀ e ∈ [QEvent.terminal envOkAll (some "own/repo") "dev/alice"],
      QEventOK "own/repo" e := by
    intro e he
    rw [List.mem_singleton.mp he]
    exact ⟨by decide, rfl⟩
  have hg : getDevLabel cfgSample "dev/alice" = some "developer:alice" := by decide
  exact ⟨hc, hevs _ (List.mem_singleton_self _), hg,
    C3_at_most_one_executing cfgSample "own/repo" _ hc hevs "dev/alice"
      "developer:alice" hg⟩

end Play4good
